import Mathlib

/-!
# Peer-connection negotiation engine of the video-conference client

A shallow embedding of `src/services/webrtcService.js`, `src/hooks/useWebRTC.js`
and the message builders of `src/services/signalingService.js`.

The browser's `RTCPeerConnection` is not code of the repository.  It is
modelled by the record `PeerConnection` and the `pc*` functions below, which
follow the signaling-state machine of the WebRTC recommendation; whether a call
into the browser succeeds is not decided by the engine, so every handler takes
an `Outcomes` record that fixes the result of each browser call it may make.

Two ghost fields of the engine state record what the handlers do to the outside
world: `sent` (the messages handed to `signalingService.send`) and `trace` (the
calls made on the transports, in the order they are made).
-/

namespace VideoConference

/-! ## Data model -/

abbrev UserId := String
abbrev RoomId := String

/-- A media track of the local stream. -/
structure Track where
  id : Nat
  deriving DecidableEq, Repr

/-- A media stream: `getTracks()` is the field `tracks`. -/
structure MediaStream where
  tracks : List Track
  deriving DecidableEq, Repr

/-- The payload of an ICE_CANDIDATE message. -/
structure IceCandidate where
  candidate : String
  sdpMid : Option String
  sdpMLineIndex : Option Nat
  deriving DecidableEq, Repr

/-- The browser's `RTCSdpType`, the `type` of a session description.  A
description of type `rollback` carries no sdp that matters. -/
inductive SdpType where
  | offer
  | pranswer
  | answer
  | rollback
  deriving DecidableEq, Repr

/-- The `{sdp, type}` payload of OFFER and ANSWER messages. -/
structure SessionDescription where
  type : SdpType
  sdp : String
  deriving DecidableEq, Repr

/-- The browser's `RTCSignalingState`. -/
inductive SignalingState where
  | stable
  | haveLocalOffer
  | haveRemoteOffer
  | haveLocalPranswer
  | haveRemotePranswer
  | closed
  deriving DecidableEq, Repr

/-- The part of an `RTCPeerConnection` the engine reads or writes, together
with the queue `pc._remoteCandidateQueue` that `createPeerConnection` attaches
to it. -/
structure PeerConnection where
  signalingState : SignalingState
  currentLocalDescription : Option SessionDescription
  pendingLocalDescription : Option SessionDescription
  currentRemoteDescription : Option SessionDescription
  pendingRemoteDescription : Option SessionDescription
  senders : List Track
  remoteCandidateQueue : List IceCandidate
  deriving DecidableEq, Repr

/-- The getter `pc.localDescription`: the pending description if there is one,
else the current one. -/
def PeerConnection.localDescription (pc : PeerConnection) : Option SessionDescription :=
  match pc.pendingLocalDescription with
  | some d => some d
  | none => pc.currentLocalDescription

/-- The getter `pc.remoteDescription`: the pending description if there is one,
else the current one. -/
def PeerConnection.remoteDescription (pc : PeerConnection) : Option SessionDescription :=
  match pc.pendingRemoteDescription with
  | some d => some d
  | none => pc.currentRemoteDescription

/-- A call made on a transport (ghost).  `addIceCandidate` records, besides the
candidate and whether the browser accepted it, whether `pc.remoteDescription`
was present at the moment of the call and what `pc._remoteCandidateQueue` held
at that moment. -/
inductive TransportOp where
  | created
  | addTrack (t : Track)
  | createOffer (ok : Bool)
  | createAnswer (ok : Bool)
  | setLocalDescription (d : SessionDescription) (ok : Bool)
  | rollback (ok : Bool)
  | setRemoteDescription (d : SessionDescription) (ok : Bool)
  | addIceCandidate (c : IceCandidate) (ok : Bool) (remoteSet : Bool) (queue : List IceCandidate)
  | close
  deriving DecidableEq, Repr

/-- The results of the browser calls one handler run may make. -/
structure Outcomes where
  /-- whether `pc.setLocalDescription({type: 'rollback'})` is accepted -/
  rollbackOk : Bool
  /-- whether `pc.setRemoteDescription(desc)` is accepted -/
  setRemoteOk : Bool
  /-- whether the k-th `pc.addIceCandidate` of this run is accepted -/
  candidateOk : Nat → Bool
  /-- the sdp `pc.createOffer()` / `pc.createAnswer()` produces, if it does -/
  createSdp : Option String
  /-- whether `pc.setLocalDescription(offer or answer)` is accepted -/
  setLocalOk : Bool

/-- `MessageType` of `utils/constants.js`. -/
inductive MessageType where
  | JOIN
  | LEAVE
  | ROOM_JOINED
  | USER_JOINED
  | USER_LEFT
  | OFFER
  | ANSWER
  | ICE_CANDIDATE
  | MEDIA_STATE
  | ROOM_INFO
  | ERROR
  deriving DecidableEq, Repr

/-- The `data` field of an outgoing message. -/
inductive MessageData where
  | absent
  | name (name : String)
  | description (sdp : String) (type : SdpType)
  | candidate (candidate : String) (sdpMid : Option String) (sdpMLineIndex : Option Nat)
  | mediaState (audioEnabled videoEnabled : Bool)
  deriving DecidableEq, Repr

/-- A message as it is handed to `signalingService.send` (which adds the
timestamp). -/
structure SignalMessage where
  type : MessageType
  fromId : UserId
  toId : Option UserId
  roomId : RoomId
  data : MessageData
  deriving DecidableEq, Repr

/-- A participant record of a ROOM_INFO snapshot. -/
structure Participant where
  userId : UserId
  name : String
  audioEnabled : Bool
  videoEnabled : Bool
  deriving DecidableEq, Repr

/-! ## The session map (a JavaScript `Map`, iterated in insertion order) -/

/-- `Map.prototype.get`. -/
def mapGet {α : Type} : List (UserId × α) → UserId → Option α
  | [], _ => none
  | (k, v) :: rest, key => if k = key then some v else mapGet rest key

/-- `Map.prototype.has`. -/
def mapHas {α : Type} (m : List (UserId × α)) (key : UserId) : Bool :=
  (mapGet m key).isSome

/-- `Map.prototype.set`: an existing key keeps its place, a new one goes last. -/
def mapSet {α : Type} : List (UserId × α) → UserId → α → List (UserId × α)
  | [], key, v => [(key, v)]
  | (k, w) :: rest, key, v =>
    if k = key then (k, v) :: rest else (k, w) :: mapSet rest key v

/-- `Map.prototype.delete`. -/
def mapDelete {α : Type} : List (UserId × α) → UserId → List (UserId × α)
  | [], _ => []
  | (k, w) :: rest, key =>
    if k = key then mapDelete rest key else (k, w) :: mapDelete rest key

/-- The keys of a map, in insertion order. -/
def mapKeys {α : Type} (m : List (UserId × α)) : List UserId :=
  m.map Prod.fst

/-! ## The browser's `RTCPeerConnection` -/

/-- The state of `new RTCPeerConnection(...)`. -/
def pcNew : PeerConnection :=
  { signalingState := .stable
    currentLocalDescription := none
    pendingLocalDescription := none
    currentRemoteDescription := none
    pendingRemoteDescription := none
    senders := []
    remoteCandidateQueue := [] }

/-- `pc.addTrack(track, stream)`: one more sender. -/
def pcAddTrack (pc : PeerConnection) (t : Track) : PeerConnection :=
  { pc with senders := pc.senders ++ [t] }

/-- `pc.setLocalDescription(d)`: `none` when the browser rejects the call.  A
description of type `rollback` drops the pending descriptions and is rejected
in the states that have no offer to roll back. -/
def pcSetLocalDescription (pc : PeerConnection) (d : SessionDescription) (ok : Bool) :
    Option PeerConnection :=
  if ok = false then none
  else
    match d.type, pc.signalingState with
    | .rollback, .haveLocalOffer | .rollback, .haveRemoteOffer =>
      some { pc with
        pendingLocalDescription := none
        pendingRemoteDescription := none
        signalingState := .stable }
    | .offer, .stable | .offer, .haveLocalOffer =>
      some { pc with pendingLocalDescription := some d, signalingState := .haveLocalOffer }
    | .answer, .haveRemoteOffer | .answer, .haveLocalPranswer =>
      some { pc with
        currentLocalDescription := some d
        currentRemoteDescription := pc.pendingRemoteDescription
        pendingLocalDescription := none
        pendingRemoteDescription := none
        signalingState := .stable }
    | .pranswer, .haveRemoteOffer | .pranswer, .haveLocalPranswer =>
      some { pc with pendingLocalDescription := some d, signalingState := .haveLocalPranswer }
    | _, _ => none

/-- `pc.setLocalDescription({type: 'rollback'})`: drops the pending
descriptions and returns to `stable`; rejected in the states that have nothing
to roll back. -/
def pcRollback (pc : PeerConnection) (ok : Bool) : Option PeerConnection :=
  if ok = false then none
  else
    match pc.signalingState with
    | .haveLocalOffer | .haveRemoteOffer =>
      some { pc with
        pendingLocalDescription := none
        pendingRemoteDescription := none
        signalingState := .stable }
    | _ => none

/-- `pc.setRemoteDescription(d)`: `none` when the browser rejects the call (an
empty sdp is a syntax error, except in a description of type `rollback`, whose
sdp is not read; an offer met in `have-local-offer` rolls the local offer back
first).  A description of type `rollback` is accepted where an offer is
pending, on either side: it drops the pending descriptions and sets no remote
description. -/
def pcSetRemoteDescription (pc : PeerConnection) (d : SessionDescription) (ok : Bool) :
    Option PeerConnection :=
  if ok = false ∨ (d.type ≠ .rollback ∧ d.sdp = "") then none
  else
    match d.type, pc.signalingState with
    | .rollback, .haveLocalOffer | .rollback, .haveRemoteOffer =>
      some { pc with
        pendingLocalDescription := none
        pendingRemoteDescription := none
        signalingState := .stable }
    | .offer, .stable | .offer, .haveRemoteOffer =>
      some { pc with pendingRemoteDescription := some d, signalingState := .haveRemoteOffer }
    | .offer, .haveLocalOffer =>
      some { pc with
        pendingLocalDescription := none
        pendingRemoteDescription := some d
        signalingState := .haveRemoteOffer }
    | .answer, .haveLocalOffer | .answer, .haveRemotePranswer =>
      some { pc with
        currentRemoteDescription := some d
        currentLocalDescription := pc.pendingLocalDescription
        pendingLocalDescription := none
        pendingRemoteDescription := none
        signalingState := .stable }
    | .pranswer, .haveLocalOffer | .pranswer, .haveRemotePranswer =>
      some { pc with pendingRemoteDescription := some d, signalingState := .haveRemotePranswer }
    | _, _ => none

/-- `pc.createOffer()`: the offer with the sdp the browser produces; fails on a
closed connection. -/
def pcCreateOffer (pc : PeerConnection) (sdp : Option String) : Option SessionDescription :=
  match sdp with
  | none => none
  | some s => if pc.signalingState = .closed then none else some { type := .offer, sdp := s }

/-- `pc.createAnswer()`: needs a remote offer to answer. -/
def pcCreateAnswer (pc : PeerConnection) (sdp : Option String) : Option SessionDescription :=
  match sdp with
  | none => none
  | some s =>
    match pc.signalingState with
    | .haveRemoteOffer | .haveLocalPranswer => some { type := .answer, sdp := s }
    | _ => none

/-- `pc.close()`. -/
def pcClose (pc : PeerConnection) : PeerConnection :=
  { pc with signalingState := .closed }

/-! ## `services/webrtcService.js` -/

/-- What a call on one transport leaves behind: the transport, the browser
calls made, and the returned value (`none` when the call threw). -/
structure Step (α : Type) where
  pc : PeerConnection
  ops : List TransportOp
  result : Option α

/-- `createPeerConnection`: a fresh transport with an empty
`_remoteCandidateQueue` (the callbacks are `onIceCandidate` and `onTrack`
below). -/
def createPeerConnection : PeerConnection :=
  { pcNew with remoteCandidateQueue := [] }

/-- `createOffer(pc)`: `pc.createOffer()`, `pc.setLocalDescription(offer)`,
then `pc.localDescription || offer`. -/
def createOffer (pc : PeerConnection) (o : Outcomes) : Step SessionDescription :=
  match pcCreateOffer pc o.createSdp with
  | none => { pc := pc, ops := [.createOffer false], result := none }
  | some offer =>
    match pcSetLocalDescription pc offer o.setLocalOk with
    | none =>
      { pc := pc, ops := [.createOffer true, .setLocalDescription offer false], result := none }
    | some pc1 =>
      { pc := pc1
        ops := [.createOffer true, .setLocalDescription offer true]
        result := some (pc1.localDescription.getD offer) }

/-- `createAnswer(pc)`: `pc.createAnswer()`, `pc.setLocalDescription(answer)`,
then `pc.localDescription || answer`. -/
def createAnswer (pc : PeerConnection) (o : Outcomes) : Step SessionDescription :=
  match pcCreateAnswer pc o.createSdp with
  | none => { pc := pc, ops := [.createAnswer false], result := none }
  | some answer =>
    match pcSetLocalDescription pc answer o.setLocalOk with
    | none =>
      { pc := pc, ops := [.createAnswer true, .setLocalDescription answer false], result := none }
    | some pc1 =>
      { pc := pc1
        ops := [.createAnswer true, .setLocalDescription answer true]
        result := some (pc1.localDescription.getD answer) }

/-- The `while (queue.length)` loop of `_flushQueuedCandidates`: `queue` is what
`pc._remoteCandidateQueue` holds when the iteration starts and `k` counts the
candidates already taken.  Each round shifts the head off the queue and hands it
to `pc.addIceCandidate`; a rejection is caught and the loop goes on. -/
def flushLoop (candidateOk : Nat → Bool) (pc : PeerConnection) :
    List IceCandidate → Nat → PeerConnection × List TransportOp
  | [], _ => (pc, [])
  | c :: rest, k =>
    let pc1 := { pc with remoteCandidateQueue := rest }
    let r := flushLoop candidateOk pc1 rest (k + 1)
    (r.1, TransportOp.addIceCandidate c (candidateOk k) pc1.remoteDescription.isSome rest :: r.2)

/-- `_flushQueuedCandidates(pc)`. -/
def _flushQueuedCandidates (pc : PeerConnection) (candidateOk : Nat → Bool) :
    PeerConnection × List TransportOp :=
  if pc.remoteCandidateQueue.length = 0 then (pc, [])
  else flushLoop candidateOk pc pc.remoteCandidateQueue 0

/-- `setRemoteDescription(pc, description)`: nothing for a missing description;
else `pc.setRemoteDescription(desc)` and, when that is accepted, the flush of
the queue.  A rejection is logged and thrown again. -/
def setRemoteDescription (pc : PeerConnection) (description : Option SessionDescription)
    (o : Outcomes) : Step Unit :=
  match description with
  | none => { pc := pc, ops := [], result := some () }
  | some desc =>
    match pcSetRemoteDescription pc desc o.setRemoteOk with
    | none => { pc := pc, ops := [.setRemoteDescription desc false], result := none }
    | some pc1 =>
      let r := _flushQueuedCandidates pc1 o.candidateOk
      { pc := r.1, ops := .setRemoteDescription desc true :: r.2, result := some () }

/-- The test `!pc.remoteDescription || !pc.remoteDescription.sdp` of
`addIceCandidate`. -/
def remoteDescriptionMissing (pc : PeerConnection) : Bool :=
  match pc.remoteDescription with
  | none => true
  | some d => d.sdp = ""

/-- `addIceCandidate(pc, candidateObj)`: nothing for a missing candidate; the
candidate is queued while the remote description is missing, else handed to
`pc.addIceCandidate`, whose rejection is logged and thrown again. -/
def addIceCandidate (pc : PeerConnection) (candidateObj : Option IceCandidate)
    (o : Outcomes) : Step Unit :=
  match candidateObj with
  | none => { pc := pc, ops := [], result := some () }
  | some c =>
    if remoteDescriptionMissing pc then
      { pc := { pc with remoteCandidateQueue := pc.remoteCandidateQueue ++ [c] }
        ops := []
        result := some () }
    else
      { pc := pc
        ops := [.addIceCandidate c (o.candidateOk 0) pc.remoteDescription.isSome
          pc.remoteCandidateQueue]
        result := if o.candidateOk 0 then some () else none }

/-! ## The message builders of `services/signalingService.js` -/

/-- The message `sendOffer(roomId, from, to, offer)` hands to `send`. -/
def sendOffer (roomId : RoomId) (fromId toId : UserId) (offer : SessionDescription) :
    SignalMessage :=
  { type := .OFFER, fromId := fromId, toId := some toId, roomId := roomId
    data := .description offer.sdp offer.type }

/-- The message `sendAnswer(roomId, from, to, answer)` hands to `send`. -/
def sendAnswer (roomId : RoomId) (fromId toId : UserId) (answer : SessionDescription) :
    SignalMessage :=
  { type := .ANSWER, fromId := fromId, toId := some toId, roomId := roomId
    data := .description answer.sdp answer.type }

/-- The message `sendIceCandidate(roomId, from, to, candidate)` hands to `send`. -/
def sendIceCandidate (roomId : RoomId) (fromId toId : UserId) (candidate : IceCandidate) :
    SignalMessage :=
  { type := .ICE_CANDIDATE, fromId := fromId, toId := some toId, roomId := roomId
    data := .candidate candidate.candidate candidate.sdpMid candidate.sdpMLineIndex }

/-! ## `hooks/useWebRTC.js` -/

/-- The state of the hook: `peerConnectionsRef.current`, `isInitiatorRef.current`
and `remoteStreams`, with the two ghost fields. -/
structure Engine where
  peerConnections : List (UserId × PeerConnection)
  isInitiator : Bool
  remoteStreams : List (UserId × MediaStream)
  sent : List SignalMessage
  trace : List (UserId × TransportOp)
  deriving DecidableEq, Repr

/-- The state of a freshly mounted hook. -/
def Engine.init : Engine :=
  { peerConnections := [], isInitiator := false, remoteStreams := [], sent := [], trace := [] }

/-- The arguments `roomId` and `userId` of the hook. -/
structure Room where
  roomId : RoomId
  userId : UserId
  deriving DecidableEq, Repr

/-- The two roles of the arbitration: `isInitiatorRef.current` read as a role. -/
inductive Role where
  | Initiator
  | Responder
  deriving DecidableEq, Repr

/-- The role the engine is acting in. -/
def Engine.role (e : Engine) : Role :=
  if e.isInitiator then .Initiator else .Responder

/-- The transport of `remoteUserId` is now `pc`, after the calls `ops` on it. -/
def Engine.withSession (e : Engine) (remoteUserId : UserId) (pc : PeerConnection)
    (ops : List TransportOp) : Engine :=
  { e with
    peerConnections := mapSet e.peerConnections remoteUserId pc
    trace := e.trace ++ ops.map (fun op => (remoteUserId, op)) }

/-- `createPeerConnectionForUser(remoteUserId)`: the transport the map holds for
this user, or else a new one, which gets the local tracks if `localStream`
exists and the transport has no sender yet, and is put in the map. -/
def createPeerConnectionForUser (localStream : Option MediaStream) (e : Engine)
    (remoteUserId : UserId) : Engine × PeerConnection :=
  match mapGet e.peerConnections remoteUserId with
  | some pc => (e, pc)
  | none =>
    let pc := createPeerConnection
    let tracks : List Track :=
      match localStream with
      | some s => if pc.senders.length = 0 then s.tracks else []
      | none => []
    let pc1 := tracks.foldl pcAddTrack pc
    (e.withSession remoteUserId pc1 (.created :: tracks.map TransportOp.addTrack), pc1)

/-- The ICE callback `createPeerConnectionForUser` gives the transport of
`remoteUserId`: a local candidate is sent to that user. -/
def onIceCandidate (room : Room) (e : Engine) (remoteUserId : UserId)
    (candidate : Option IceCandidate) : Engine :=
  match candidate with
  | none => e
  | some c => { e with sent := e.sent ++ [sendIceCandidate room.roomId room.userId remoteUserId c] }

/-- The track callback `createPeerConnectionForUser` gives the transport of
`remoteUserId`: the stream is stored under that user. -/
def onTrack (e : Engine) (remoteUserId : UserId) (stream : MediaStream) : Engine :=
  { e with remoteStreams := mapSet e.remoteStreams remoteUserId stream }

/-- `handleRoomInfo`: the role is decided from `message.data?.participants || []`. -/
def handleRoomInfo (e : Engine) (participants : Option (List Participant)) : Engine :=
  let ps := participants.getD []
  if ps.length = 0 then { e with isInitiator := true } else { e with isInitiator := false }

/-- `handleUserJoined`, with `userId` the field `message.data?.userId`. -/
def handleUserJoined (room : Room) (localStream : Option MediaStream) (e : Engine)
    (userId : Option UserId) (o : Outcomes) : Engine :=
  match userId with
  | none => e
  | some remoteUserId =>
    if remoteUserId = "" ∨ remoteUserId = room.userId then e
    else if e.isInitiator = false then e
    else
      match localStream with
      | none => e
      | some stream =>
        let r := createPeerConnectionForUser (some stream) e remoteUserId
        if r.2.signalingState ≠ .stable then r.1
        else
          let s := createOffer r.2 o
          let e1 := r.1.withSession remoteUserId s.pc s.ops
          match s.result with
          | none => e1
          | some offer =>
            { e1 with sent := e1.sent ++ [sendOffer room.roomId room.userId remoteUserId offer] }

/-- The rollback `handleOffer` tries when the transport is not `stable`; its
failure is swallowed. -/
def rollbackIfUnstable (pc : PeerConnection) (o : Outcomes) :
    PeerConnection × List TransportOp :=
  if pc.signalingState ≠ .stable then
    match pcRollback pc o.rollbackOk with
    | some pc1 => (pc1, [.rollback true])
    | none => (pc, [.rollback false])
  else (pc, [])

/-- `handleOffer`, with `sender` the field `message.from` and `data` the field
`message.data`. -/
def handleOffer (room : Room) (localStream : Option MediaStream) (e : Engine)
    (sender : UserId) (data : Option SessionDescription) (o : Outcomes) : Engine :=
  let r := createPeerConnectionForUser localStream e sender
  let b := rollbackIfUnstable r.2 o
  let s := setRemoteDescription b.1 data o
  match s.result with
  | none => r.1.withSession sender s.pc (b.2 ++ s.ops)
  | some _ =>
    let a := createAnswer s.pc o
    let e1 := r.1.withSession sender a.pc (b.2 ++ s.ops ++ a.ops)
    match a.result with
    | none => e1
    | some answer =>
      { e1 with sent := e1.sent ++ [sendAnswer room.roomId room.userId sender answer] }

/-- `handleAnswer`. -/
def handleAnswer (e : Engine) (sender : UserId) (data : Option SessionDescription)
    (o : Outcomes) : Engine :=
  match mapGet e.peerConnections sender with
  | none => e
  | some pc =>
    if pc.signalingState ≠ .haveLocalOffer then e
    else
      let s := setRemoteDescription pc data o
      e.withSession sender s.pc s.ops

/-- `handleIceCandidate`. -/
def handleIceCandidate (localStream : Option MediaStream) (e : Engine) (sender : UserId)
    (data : Option IceCandidate) (o : Outcomes) : Engine :=
  let r := createPeerConnectionForUser localStream e sender
  let s := addIceCandidate r.2 data o
  r.1.withSession sender s.pc s.ops

/-- `handleUserLeft`, with `userId` the field `message.data.userId`. -/
def handleUserLeft (e : Engine) (userId : UserId) : Engine :=
  { e with
    trace :=
      match mapGet e.peerConnections userId with
      | some _ => e.trace ++ [(userId, .close)]
      | none => e.trace
    peerConnections := mapDelete e.peerConnections userId
    remoteStreams := mapDelete e.remoteStreams userId }

/-- `cleanup`: every transport of the map is closed, then both maps are
emptied. -/
def cleanup (e : Engine) : Engine :=
  { e with
    trace := e.trace ++ e.peerConnections.map (fun p => (p.1, TransportOp.close))
    peerConnections := []
    remoteStreams := [] }

/-- What the hook reacts to: the six signaling messages it subscribes to, the
two callbacks of a transport, and the `cleanup` it returns. -/
inductive Event where
  | roomInfo (participants : Option (List Participant))
  | userJoined (userId : Option UserId) (o : Outcomes)
  | offer (sender : UserId) (data : Option SessionDescription) (o : Outcomes)
  | answer (sender : UserId) (data : Option SessionDescription) (o : Outcomes)
  | iceCandidate (sender : UserId) (data : Option IceCandidate) (o : Outcomes)
  | userLeft (userId : UserId)
  | localIceCandidate (remoteUserId : UserId) (candidate : Option IceCandidate)
  | remoteTrack (remoteUserId : UserId) (stream : MediaStream)
  | cleanup

/-- One event, together with the `localStream` the hook holds when it comes. -/
structure Input where
  localStream : Option MediaStream
  event : Event

/-- One event handled to completion. -/
def step (room : Room) (e : Engine) (i : Input) : Engine :=
  match i.event with
  | .roomInfo ps => handleRoomInfo e ps
  | .userJoined u o => handleUserJoined room i.localStream e u o
  | .offer s d o => handleOffer room i.localStream e s d o
  | .answer s d o => handleAnswer e s d o
  | .iceCandidate s d o => handleIceCandidate i.localStream e s d o
  | .userLeft u => handleUserLeft e u
  | .localIceCandidate u c => onIceCandidate room e u c
  | .remoteTrack u s => onTrack e u s
  | .cleanup => cleanup e

/-- A sequence of events handled one at a time. -/
def run (room : Room) (e : Engine) (is : List Input) : Engine :=
  is.foldl (step room) e

/-! ## `services/signalingService.js`: the transport client

The browser's `WebSocket` is not code of the repository.  A socket is modelled
by its `readyState` and by which of its events were delivered; the browser
delivers `open` only to a connecting socket, `error` at most once and before
`close`, and `close` once, and a failed or closed socket is `CLOSED` when its
`error` or `close` event is delivered.  Calls of `connect` and `disconnect` may
come between any two events.  The promises and sockets made so far are kept in
two lists and referred to by their position. -/

/-- `WebSocket.readyState`. -/
inductive ReadyState where
  | CONNECTING
  | OPEN
  | CLOSING
  | CLOSED
  deriving DecidableEq, Repr

/-- Why a promise of `connect()` was rejected: the exception the `WebSocket`
constructor threw, which `connect()` passes on as it is, or one of the three
errors `connect()` makes. -/
inductive RejectReason where
  | constructorError
  | errorDuringConnect
  | closedBeforeOpen
  | closedDuringConnect
  deriving DecidableEq, Repr

/-- The message of the `Error` that `connect()` makes for a rejection.  The
exception of the `WebSocket` constructor is the browser's own and is passed on
as it is: `connect()` decides no message for it (`none`). -/
def RejectReason.message : RejectReason → Option String
  | .constructorError => none
  | .errorDuringConnect => some "WebSocket error during connect"
  | .closedBeforeOpen => some "WebSocket closed before open"
  | .closedDuringConnect => some "WebSocket closed during connect"

/-- The state of a promise. -/
inductive PromiseState where
  | pending
  | resolved
  | rejected (reason : RejectReason)
  deriving DecidableEq, Repr

/-- The message of the error a promise was rejected with, where `connect()` made
that error. -/
def PromiseState.rejectionMessage : PromiseState → Option String
  | .rejected reason => reason.message
  | _ => none

/-- A socket made by `new WebSocket('/ws')`, with the `settled` flag and the
promise of the `connect()` call that made it (its handlers close over both). -/
structure Socket where
  readyState : ReadyState
  settled : Bool
  promise : Nat
  errorFired : Bool
  closeFired : Bool
  deriving DecidableEq, Repr

/-- What `send` hands to `ws.send`: the message with its timestamp. -/
structure Payload where
  message : SignalMessage
  timestamp : Nat
  deriving DecidableEq, Repr

/-- The state of the `SignalingService` singleton: `this.ws` and
`this.readyPromise`, the sockets and promises made so far, and two ghost logs:
the events passed to `_notify` and the payloads handed to a socket. -/
structure SignalingService where
  ws : Option Nat
  readyPromise : Option Nat
  sockets : List Socket
  promises : List PromiseState
  notified : List String
  transmitted : List (Nat × Payload)
  deriving DecidableEq, Repr

namespace SignalingService

/-- The state the constructor leaves. -/
def init : SignalingService :=
  { ws := none, readyPromise := none, sockets := [], promises := [], notified := []
    transmitted := [] }

/-- The socket `this.ws` refers to, if any. -/
def current (s : SignalingService) : Option Socket :=
  match s.ws with
  | none => none
  | some i => s.sockets[i]?

/-- `isConnected()`, also the test `this.ws && this.ws.readyState === WebSocket.OPEN`. -/
def isConnected (s : SignalingService) : Bool :=
  match s.current with
  | none => false
  | some sock => sock.readyState = .OPEN

/-- A promise is settled: only a pending promise changes. -/
def settle (s : SignalingService) (p : Nat) (st : PromiseState) : SignalingService :=
  match s.promises[p]? with
  | some .pending => { s with promises := s.promises.set p st }
  | _ => s

/-- `connect()`: the state it leaves and the promise it returns.  With the
socket open it returns a fresh resolved promise; with `readyPromise` set it
returns that promise; else it makes a promise and a socket (or, when the
`WebSocket` constructor throws, rejects the promise, which the assignment after
the executor still stores in `readyPromise`). -/
def connect (s : SignalingService) (constructorThrows : Bool) : SignalingService × Nat :=
  if s.isConnected then
    ({ s with promises := s.promises ++ [.resolved] }, s.promises.length)
  else
    match s.readyPromise with
    | some p => (s, p)
    | none =>
      if constructorThrows then
        ({ s with
            promises := s.promises ++ [.rejected .constructorError]
            ws := none
            readyPromise := some s.promises.length }, s.promises.length)
      else
        ({ s with
            promises := s.promises ++ [.pending]
            sockets := s.sockets ++ [{ readyState := .CONNECTING, settled := false
                                       promise := s.promises.length
                                       errorFired := false, closeFired := false }]
            ws := some s.sockets.length
            readyPromise := some s.promises.length }, s.promises.length)

/-- `send(message)`, with `now` the value of `Date.now()`. -/
def send (s : SignalingService) (message : SignalMessage) (now : Nat) : SignalingService :=
  match s.ws with
  | none => s
  | some i =>
    match s.sockets[i]? with
    | none => s
    | some sock =>
      if sock.readyState ≠ .OPEN then s
      else { s with transmitted := s.transmitted ++ [(i, { message := message, timestamp := now })] }

/-- `disconnect()`: `this.ws.close()` when there is a socket (a connecting or
open socket starts closing), else `readyPromise` is cleared. -/
def disconnect (s : SignalingService) : SignalingService :=
  match s.ws with
  | some i =>
    match s.sockets[i]? with
    | none => s
    | some sock =>
      match sock.readyState with
      | .CONNECTING | .OPEN =>
        { s with sockets := s.sockets.set i { sock with readyState := .CLOSING } }
      | _ => s
  | none => { s with readyPromise := none }

/-- The handler `onopen` of socket `i`, run when the browser opens it. -/
def onopen (s : SignalingService) (i : Nat) : SignalingService :=
  match s.sockets[i]? with
  | none => s
  | some sock =>
    if sock.readyState = .CONNECTING ∧ sock.errorFired = false ∧ sock.closeFired = false then
      let s1 := { s with
        sockets := s.sockets.set i { sock with readyState := .OPEN }
        notified := s.notified ++ ["connected"] }
      if sock.settled = false then
        settle { s1 with sockets := s1.sockets.set i { sock with readyState := .OPEN, settled := true } }
          sock.promise .resolved
      else s1
    else s

/-- The handler `onerror` of socket `i`, run when the browser reports its
failure. -/
def onerror (s : SignalingService) (i : Nat) : SignalingService :=
  match s.sockets[i]? with
  | none => s
  | some sock =>
    if sock.errorFired = false ∧ sock.closeFired = false then
      let s1 := { s with
        sockets := s.sockets.set i { sock with readyState := .CLOSED, errorFired := true }
        notified := s.notified ++ ["error"] }
      if sock.settled = false then
        settle { s1 with
            sockets := s1.sockets.set i
              { sock with readyState := .CLOSED, errorFired := true, settled := true }
            readyPromise := none
            ws := none }
          sock.promise (.rejected .errorDuringConnect)
      else s1
    else s

/-- The handler `onclose` of socket `i`, run when the browser reports that it is
closed, with `event.code`. -/
def onclose (s : SignalingService) (i : Nat) (code : Nat) : SignalingService :=
  match s.sockets[i]? with
  | none => s
  | some sock =>
    if sock.closeFired = false then
      let s1 := { s with
        sockets := s.sockets.set i { sock with readyState := .CLOSED, closeFired := true }
        notified := s.notified ++ ["disconnected"] }
      let s2 :=
        if sock.settled = false then
          settle { s1 with
              sockets := s1.sockets.set i
                { sock with readyState := .CLOSED, closeFired := true, settled := true }
              readyPromise := none }
            sock.promise
            (.rejected (if code = 1000 then .closedBeforeOpen else .closedDuringConnect))
        else s1
      { s2 with ws := none, readyPromise := none }
    else s

end SignalingService

/-- What happens to the transport client: a call of one of its methods, or an
event of one of the sockets it made. -/
inductive Action where
  | connect (constructorThrows : Bool)
  | disconnect
  | send (message : SignalMessage) (now : Nat)
  | socketOpen (socket : Nat)
  | socketError (socket : Nat)
  | socketClose (socket : Nat) (code : Nat)
  deriving DecidableEq, Repr

/-- One call or event, the returned promise dropped. -/
def SignalingService.step (s : SignalingService) : Action → SignalingService
  | .connect t => (s.connect t).1
  | .disconnect => s.disconnect
  | .send m now => s.send m now
  | .socketOpen i => s.onopen i
  | .socketError i => s.onerror i
  | .socketClose i code => s.onclose i code

/-- A sequence of calls and events on a new transport client. -/
def SignalingService.run (as : List Action) : SignalingService :=
  as.foldl SignalingService.step SignalingService.init

/-! ## `services/signalingService.js`: the event bus

A listener is a JavaScript function; it is referred to by a number, and what it
does when called (return, throw, or remove itself from the event it is called
for and return) is given by a map from these numbers.  `this.listeners` maps an
event name to the array of its listeners, in registration order. -/

/-- What a listener does when it is called. -/
inductive Reaction where
  | returns
  | throws
  | unsubscribes
  deriving DecidableEq, Repr

/-- The listeners of the service, with two ghost logs: the calls made (listener
and data, in call order) and the number of listener errors caught and logged. -/
structure EventBus where
  listeners : List (String × List Nat)
  calls : List (Nat × Option SignalMessage)
  errors : Nat
  deriving DecidableEq, Repr

namespace EventBus

/-- `on(event, cb)`: the callback goes to the end of the event's array, which
is made if the event has none. -/
def onEvent (bus : EventBus) (event : String) (cb : Nat) : EventBus :=
  { bus with listeners := mapSet bus.listeners event ((mapGet bus.listeners event).getD [] ++ [cb]) }

/-- `off(event, cb)`: `arr.splice(idx, 1)` at the first position of the
callback, if it is in the event's array. -/
def off (bus : EventBus) (event : String) (cb : Nat) : EventBus :=
  match mapGet bus.listeners event with
  | none => bus
  | some arr => { bus with listeners := mapSet bus.listeners event (arr.erase cb) }

/-- The `arr.forEach` of `_notify`, with `n` indices still to visit from index
`k` on.  `forEach` fixes the number of indices when it starts and skips an index
the array no longer has; the callback sees the array as the calls before it left
it.  A throwing listener is caught and logged. -/
def notifyLoop (reaction : Nat → Reaction) (event : String) (data : Option SignalMessage) :
    Nat → Nat → EventBus → EventBus
  | 0, _, bus => bus
  | n + 1, k, bus =>
    match ((mapGet bus.listeners event).getD [])[k]? with
    | none => notifyLoop reaction event data n (k + 1) bus
    | some fn =>
      let bus1 := { bus with calls := bus.calls ++ [(fn, data)] }
      let bus2 :=
        match reaction fn with
        | .returns => bus1
        | .throws => { bus1 with errors := bus1.errors + 1 }
        | .unsubscribes => bus1.off event fn
      notifyLoop reaction event data n (k + 1) bus2

/-- `_notify(event, data)`. -/
def _notify (bus : EventBus) (reaction : Nat → Reaction) (event : String)
    (data : Option SignalMessage) : EventBus :=
  match mapGet bus.listeners event with
  | none => bus
  | some arr => notifyLoop reaction event data arr.length 0 bus

end EventBus

/-! ## MEDIA_STATE: `sendMediaState` and `hooks/useRoom.js` -/

/-- The message `sendMediaState(roomId, userId, audioEnabled, videoEnabled)`
hands to `send`. -/
def sendMediaState (roomId : RoomId) (userId : UserId) (audioEnabled videoEnabled : Bool) :
    SignalMessage :=
  { type := .MEDIA_STATE, fromId := userId, toId := none, roomId := roomId
    data := .mediaState audioEnabled videoEnabled }

/-- The `data` object of a MEDIA_STATE message as `handleMediaState` reads it:
`data.userId` (`none` when the object has no such field), `data.audioEnabled`
and `data.videoEnabled`. -/
structure MediaStateData where
  userId : Option UserId
  audioEnabled : Bool
  videoEnabled : Bool
  deriving DecidableEq, Repr

/-- The `data` object of a message delivered unchanged: the fields the sender
put there, no others. -/
def deliveredMediaState (message : SignalMessage) : Option MediaStateData :=
  match message.data with
  | .mediaState a v => some { userId := none, audioEnabled := a, videoEnabled := v }
  | _ => none

/-- `handleMediaState` of `useRoom`: the update it passes to `setParticipants`,
applied to the list `prev`. -/
def handleMediaState (prev : List Participant) (data : Option MediaStateData) :
    List Participant :=
  match data with
  | none => prev
  | some d =>
    prev.map (fun p =>
      if some p.userId = d.userId then
        { p with audioEnabled := d.audioEnabled, videoEnabled := d.videoEnabled }
      else p)

/-! ## The flush, one round at a time -/

/-- One round of the `while` loop of `_flushQueuedCandidates`, up to its
`await`: the head of the queue is shifted off and handed to
`pc.addIceCandidate`; nothing for an empty queue. -/
def flushRound (pc : PeerConnection) (ok : Bool) : PeerConnection × List TransportOp :=
  match pc.remoteCandidateQueue with
  | [] => (pc, [])
  | c :: rest =>
    ({ pc with remoteCandidateQueue := rest },
      [TransportOp.addIceCandidate c ok pc.remoteDescription.isSome rest])

/-- What the event loop runs on one session while its flush is suspended at an
`await`: the flush resumes for one round, or an ICE_CANDIDATE for the session is
handled (`addIceCandidate`, which makes its calls before its own `await`). -/
inductive FlushTick where
  | resume (ok : Bool)
  | candidate (c : IceCandidate) (ok : Bool)
  deriving DecidableEq, Repr

/-- One tick on a session. -/
def flushTick (pc : PeerConnection) : FlushTick → PeerConnection × List TransportOp
  | .resume ok => flushRound pc ok
  | .candidate c ok =>
    let s := addIceCandidate pc (some c)
      { rollbackOk := true, setRemoteOk := true, candidateOk := fun _ => ok
        createSdp := none, setLocalOk := true }
    (s.pc, s.ops)

/-- A succession of ticks on a session: the session it leaves and the calls
made, in call order. -/
def interleave (pc : PeerConnection) : List FlushTick → PeerConnection × List TransportOp
  | [] => (pc, [])
  | t :: rest =>
    let r := flushTick pc t
    let r2 := interleave r.1 rest
    (r2.1, r.2 ++ r2.2)

/-- How many times a succession of ticks resumes the flush. -/
def resumes : List FlushTick → Nat
  | [] => 0
  | .resume _ :: rest => resumes rest + 1
  | .candidate _ _ :: rest => resumes rest

/-- The candidates that arrive during a succession of ticks, in arrival order. -/
def arrivals : List FlushTick → List IceCandidate
  | [] => []
  | .resume _ :: rest => arrivals rest
  | .candidate c _ :: rest => c :: arrivals rest

/-! ## The specified candidate rule -/

/-- The candidate rule in the words of the specification: the candidate is
enqueued; then, if the session has a remote description, the queue is flushed,
else the candidate stays queued. -/
def enqueueThenFlush (pc : PeerConnection) (c : IceCandidate) (o : Outcomes) : Step Unit :=
  let pc1 := { pc with remoteCandidateQueue := pc.remoteCandidateQueue ++ [c] }
  if remoteDescriptionMissing pc1 then { pc := pc1, ops := [], result := some () }
  else
    let r := _flushQueuedCandidates pc1 o.candidateOk
    { pc := r.1, ops := r.2, result := some () }

/-- A session is settled: its remote descriptions carry an sdp, and its queue
is empty if it has a remote description. -/
def QueueSettled (pc : PeerConnection) : Prop :=
  (∀ d, pc.pendingRemoteDescription = some d → d.sdp ≠ "")
    ∧ (∀ d, pc.currentRemoteDescription = some d → d.sdp ≠ "")
    ∧ (pc.remoteDescription ≠ none → pc.remoteCandidateQueue = [])

/-- Every session of the map has the property. -/
def AllSessions (P : PeerConnection → Prop) (e : Engine) : Prop :=
  ∀ u pc, mapGet e.peerConnections u = some pc → P pc

/-! ## Observations used to state the properties -/

/-- The role a room snapshot stands for: Initiator for an empty participant
list, Responder otherwise. -/
def snapshotRole (participants : Option (List Participant)) : Role :=
  if (participants.getD []).isEmpty then .Initiator else .Responder

/-- The participant list of the last ROOM_INFO event of a sequence, if the
sequence has one. -/
def lastSnapshot : List Input → Option (Option (List Participant))
  | [] => none
  | i :: rest =>
    match lastSnapshot rest with
    | some ps => some ps
    | none =>
      match i.event with
      | .roomInfo ps => some ps
      | _ => none

/-- The candidate rule on one call: a candidate is handed to the transport only
with the remote description present.  Calls of other kinds pass. -/
def candidateGuarded : TransportOp → Bool
  | .addIceCandidate _ _ remoteSet _ => remoteSet
  | _ => true

/-- The calls a handler makes on a session that exists: every call but
`created`, `addTrack` and `close`. -/
def sessionOp : TransportOp → Bool
  | .created => false
  | .addTrack _ => false
  | .close => false
  | _ => true

/-- The calls of a trace that were made on the transports of one user. -/
def opsOf (trace : List (UserId × TransportOp)) (u : UserId) : List TransportOp :=
  trace.filterMap (fun p => if p.1 = u then some p.2 else none)

/-- The candidates handed to the transport by a list of calls, in call order. -/
def appliedCandidates (ops : List TransportOp) : List IceCandidate :=
  ops.filterMap (fun op =>
    match op with
    | .addIceCandidate c _ _ _ => some c
    | _ => none)

/-- How many transports were made for a user. -/
def createdCount (trace : List (UserId × TransportOp)) (u : UserId) : Nat :=
  (opsOf trace u).count .created

/-- How many transports of a user were closed. -/
def closedCount (trace : List (UserId × TransportOp)) (u : UserId) : Nat :=
  (opsOf trace u).count .close

/-- What a scan of one user's calls knows about track attachment: whether the
scan stands in the block of `addTrack` calls that follows a `created`, which
tracks the latest transport got, and whether every `addTrack` so far was in such
a block. -/
structure AttachScan where
  inBlock : Bool
  tracks : List Track
  ok : Bool
  deriving DecidableEq, Repr

/-- One more call under the scan. -/
def AttachScan.next (s : AttachScan) : TransportOp → AttachScan
  | .created => { inBlock := true, tracks := [], ok := s.ok }
  | .addTrack t => { inBlock := s.inBlock, tracks := s.tracks ++ [t], ok := s.ok && s.inBlock }
  | _ => { inBlock := false, tracks := s.tracks, ok := s.ok }

/-- The scan of a list of calls. -/
def attachScan (ops : List TransportOp) : AttachScan :=
  ops.foldl AttachScan.next { inBlock := false, tracks := [], ok := true }

/-- The ways one handler run changes the session map and the trace: it makes a
session (`createPeerConnectionForUser`), calls into a session that exists
(without attaching tracks), drops one session or all of them after closing, or
leaves both alone; and any succession of these. -/
inductive Evolves : Engine → Engine → Prop where
  | refl (e : Engine) : Evolves e e
  | create (ls : Option MediaStream) (e : Engine) (u : UserId) :
    Evolves e (createPeerConnectionForUser ls e u).1
  | update (e : Engine) (u : UserId) (pc0 pc : PeerConnection) (ops : List TransportOp) :
    mapGet e.peerConnections u = some pc0 → pc.senders = pc0.senders →
    (∀ op ∈ ops, sessionOp op = true) → Evolves e (e.withSession u pc ops)
  | left (e : Engine) (u : UserId) : Evolves e (handleUserLeft e u)
  | cleanup (e : Engine) : Evolves e (cleanup e)
  | other (e e' : Engine) :
    e'.peerConnections = e.peerConnections → e'.trace = e.trace → Evolves e e'
  | trans (a b c : Engine) : Evolves a b → Evolves b c → Evolves a c

/-- The session map and the trace agree: no user has two entries in the map,
and for every user the transports made are the transports closed plus the one
the map holds, if it holds one. -/
def SessionsMatchTrace (e : Engine) : Prop :=
  (mapKeys e.peerConnections).Nodup
    ∧ ∀ u, createdCount e.trace u = closedCount e.trace u + (mapKeys e.peerConnections).count u

/-- Tracks are attached at creation only: for every user, each `addTrack` in
the trace stands in the block that follows a `created`, and the senders of the
session the map holds are the tracks of the latest such block. -/
def AttachedAtCreation (e : Engine) : Prop :=
  ∀ u, (attachScan (opsOf e.trace u)).ok = true
    ∧ ∀ pc, mapGet e.peerConnections u = some pc →
        pc.senders = (attachScan (opsOf e.trace u)).tracks

/-- The ICE_CANDIDATE events of one sender that carry the given candidates, each
with the local stream the hook holds and the answers of the browser at that
moment. -/
def candidateInputs (sender : UserId)
    (cs : List (Option MediaStream × IceCandidate × Outcomes)) : List Input :=
  cs.map (fun x => { localStream := x.1, event := .iceCandidate sender (some x.2.1) x.2.2 })

/-- Whether an event is an OFFER or an ANSWER that carries a description of type
`rollback`. -/
def carriesRollback : Event → Bool
  | .offer _ (some d) _ => decide (d.type = .rollback)
  | .answer _ (some d) _ => decide (d.type = .rollback)
  | _ => false

/-- The second state continues the trace of the first, and every call it adds
keeps the candidate rule. -/
def ExtendsGuarded (e e' : Engine) : Prop :=
  ∃ new, e'.trace = e.trace ++ new ∧ ∀ p ∈ new, candidateGuarded p.2 = true

/-! ## Finer steps and derived states -/

/-- The first half of `handleUserLeft`: the transport the map holds for the
user, if any, is closed; both maps are as they were. -/
def closeSessionOf (e : Engine) (userId : UserId) : Engine :=
  { e with
    trace :=
      match mapGet e.peerConnections userId with
      | some _ => e.trace ++ [(userId, .close)]
      | none => e.trace }

/-- The second half of `handleUserLeft`: the user's entries are deleted from the
session map and from the remote streams. -/
def dropSessionOf (e : Engine) (userId : UserId) : Engine :=
  { e with
    peerConnections := mapDelete e.peerConnections userId
    remoteStreams := mapDelete e.remoteStreams userId }

/-- The first half of `cleanup`: the `forEach` that closes every transport of
the map; both maps are as they were. -/
def closeAllSessions (e : Engine) : Engine :=
  { e with trace := e.trace ++ e.peerConnections.map (fun p => (p.1, TransportOp.close)) }

/-- The second half of `cleanup`: both maps are emptied. -/
def clearSessions (e : Engine) : Engine :=
  { e with peerConnections := [], remoteStreams := [] }

/-- The session an answered offer leaves behind: `stable`, the answer as local
and the offer as remote description, nothing pending, the senders it had, and an
empty candidate queue. -/
def answeredSession (pc : PeerConnection) (offer answer : SessionDescription) :
    PeerConnection :=
  { signalingState := .stable
    currentLocalDescription := some answer
    pendingLocalDescription := none
    currentRemoteDescription := some offer
    pendingRemoteDescription := none
    senders := pc.senders
    remoteCandidateQueue := [] }

/-! ## Sample data -/

/-- An engine that holds a fresh session for `A`. -/
def sampleWithA : Engine := { Engine.init with peerConnections := [("A", pcNew)] }

/-- A room seen from the participant `me`. -/
def sampleRoom : Room := { roomId := "room", userId := "me" }

/-- A local stream with an audio and a video track. -/
def sampleStream : MediaStream := { tracks := [{ id := 1 }, { id := 2 }] }

/-- A browser that accepts every call. -/
def allAccepted : Outcomes :=
  { rollbackOk := true, setRemoteOk := true, candidateOk := fun _ => true
    createSdp := some "v=0", setLocalOk := true }

/-- A browser that accepts descriptions and rejects every candidate. -/
def candidatesRejected : Outcomes :=
  { rollbackOk := true, setRemoteOk := true, candidateOk := fun _ => false
    createSdp := some "v=0", setLocalOk := true }

/-- Two candidates. -/
def sampleCandidate1 : IceCandidate :=
  { candidate := "candidate:1", sdpMid := some "0", sdpMLineIndex := some 0 }

def sampleCandidate2 : IceCandidate :=
  { candidate := "candidate:2", sdpMid := some "0", sdpMLineIndex := some 0 }

/-- A remote offer. -/
def sampleOffer : SessionDescription := { type := .offer, sdp := "v=0" }

/-- A fresh transport whose queue holds the two sample candidates. -/
def sampleQueued : PeerConnection :=
  { pcNew with remoteCandidateQueue := [sampleCandidate1, sampleCandidate2] }

/-- One candidate that comes before the offer, while no local stream exists. -/
def sampleBefore : List (Option MediaStream × IceCandidate × Outcomes) :=
  [(none, sampleCandidate1, allAccepted)]

/-- One candidate that comes after the offer. -/
def sampleAfter : List (Option MediaStream × IceCandidate × Outcomes) :=
  [(some sampleStream, sampleCandidate2, allAccepted)]

/-- An engine that a first, empty snapshot has made Initiator. -/
def sampleInitiator : Engine := { Engine.init with isInitiator := true }

/-- A browser that accepts the rollback and rejects every remote description. -/
def descriptionsRejected : Outcomes :=
  { rollbackOk := true, setRemoteOk := false, candidateOk := fun _ => true
    createSdp := some "v=0", setLocalOk := true }

/-- A remote answer. -/
def sampleAnswer : SessionDescription := { type := .answer, sdp := "v=1" }

/-- The Initiator after USER_JOINED for `B`: an offer to `B` is in flight. -/
def sampleOffered : Engine :=
  handleUserJoined sampleRoom (some sampleStream) sampleInitiator (some "B") allAccepted

/-- The session of `B` while the offer is in flight. -/
def sampleOfferedSession : PeerConnection :=
  { pcNew with
    signalingState := .haveLocalOffer
    pendingLocalDescription := some { type := .offer, sdp := "v=0" }
    senders := sampleStream.tracks }

/-- The session of `B` once the sample answer is applied. -/
def sampleAnsweredSession : PeerConnection :=
  { pcNew with
    currentLocalDescription := some { type := .offer, sdp := "v=0" }
    currentRemoteDescription := some sampleAnswer
    senders := sampleStream.tracks }

/-- An event bus with three listeners for ROOM_JOINED, registered in the order
1, 2, 3. -/
def sampleBus : EventBus :=
  (((({ listeners := [], calls := [], errors := 0 } : EventBus).onEvent "ROOM_JOINED" 1).onEvent
    "ROOM_JOINED" 2).onEvent "ROOM_JOINED" 3)

/-- A third candidate. -/
def sampleCandidate3 : IceCandidate :=
  { candidate := "candidate:3", sdpMid := some "0", sdpMLineIndex := some 0 }

/-- The queued sample session right after the browser accepted the sample
offer: the flush is about to start. -/
def sampleFlushing : PeerConnection :=
  { sampleQueued with
    pendingRemoteDescription := some sampleOffer
    signalingState := .haveRemoteOffer }

/-- A provisional answer. -/
def samplePranswer : SessionDescription := { type := .pranswer, sdp := "v=1" }

/-- The payload `{type: 'rollback'}`: a description of type `rollback`, which
carries no sdp. -/
def sampleRollback : SessionDescription := { type := .rollback, sdp := "" }

/-- The engine becomes Initiator, sends an offer to `B`, gets a candidate of `B`
and then an ANSWER of `B` whose description is of type `rollback`; the browser
accepts every description and rejects every candidate. -/
def sampleRollbackRun : List Input :=
  [{ localStream := some sampleStream, event := .roomInfo (some []) },
   { localStream := some sampleStream, event := .userJoined (some "B") allAccepted },
   { localStream := some sampleStream
     event := .iceCandidate "B" (some sampleCandidate1) candidatesRejected },
   { localStream := some sampleStream
     event := .answer "B" (some sampleRollback) candidatesRejected }]

/-! ## Role arbitration -/

theorem handleRoomInfo_isInitiator (e : Engine) (participants : Option (List Participant)) :
    (handleRoomInfo e participants).isInitiator = (participants.getD []).isEmpty := by
  unfold handleRoomInfo
  cases h : participants.getD [] with
  | nil => simp
  | cons p ps => simp

theorem handleRoomInfo_role (e : Engine) (participants : Option (List Participant)) :
    (handleRoomInfo e participants).role = snapshotRole participants := by
  unfold Engine.role snapshotRole
  rw [handleRoomInfo_isInitiator]

/-- C6: `handleRoomInfo` sets the role to Initiator when the snapshot's
participant list is empty and to Responder when it is not, and touches nothing
else. -/
theorem C6_handleRoomInfo_sets_role (e : Engine) (participants : Option (List Participant)) :
    (handleRoomInfo e participants).role = snapshotRole participants
      ∧ (handleRoomInfo e participants).isInitiator = (participants.getD []).isEmpty
      ∧ (handleRoomInfo e participants).peerConnections = e.peerConnections
      ∧ (handleRoomInfo e participants).remoteStreams = e.remoteStreams
      ∧ (handleRoomInfo e participants).sent = e.sent
      ∧ (handleRoomInfo e participants).trace = e.trace := by
  refine ⟨handleRoomInfo_role e participants, handleRoomInfo_isInitiator e participants, ?_⟩
  unfold handleRoomInfo
  cases h : participants.getD [] with
  | nil => simp
  | cons p ps => simp

/-! ### What the handlers leave alone -/

@[simp] theorem withSession_isInitiator (e : Engine) (u : UserId) (pc : PeerConnection)
    (ops : List TransportOp) : (e.withSession u pc ops).isInitiator = e.isInitiator := rfl

@[simp] theorem withSession_sent (e : Engine) (u : UserId) (pc : PeerConnection)
    (ops : List TransportOp) : (e.withSession u pc ops).sent = e.sent := rfl

@[simp] theorem withSession_remoteStreams (e : Engine) (u : UserId) (pc : PeerConnection)
    (ops : List TransportOp) : (e.withSession u pc ops).remoteStreams = e.remoteStreams := rfl

@[simp] theorem withSession_trace (e : Engine) (u : UserId) (pc : PeerConnection)
    (ops : List TransportOp) :
    (e.withSession u pc ops).trace = e.trace ++ ops.map (fun op => (u, op)) := rfl

@[simp] theorem withSession_peerConnections (e : Engine) (u : UserId) (pc : PeerConnection)
    (ops : List TransportOp) :
    (e.withSession u pc ops).peerConnections = mapSet e.peerConnections u pc := rfl

@[simp] theorem createPeerConnectionForUser_isInitiator (ls : Option MediaStream) (e : Engine)
    (u : UserId) : (createPeerConnectionForUser ls e u).1.isInitiator = e.isInitiator := by
  unfold createPeerConnectionForUser
  split <;> rfl

@[simp] theorem createPeerConnectionForUser_sent (ls : Option MediaStream) (e : Engine)
    (u : UserId) : (createPeerConnectionForUser ls e u).1.sent = e.sent := by
  unfold createPeerConnectionForUser
  split <;> rfl

@[simp] theorem createPeerConnectionForUser_remoteStreams (ls : Option MediaStream) (e : Engine)
    (u : UserId) : (createPeerConnectionForUser ls e u).1.remoteStreams = e.remoteStreams := by
  unfold createPeerConnectionForUser
  split <;> rfl

theorem handleUserJoined_isInitiator (room : Room) (ls : Option MediaStream) (e : Engine)
    (u : Option UserId) (o : Outcomes) :
    (handleUserJoined room ls e u o).isInitiator = e.isInitiator := by
  unfold handleUserJoined
  repeat' first | rfl | (simp; done) | split | (dsimp only)

theorem handleOffer_isInitiator (room : Room) (ls : Option MediaStream) (e : Engine)
    (s : UserId) (d : Option SessionDescription) (o : Outcomes) :
    (handleOffer room ls e s d o).isInitiator = e.isInitiator := by
  unfold handleOffer
  repeat' first | rfl | (simp; done) | split | (dsimp only)

theorem handleAnswer_isInitiator (e : Engine) (s : UserId) (d : Option SessionDescription)
    (o : Outcomes) : (handleAnswer e s d o).isInitiator = e.isInitiator := by
  unfold handleAnswer
  repeat' first | rfl | (simp; done) | split

theorem handleIceCandidate_isInitiator (ls : Option MediaStream) (e : Engine) (s : UserId)
    (d : Option IceCandidate) (o : Outcomes) :
    (handleIceCandidate ls e s d o).isInitiator = e.isInitiator := by
  unfold handleIceCandidate
  simp

theorem step_isInitiator_of_not_roomInfo (room : Room) (e : Engine) (i : Input)
    (h : ∀ ps, i.event ≠ .roomInfo ps) : (step room e i).isInitiator = e.isInitiator := by
  obtain ⟨ls, ev⟩ := i
  cases ev with
  | roomInfo ps => exact absurd rfl (h ps)
  | userJoined u o => exact handleUserJoined_isInitiator room ls e u o
  | offer s d o => exact handleOffer_isInitiator room ls e s d o
  | answer s d o => exact handleAnswer_isInitiator e s d o
  | iceCandidate s d o => exact handleIceCandidate_isInitiator ls e s d o
  | userLeft u => rfl
  | localIceCandidate u c => cases c <;> rfl
  | remoteTrack u s => rfl
  | cleanup => rfl

theorem step_role_of_not_roomInfo (room : Room) (e : Engine) (i : Input)
    (h : ∀ ps, i.event ≠ .roomInfo ps) : (step room e i).role = e.role := by
  unfold Engine.role
  rw [step_isInitiator_of_not_roomInfo room e i h]

theorem run_cons (room : Room) (e : Engine) (i : Input) (is : List Input) :
    run room e (i :: is) = run room (step room e i) is := rfl

theorem run_append (room : Room) (e : Engine) (is js : List Input) :
    run room e (is ++ js) = run room (run room e is) js := by
  simp [run, List.foldl_append]

theorem lastSnapshot_cons (i : Input) (rest : List Input) :
    lastSnapshot (i :: rest) =
      match lastSnapshot rest with
      | some ps => some ps
      | none =>
        match i.event with
        | .roomInfo ps => some ps
        | _ => none := rfl

/-- C7 (as the code has it): the role is decided anew at every snapshot.  After
any sequence of events the role is the one the last ROOM_INFO snapshot of the
sequence decides, and the role the engine started with if the sequence has no
snapshot; so a first decision stands exactly until the next snapshot. -/
theorem C7_role_follows_last_snapshot (room : Room) (e : Engine) (is : List Input) :
    (run room e is).role =
      match lastSnapshot is with
      | some ps => snapshotRole ps
      | none => e.role := by
  induction is generalizing e with
  | nil => rfl
  | cons i rest ih =>
    rw [run_cons, ih, lastSnapshot_cons]
    cases hl : lastSnapshot rest with
    | some ps => rfl
    | none =>
      simp only
      cases hev : i.event with
      | roomInfo ps =>
        simp only [step, hev]
        exact handleRoomInfo_role e ps
      | userJoined u o => exact step_role_of_not_roomInfo room e i (by simp [hev])
      | offer s d o => exact step_role_of_not_roomInfo room e i (by simp [hev])
      | answer s d o => exact step_role_of_not_roomInfo room e i (by simp [hev])
      | iceCandidate s d o => exact step_role_of_not_roomInfo room e i (by simp [hev])
      | userLeft u => exact step_role_of_not_roomInfo room e i (by simp [hev])
      | localIceCandidate u c => exact step_role_of_not_roomInfo room e i (by simp [hev])
      | remoteTrack u s => exact step_role_of_not_roomInfo room e i (by simp [hev])
      | cleanup => exact step_role_of_not_roomInfo room e i (by simp [hev])

/-- C7, as stated, fails: an empty first snapshot makes the engine Initiator,
and a later snapshot that lists one participant makes it Responder. -/
theorem C7_later_snapshot_changes_role :
    (run { roomId := "room", userId := "me" } Engine.init
        [{ localStream := none, event := .roomInfo (some []) }]).role = Role.Initiator
      ∧ (run { roomId := "room", userId := "me" } Engine.init
        [{ localStream := none, event := .roomInfo (some []) },
         { localStream := none
           event := .roomInfo (some [{ userId := "A", name := "a", audioEnabled := true,
                                       videoEnabled := true }]) }]).role = Role.Responder := by
  decide

/-! ## USER_JOINED -/

/-- C9: while the engine is Responder (the flag `isInitiatorRef` is false, as it
is before any snapshot) or has no local stream, `handleUserJoined` returns the
engine state it was given: no session is created or changed, nothing is sent, no
call is made on any transport, and nothing else is recorded. -/
theorem C9_userJoined_skipped (room : Room) (localStream : Option MediaStream) (e : Engine)
    (userId : Option UserId) (o : Outcomes)
    (h : e.role = Role.Responder ∨ localStream = none) :
    handleUserJoined room localStream e userId o = e := by
  unfold handleUserJoined
  cases userId with
  | none => rfl
  | some r =>
    simp only
    split
    · rfl
    · split
      · rfl
      · rename_i hi
        rcases h with h | h
        · unfold Engine.role at h
          cases hb : e.isInitiator with
          | false => exact absurd hb hi
          | true => simp [hb] at h
        · subst h
          rfl

theorem C9_userJoined_skipped_witness :
    (Engine.init.role = Role.Responder ∨ (none : Option MediaStream) = none)
      ∧ handleUserJoined { roomId := "room", userId := "me" } none Engine.init (some "B")
          { rollbackOk := true, setRemoteOk := true, candidateOk := fun _ => true,
            createSdp := some "v=0", setLocalOk := true } = Engine.init :=
  ⟨by decide, C9_userJoined_skipped _ _ _ _ _ (by decide)⟩

/-! ## ANSWER -/

/-- C5: an ANSWER from a sender that has no session, or whose session is not in
`have-local-offer`, is discarded: `handleAnswer` returns the engine state it was
given (same map, same sessions, nothing sent, no call on any transport). -/
theorem C5_answer_discarded (e : Engine) (sender : UserId) (data : Option SessionDescription)
    (o : Outcomes)
    (h : ∀ pc, mapGet e.peerConnections sender = some pc →
      pc.signalingState ≠ SignalingState.haveLocalOffer) :
    handleAnswer e sender data o = e := by
  unfold handleAnswer
  cases hg : mapGet e.peerConnections sender with
  | none => rfl
  | some pc => simp [h pc hg]

theorem C5_answer_discarded_witness :
    (∀ pc, mapGet ({ Engine.init with peerConnections := [("B", pcNew)] }).peerConnections "B"
        = some pc → pc.signalingState ≠ SignalingState.haveLocalOffer)
      ∧ handleAnswer { Engine.init with peerConnections := [("B", pcNew)] } "B"
          (some { type := .answer, sdp := "v=0" })
          { rollbackOk := true, setRemoteOk := true, candidateOk := fun _ => true,
            createSdp := some "v=0", setLocalOk := true }
        = { Engine.init with peerConnections := [("B", pcNew)] } :=
  have h : ∀ pc, mapGet ({ Engine.init with peerConnections := [("B", pcNew)] }).peerConnections
      "B" = some pc → pc.signalingState ≠ SignalingState.haveLocalOffer := by
    intro pc hpc
    simp only [mapGet, if_true, Option.some.injEq] at hpc
    subst hpc
    decide
  ⟨h, C5_answer_discarded _ _ _ _ h⟩

/-! ### Facts about the session map -/

theorem mapGet_mapSet_same {α : Type} (m : List (UserId × α)) (k : UserId) (v : α) :
    mapGet (mapSet m k v) k = some v := by
  induction m with
  | nil => simp [mapSet, mapGet]
  | cons p rest ih =>
    obtain ⟨k', w⟩ := p
    by_cases h : k' = k
    · simp [mapSet, mapGet, h]
    · simp [mapSet, mapGet, h, ih]

theorem mapGet_mapSet_other {α : Type} (m : List (UserId × α)) (k k' : UserId) (v : α)
    (h : k' ≠ k) : mapGet (mapSet m k v) k' = mapGet m k' := by
  induction m with
  | nil => simp [mapSet, mapGet, Ne.symm h]
  | cons p rest ih =>
    obtain ⟨k'', w⟩ := p
    by_cases h1 : k'' = k
    · subst h1
      simp [mapSet, mapGet, Ne.symm h]
    · by_cases h2 : k'' = k'
      · subst h2
        simp [mapSet, mapGet, h1]
      · simp [mapSet, mapGet, h1, h2, ih]

/-- The transport `createPeerConnectionForUser` returns is the one the map then
holds for that user. -/
theorem createPeerConnectionForUser_get (ls : Option MediaStream) (e : Engine) (u : UserId) :
    mapGet (createPeerConnectionForUser ls e u).1.peerConnections u
      = some (createPeerConnectionForUser ls e u).2 := by
  unfold createPeerConnectionForUser
  cases h : mapGet e.peerConnections u with
  | some pc => simpa using h
  | none => simp [mapGet_mapSet_same]

/-! ### Facts about `createOffer` -/

theorem createOffer_success (pc : PeerConnection) (o : Outcomes) (offer : SessionDescription)
    (hs : pc.signalingState = .stable) (h : (createOffer pc o).result = some offer) :
    (createOffer pc o).pc.signalingState = .haveLocalOffer
      ∧ (createOffer pc o).pc.localDescription = some offer
      ∧ offer.type = .offer
      ∧ o.createSdp = some offer.sdp
      ∧ o.setLocalOk = true := by
  unfold createOffer at h ⊢
  unfold pcCreateOffer at h ⊢
  cases hc : o.createSdp with
  | none => simp [hc] at h
  | some sdp =>
    simp only [hc, hs] at h ⊢
    cases hl : o.setLocalOk with
    | false => simp [pcSetLocalDescription, hl] at h
    | true =>
      simp [pcSetLocalDescription, hl, hs, PeerConnection.localDescription] at h ⊢
      subst h
      simp

/-- C8: with a non-empty remote id other than the local one, the engine
Initiator, a local stream present, the session of the remote user (new or
reused) in `stable` and `createOffer` returning an offer, `handleUserJoined`
leaves that user's session in the map in `have-local-offer` with the offer as
its local description, and hands exactly one message to `send`: an OFFER from
the local id to the remote id, in this room, carrying the offer's sdp and type.
No other field of the outgoing state is touched. -/
theorem C8_userJoined_sends_offer (room : Room) (stream : MediaStream) (e : Engine)
    (remoteUserId : UserId) (o : Outcomes) (offer : SessionDescription)
    (hid : remoteUserId ≠ "") (hself : remoteUserId ≠ room.userId)
    (hrole : e.role = Role.Initiator)
    (hstable : (createPeerConnectionForUser (some stream) e remoteUserId).2.signalingState
      = SignalingState.stable)
    (hoffer : (createOffer (createPeerConnectionForUser (some stream) e remoteUserId).2 o).result
      = some offer) :
    (∃ pc, mapGet (handleUserJoined room (some stream) e (some remoteUserId) o).peerConnections
          remoteUserId = some pc
        ∧ pc.signalingState = SignalingState.haveLocalOffer
        ∧ pc.localDescription = some offer)
      ∧ (handleUserJoined room (some stream) e (some remoteUserId) o).sent
        = e.sent ++ [{ type := MessageType.OFFER, fromId := room.userId
                       toId := some remoteUserId, roomId := room.roomId
                       data := MessageData.description offer.sdp offer.type }]
      ∧ offer.type = SdpType.offer
      ∧ (handleUserJoined room (some stream) e (some remoteUserId) o).role = Role.Initiator := by
  have hinit : e.isInitiator = true := by
    unfold Engine.role at hrole
    cases hb : e.isInitiator with
    | false => simp [hb] at hrole
    | true => rfl
  have hs := createOffer_success _ o offer hstable hoffer
  have hval : handleUserJoined room (some stream) e (some remoteUserId) o
      = { (createPeerConnectionForUser (some stream) e remoteUserId).1.withSession remoteUserId
            (createOffer (createPeerConnectionForUser (some stream) e remoteUserId).2 o).pc
            (createOffer (createPeerConnectionForUser (some stream) e remoteUserId).2 o).ops with
          sent := e.sent ++ [sendOffer room.roomId room.userId remoteUserId offer] } := by
    unfold handleUserJoined
    simp [hid, hself, hinit, hstable, hoffer]
  rw [hval]
  refine ⟨⟨_, mapGet_mapSet_same _ _ _, hs.1, hs.2.1⟩, rfl, hs.2.2.1, ?_⟩
  unfold Engine.role
  simp [hinit]

/-! ## The candidate queue -/

theorem remoteDescription_queue (pc : PeerConnection) (q : List IceCandidate) :
    ({ pc with remoteCandidateQueue := q } : PeerConnection).remoteDescription
      = pc.remoteDescription := rfl

theorem flushLoop_pc (ok : Nat → Bool) (pc : PeerConnection) (q : List IceCandidate) (k : Nat) :
    (flushLoop ok pc q k).1 = if q = [] then pc else { pc with remoteCandidateQueue := [] } := by
  induction q generalizing pc k with
  | nil => rfl
  | cons c rest ih =>
    simp only [flushLoop, ih]
    cases rest <;> simp

theorem flushLoop_ops (ok : Nat → Bool) (pc : PeerConnection) (q : List IceCandidate) (k : Nat) :
    (flushLoop ok pc q k).2
      = List.ofFn (fun i : Fin q.length =>
          TransportOp.addIceCandidate (q.get i) (ok (k + i)) pc.remoteDescription.isSome
            (q.drop (i + 1))) := by
  induction q generalizing pc k with
  | nil => rfl
  | cons c rest ih =>
    simp only [flushLoop, ih, List.length_cons, List.ofFn_succ, remoteDescription_queue]
    simp [Nat.add_assoc, Nat.add_comm 1]

theorem flush_pc (pc : PeerConnection) (ok : Nat → Bool) :
    (_flushQueuedCandidates pc ok).1 = { pc with remoteCandidateQueue := [] } := by
  unfold _flushQueuedCandidates
  split
  · rename_i h
    have : pc.remoteCandidateQueue = [] := List.length_eq_zero.mp h
    cases pc
    simp_all
  · rename_i h
    rw [flushLoop_pc]
    have : pc.remoteCandidateQueue ≠ [] := fun h' => h (by simp [h'])
    simp [this]

theorem flush_ops (pc : PeerConnection) (ok : Nat → Bool) :
    (_flushQueuedCandidates pc ok).2
      = List.ofFn (fun i : Fin pc.remoteCandidateQueue.length =>
          TransportOp.addIceCandidate (pc.remoteCandidateQueue.get i) (ok i)
            pc.remoteDescription.isSome (pc.remoteCandidateQueue.drop (i + 1))) := by
  unfold _flushQueuedCandidates
  split
  · rename_i h
    have : pc.remoteCandidateQueue = [] := List.length_eq_zero.mp h
    simp [this]
  · rw [flushLoop_ops]
    simp

theorem pcSetRemoteDescription_accepted (pc pc1 : PeerConnection) (d : SessionDescription)
    (ok : Bool) (h : pcSetRemoteDescription pc d ok = some pc1) :
    pc1.remoteCandidateQueue = pc.remoteCandidateQueue
      ∧ pc1.senders = pc.senders
      ∧ ok = true
      ∧ (d.type ≠ .rollback → pc1.remoteDescription = some d ∧ d.sdp ≠ "")
      ∧ (d.type = .rollback → pc1.remoteDescription = pc.currentRemoteDescription) := by
  unfold pcSetRemoteDescription at h
  split at h
  · exact absurd h (by simp)
  · rename_i hc
    have hok : ok = true := by
      cases ok
      · exact absurd (Or.inl rfl) hc
      · rfl
    have hsdp : d.type ≠ .rollback → d.sdp ≠ "" := fun hty h' => hc (Or.inr ⟨hty, h'⟩)
    cases hty : d.type <;> cases hst : pc.signalingState <;> simp [hty, hst] at h <;>
      (subst h
       simp_all [PeerConnection.remoteDescription])

theorem pcSetRemoteDescription_success (pc pc1 : PeerConnection) (d : SessionDescription)
    (ok : Bool) (hty : d.type ≠ .rollback) (h : pcSetRemoteDescription pc d ok = some pc1) :
    pc1.remoteDescription = some d
      ∧ pc1.remoteCandidateQueue = pc.remoteCandidateQueue
      ∧ pc1.senders = pc.senders
      ∧ d.sdp ≠ "" ∧ ok = true :=
  have ha := pcSetRemoteDescription_accepted pc pc1 d ok h
  ⟨(ha.2.2.2.1 hty).1, ha.1, ha.2.1, (ha.2.2.2.1 hty).2, ha.2.2.1⟩

/-- C2: when the browser accepts the description (of whatever type),
`setRemoteDescription` goes on to hand every queued candidate to the transport,
once each and in arrival order (the i-th call is for the i-th candidate of the
queue), each at a moment when the queue holds exactly the candidates behind it;
the queue ends empty and the call returns normally, whatever the browser answers
to the single candidates.  Unless the description is a rollback, it is the
remote description of the transport from the first of these calls on. -/
theorem C2_setRemoteDescription_flushes_queue (pc pc1 : PeerConnection)
    (desc : SessionDescription) (o : Outcomes)
    (h : pcSetRemoteDescription pc desc o.setRemoteOk = some pc1) :
    (setRemoteDescription pc (some desc) o).result = some ()
      ∧ (setRemoteDescription pc (some desc) o).ops
        = TransportOp.setRemoteDescription desc true
          :: List.ofFn (fun i : Fin pc.remoteCandidateQueue.length =>
              TransportOp.addIceCandidate (pc.remoteCandidateQueue.get i) (o.candidateOk i)
                pc1.remoteDescription.isSome (pc.remoteCandidateQueue.drop (i + 1)))
      ∧ (setRemoteDescription pc (some desc) o).pc = { pc1 with remoteCandidateQueue := [] }
      ∧ (desc.type ≠ SdpType.rollback →
          pc1.remoteDescription = some desc
            ∧ (setRemoteDescription pc (some desc) o).pc.remoteDescription = some desc) := by
  have hs := pcSetRemoteDescription_accepted pc pc1 desc _ h
  unfold setRemoteDescription
  simp only [h, flush_pc, flush_ops, remoteDescription_queue]
  have hq := hs.1
  revert hq
  generalize pc1.remoteCandidateQueue = q1
  intro hq
  subst hq
  refine ⟨trivial, rfl, trivial, fun hty => ?_⟩
  exact ⟨(hs.2.2.2.1 hty).1, (hs.2.2.2.1 hty).1⟩

theorem C2_setRemoteDescription_flushes_queue_witness :
    pcSetRemoteDescription sampleQueued sampleOffer candidatesRejected.setRemoteOk
        = some { sampleQueued with
            pendingRemoteDescription := some sampleOffer
            signalingState := SignalingState.haveRemoteOffer }
      ∧ (setRemoteDescription sampleQueued (some sampleOffer) candidatesRejected).result = some ()
      ∧ (setRemoteDescription sampleQueued (some sampleOffer) candidatesRejected).pc.remoteCandidateQueue
        = [] :=
  have h : pcSetRemoteDescription sampleQueued sampleOffer candidatesRejected.setRemoteOk
      = some { sampleQueued with
          pendingRemoteDescription := some sampleOffer
          signalingState := SignalingState.haveRemoteOffer } := by decide
  ⟨h, (C2_setRemoteDescription_flushes_queue _ _ _ _ h).1,
    by rw [(C2_setRemoteDescription_flushes_queue _ _ _ _ h).2.2.1]⟩

theorem C8_userJoined_sends_offer_witness :
    (handleUserJoined sampleRoom (some sampleStream) sampleInitiator (some "B") allAccepted).sent
      = [{ type := MessageType.OFFER, fromId := "me", toId := some "B", roomId := "room"
           data := MessageData.description "v=0" SdpType.offer }] :=
  (C8_userJoined_sends_offer sampleRoom sampleStream sampleInitiator "B" allAccepted
    { type := .offer, sdp := "v=0" } (by decide) (by decide) (by decide) (by decide)
    (by decide)).2.1

/-! ## Every handler run is an evolution -/

theorem pcSetLocalDescription_senders (pc pc1 : PeerConnection) (d : SessionDescription)
    (ok : Bool) (h : pcSetLocalDescription pc d ok = some pc1) : pc1.senders = pc.senders := by
  unfold pcSetLocalDescription at h
  split at h
  · cases h
  · split at h
    all_goals first
      | (cases h
         rfl)
      | (cases h)

/-- The rollback `handleOffer` asks for is `setLocalDescription` with a
description of type `rollback`. -/
theorem pcRollback_eq_setLocalDescription (pc : PeerConnection) (ok : Bool) (sdp : String) :
    pcRollback pc ok = pcSetLocalDescription pc { type := .rollback, sdp := sdp } ok := by
  unfold pcRollback pcSetLocalDescription
  cases ok <;> cases hst : pc.signalingState <;> simp

theorem pcRollback_senders (pc pc1 : PeerConnection) (ok : Bool)
    (h : pcRollback pc ok = some pc1) : pc1.senders = pc.senders := by
  unfold pcRollback at h
  split at h
  · cases h
  · split at h
    all_goals first
      | (cases h
         rfl)
      | (cases h)

theorem createOffer_tame (pc : PeerConnection) (o : Outcomes) :
    (createOffer pc o).pc.senders = pc.senders
      ∧ ∀ op ∈ (createOffer pc o).ops, sessionOp op = true := by
  unfold createOffer
  cases h1 : pcCreateOffer pc o.createSdp with
  | none => simp [sessionOp]
  | some offer =>
    cases h2 : pcSetLocalDescription pc offer o.setLocalOk with
    | none => simp [h2, sessionOp]
    | some pc1 => simp [h2, sessionOp, pcSetLocalDescription_senders pc pc1 offer _ h2]

theorem createAnswer_tame (pc : PeerConnection) (o : Outcomes) :
    (createAnswer pc o).pc.senders = pc.senders
      ∧ ∀ op ∈ (createAnswer pc o).ops, sessionOp op = true := by
  unfold createAnswer
  cases h1 : pcCreateAnswer pc o.createSdp with
  | none => simp [sessionOp]
  | some answer =>
    cases h2 : pcSetLocalDescription pc answer o.setLocalOk with
    | none => simp [h2, sessionOp]
    | some pc1 => simp [h2, sessionOp, pcSetLocalDescription_senders pc pc1 answer _ h2]

theorem rollbackIfUnstable_tame (pc : PeerConnection) (o : Outcomes) :
    (rollbackIfUnstable pc o).1.senders = pc.senders
      ∧ ∀ op ∈ (rollbackIfUnstable pc o).2, sessionOp op = true := by
  unfold rollbackIfUnstable
  split
  · cases h : pcRollback pc o.rollbackOk with
    | none => simp [sessionOp]
    | some pc1 => simp [sessionOp, pcRollback_senders pc pc1 _ h]
  · simp

theorem setRemoteDescription_tame (pc : PeerConnection) (d : Option SessionDescription)
    (o : Outcomes) :
    (setRemoteDescription pc d o).pc.senders = pc.senders
      ∧ ∀ op ∈ (setRemoteDescription pc d o).ops, sessionOp op = true := by
  unfold setRemoteDescription
  cases d with
  | none => simp
  | some desc =>
    cases h : pcSetRemoteDescription pc desc o.setRemoteOk with
    | none => simp [h, sessionOp]
    | some pc1 =>
      have hs := pcSetRemoteDescription_accepted pc pc1 desc _ h
      simp only [h, flush_pc, flush_ops, hs.2.1, List.mem_cons, List.mem_ofFn, true_and]
      rintro op (rfl | ⟨i, rfl⟩) <;> rfl

theorem remoteDescription_isSome_of_present (pc : PeerConnection)
    (h : remoteDescriptionMissing pc = false) : pc.remoteDescription.isSome = true := by
  unfold remoteDescriptionMissing at h
  cases hr : pc.remoteDescription with
  | none => simp [hr] at h
  | some d => rfl

theorem addIceCandidate_tame (pc : PeerConnection) (c : Option IceCandidate) (o : Outcomes) :
    (addIceCandidate pc c o).pc.senders = pc.senders
      ∧ ∀ op ∈ (addIceCandidate pc c o).ops, sessionOp op = true := by
  unfold addIceCandidate
  cases c with
  | none => simp
  | some c =>
    cases hm : remoteDescriptionMissing pc with
    | true => simp
    | false => simp [sessionOp]

theorem handleUserJoined_evolves (room : Room) (ls : Option MediaStream) (e : Engine)
    (u : Option UserId) (o : Outcomes) : Evolves e (handleUserJoined room ls e u o) := by
  unfold handleUserJoined
  cases u with
  | none => exact Evolves.refl e
  | some r =>
    simp only
    split
    · exact Evolves.refl e
    · split
      · exact Evolves.refl e
      · cases ls with
        | none => exact Evolves.refl e
        | some stream =>
          simp only
          have hc := Evolves.create (some stream) e r
          split
          · exact hc
          · have ht := createOffer_tame (createPeerConnectionForUser (some stream) e r).2 o
            have hu := Evolves.update _ r _ _ _
              (createPeerConnectionForUser_get (some stream) e r) ht.1 ht.2
            have h2 := Evolves.trans _ _ _ hc hu
            split
            · exact h2
            · exact Evolves.trans _ _ _ h2 (Evolves.other _ _ rfl rfl)

theorem handleOffer_evolves (room : Room) (ls : Option MediaStream) (e : Engine)
    (s : UserId) (d : Option SessionDescription) (o : Outcomes) :
    Evolves e (handleOffer room ls e s d o) := by
  unfold handleOffer
  simp only
  have hc := Evolves.create ls e s
  have hg := createPeerConnectionForUser_get ls e s
  have hb := rollbackIfUnstable_tame (createPeerConnectionForUser ls e s).2 o
  have hs := setRemoteDescription_tame
    (rollbackIfUnstable (createPeerConnectionForUser ls e s).2 o).1 d o
  split
  · refine Evolves.trans _ _ _ hc (Evolves.update _ s _ _ _ hg (hs.1.trans hb.1) ?_)
    intro op hop
    rcases List.mem_append.mp hop with h | h
    · exact hb.2 op h
    · exact hs.2 op h
  · have ha := createAnswer_tame
      (setRemoteDescription (rollbackIfUnstable (createPeerConnectionForUser ls e s).2 o).1 d o).pc o
    have hu : Evolves (createPeerConnectionForUser ls e s).1
        ((createPeerConnectionForUser ls e s).1.withSession s
          (createAnswer (setRemoteDescription
            (rollbackIfUnstable (createPeerConnectionForUser ls e s).2 o).1 d o).pc o).pc
          ((rollbackIfUnstable (createPeerConnectionForUser ls e s).2 o).2
            ++ (setRemoteDescription
              (rollbackIfUnstable (createPeerConnectionForUser ls e s).2 o).1 d o).ops
            ++ (createAnswer (setRemoteDescription
              (rollbackIfUnstable (createPeerConnectionForUser ls e s).2 o).1 d o).pc o).ops)) := by
      refine Evolves.update _ s _ _ _ hg (ha.1.trans (hs.1.trans hb.1)) ?_
      intro op hop
      rcases List.mem_append.mp hop with h | h
      · rcases List.mem_append.mp h with h | h
        · exact hb.2 op h
        · exact hs.2 op h
      · exact ha.2 op h
    split
    · exact Evolves.trans _ _ _ hc hu
    · exact Evolves.trans _ _ _ (Evolves.trans _ _ _ hc hu) (Evolves.other _ _ rfl rfl)

theorem handleAnswer_evolves (e : Engine) (s : UserId) (d : Option SessionDescription)
    (o : Outcomes) : Evolves e (handleAnswer e s d o) := by
  unfold handleAnswer
  cases hg : mapGet e.peerConnections s with
  | none => exact Evolves.refl e
  | some pc =>
    simp only
    split
    · exact Evolves.refl e
    · have ht := setRemoteDescription_tame pc d o
      exact Evolves.update e s pc _ _ hg ht.1 ht.2

theorem handleIceCandidate_evolves (ls : Option MediaStream) (e : Engine) (s : UserId)
    (d : Option IceCandidate) (o : Outcomes) : Evolves e (handleIceCandidate ls e s d o) := by
  unfold handleIceCandidate
  have ht := addIceCandidate_tame (createPeerConnectionForUser ls e s).2 d o
  exact Evolves.trans _ _ _ (Evolves.create ls e s)
    (Evolves.update _ s _ _ _ (createPeerConnectionForUser_get ls e s) ht.1 ht.2)

theorem step_evolves (room : Room) (e : Engine) (i : Input) : Evolves e (step room e i) := by
  obtain ⟨ls, ev⟩ := i
  cases ev with
  | roomInfo ps =>
    refine Evolves.other _ _ ?_ ?_ <;>
      (simp only [step, handleRoomInfo]; split <;> rfl)
  | userJoined u o => exact handleUserJoined_evolves room ls e u o
  | offer s d o => exact handleOffer_evolves room ls e s d o
  | answer s d o => exact handleAnswer_evolves e s d o
  | iceCandidate s d o => exact handleIceCandidate_evolves ls e s d o
  | userLeft u => exact Evolves.left e u
  | localIceCandidate u c =>
    cases c with
    | none => exact Evolves.refl e
    | some c => exact Evolves.other _ _ rfl rfl
  | remoteTrack u s => exact Evolves.other _ _ rfl rfl
  | cleanup => exact Evolves.cleanup e

theorem run_evolves (room : Room) (e : Engine) (is : List Input) :
    Evolves e (run room e is) := by
  induction is generalizing e with
  | nil => exact Evolves.refl e
  | cons i rest ih => exact Evolves.trans _ _ _ (step_evolves room e i) (ih (step room e i))

/-! ## Candidates and the remote description -/

theorem extendsGuarded_refl (e : Engine) : ExtendsGuarded e e :=
  ⟨[], by simp, by simp⟩

theorem extendsGuarded_of_trace (e e' : Engine) (h : e'.trace = e.trace) :
    ExtendsGuarded e e' :=
  ⟨[], by simp [h], by simp⟩

theorem extendsGuarded_trans (a b c : Engine) (h1 : ExtendsGuarded a b)
    (h2 : ExtendsGuarded b c) : ExtendsGuarded a c := by
  obtain ⟨n1, h1, g1⟩ := h1
  obtain ⟨n2, h2, g2⟩ := h2
  refine ⟨n1 ++ n2, by rw [h2, h1, List.append_assoc], ?_⟩
  intro p hp
  rcases List.mem_append.mp hp with h | h
  · exact g1 p h
  · exact g2 p h

theorem extendsGuarded_withSession (e : Engine) (u : UserId) (pc : PeerConnection)
    (ops : List TransportOp) (h : ∀ op ∈ ops, candidateGuarded op = true) :
    ExtendsGuarded e (e.withSession u pc ops) := by
  refine ⟨_, rfl, ?_⟩
  intro p hp
  obtain ⟨op, hop, rfl⟩ := List.mem_map.mp hp
  exact h op hop

theorem extendsGuarded_create (ls : Option MediaStream) (e : Engine) (u : UserId) :
    ExtendsGuarded e (createPeerConnectionForUser ls e u).1 := by
  unfold createPeerConnectionForUser
  cases hg : mapGet e.peerConnections u with
  | some pc => exact ⟨[], by simp, by simp⟩
  | none =>
    refine ⟨_, rfl, ?_⟩
    intro p hp
    simp only [List.map_cons, List.map_map, List.mem_cons, List.mem_map,
      Function.comp_apply] at hp
    rcases hp with rfl | ⟨t, _, rfl⟩ <;> rfl

theorem createOffer_guarded (pc : PeerConnection) (o : Outcomes) :
    ∀ op ∈ (createOffer pc o).ops, candidateGuarded op = true := by
  unfold createOffer
  cases h1 : pcCreateOffer pc o.createSdp with
  | none => simp [candidateGuarded]
  | some offer =>
    cases h2 : pcSetLocalDescription pc offer o.setLocalOk with
    | none => simp [h2, candidateGuarded]
    | some pc1 => simp [h2, candidateGuarded]

theorem createAnswer_guarded (pc : PeerConnection) (o : Outcomes) :
    ∀ op ∈ (createAnswer pc o).ops, candidateGuarded op = true := by
  unfold createAnswer
  cases h1 : pcCreateAnswer pc o.createSdp with
  | none => simp [candidateGuarded]
  | some answer =>
    cases h2 : pcSetLocalDescription pc answer o.setLocalOk with
    | none => simp [h2, candidateGuarded]
    | some pc1 => simp [h2, candidateGuarded]

theorem rollbackIfUnstable_guarded (pc : PeerConnection) (o : Outcomes) :
    ∀ op ∈ (rollbackIfUnstable pc o).2, candidateGuarded op = true := by
  unfold rollbackIfUnstable
  split
  · cases h : pcRollback pc o.rollbackOk with
    | none => simp [candidateGuarded]
    | some pc1 => simp [candidateGuarded]
  · simp

theorem setRemoteDescription_guarded (pc : PeerConnection) (d : Option SessionDescription)
    (o : Outcomes) (hty : ∀ desc, d = some desc → desc.type ≠ SdpType.rollback) :
    ∀ op ∈ (setRemoteDescription pc d o).ops, candidateGuarded op = true := by
  unfold setRemoteDescription
  cases d with
  | none => simp
  | some desc =>
    cases h : pcSetRemoteDescription pc desc o.setRemoteOk with
    | none => simp [h, candidateGuarded]
    | some pc1 =>
      have hs := pcSetRemoteDescription_success pc pc1 desc _ (hty desc rfl) h
      simp only [h, flush_ops, hs.1, Option.isSome_some, List.mem_cons, List.mem_ofFn]
      rintro op (rfl | ⟨i, rfl⟩) <;> rfl

theorem addIceCandidate_guarded (pc : PeerConnection) (c : Option IceCandidate) (o : Outcomes) :
    ∀ op ∈ (addIceCandidate pc c o).ops, candidateGuarded op = true := by
  unfold addIceCandidate
  cases c with
  | none => simp
  | some c =>
    cases hm : remoteDescriptionMissing pc with
    | true => simp
    | false => simp [candidateGuarded, remoteDescription_isSome_of_present pc hm]

theorem handleUserJoined_guarded (room : Room) (ls : Option MediaStream) (e : Engine)
    (u : Option UserId) (o : Outcomes) : ExtendsGuarded e (handleUserJoined room ls e u o) := by
  unfold handleUserJoined
  cases u with
  | none => exact extendsGuarded_refl e
  | some r =>
    simp only
    split
    · exact extendsGuarded_refl e
    · split
      · exact extendsGuarded_refl e
      · cases ls with
        | none => exact extendsGuarded_refl e
        | some stream =>
          simp only
          have hc := extendsGuarded_create (some stream) e r
          split
          · exact hc
          · have hu := extendsGuarded_withSession (createPeerConnectionForUser (some stream) e r).1
              r (createOffer (createPeerConnectionForUser (some stream) e r).2 o).pc _
              (createOffer_guarded (createPeerConnectionForUser (some stream) e r).2 o)
            have h2 := extendsGuarded_trans _ _ _ hc hu
            split
            · exact h2
            · exact extendsGuarded_trans _ _ _ h2 (extendsGuarded_of_trace _ _ rfl)

theorem handleOffer_guarded (room : Room) (ls : Option MediaStream) (e : Engine)
    (s : UserId) (d : Option SessionDescription) (o : Outcomes)
    (hty : ∀ desc, d = some desc → desc.type ≠ SdpType.rollback) :
    ExtendsGuarded e (handleOffer room ls e s d o) := by
  unfold handleOffer
  simp only
  have hc := extendsGuarded_create ls e s
  have hb := rollbackIfUnstable_guarded (createPeerConnectionForUser ls e s).2 o
  have hs := setRemoteDescription_guarded
    (rollbackIfUnstable (createPeerConnectionForUser ls e s).2 o).1 d o hty
  split
  · refine extendsGuarded_trans _ _ _ hc (extendsGuarded_withSession _ s _ _ ?_)
    intro op hop
    rcases List.mem_append.mp hop with h | h
    · exact hb op h
    · exact hs op h
  · have ha := createAnswer_guarded
      (setRemoteDescription (rollbackIfUnstable (createPeerConnectionForUser ls e s).2 o).1 d o).pc o
    have hu : ExtendsGuarded (createPeerConnectionForUser ls e s).1
        ((createPeerConnectionForUser ls e s).1.withSession s
          (createAnswer (setRemoteDescription
            (rollbackIfUnstable (createPeerConnectionForUser ls e s).2 o).1 d o).pc o).pc
          ((rollbackIfUnstable (createPeerConnectionForUser ls e s).2 o).2
            ++ (setRemoteDescription
              (rollbackIfUnstable (createPeerConnectionForUser ls e s).2 o).1 d o).ops
            ++ (createAnswer (setRemoteDescription
              (rollbackIfUnstable (createPeerConnectionForUser ls e s).2 o).1 d o).pc o).ops)) := by
      refine extendsGuarded_withSession _ s _ _ ?_
      intro op hop
      rcases List.mem_append.mp hop with h | h
      · rcases List.mem_append.mp h with h | h
        · exact hb op h
        · exact hs op h
      · exact ha op h
    split
    · exact extendsGuarded_trans _ _ _ hc hu
    · exact extendsGuarded_trans _ _ _ (extendsGuarded_trans _ _ _ hc hu)
        (extendsGuarded_of_trace _ _ rfl)

theorem handleAnswer_guarded (e : Engine) (s : UserId) (d : Option SessionDescription)
    (o : Outcomes) (hty : ∀ desc, d = some desc → desc.type ≠ SdpType.rollback) :
    ExtendsGuarded e (handleAnswer e s d o) := by
  unfold handleAnswer
  cases hg : mapGet e.peerConnections s with
  | none => exact extendsGuarded_refl e
  | some pc =>
    simp only
    split
    · exact extendsGuarded_refl e
    · exact extendsGuarded_withSession e s _ _ (setRemoteDescription_guarded pc d o hty)

theorem handleIceCandidate_guarded (ls : Option MediaStream) (e : Engine) (s : UserId)
    (d : Option IceCandidate) (o : Outcomes) :
    ExtendsGuarded e (handleIceCandidate ls e s d o) := by
  unfold handleIceCandidate
  exact extendsGuarded_trans _ _ _ (extendsGuarded_create ls e s)
    (extendsGuarded_withSession _ s _ _
      (addIceCandidate_guarded (createPeerConnectionForUser ls e s).2 d o))

theorem handleUserLeft_guarded (e : Engine) (u : UserId) :
    ExtendsGuarded e (handleUserLeft e u) := by
  unfold handleUserLeft
  cases hg : mapGet e.peerConnections u with
  | none => exact ⟨[], by simp, by simp⟩
  | some pc =>
    refine ⟨[(u, .close)], rfl, ?_⟩
    intro p hp
    rw [List.mem_singleton.mp hp]
    rfl

theorem cleanup_guarded (e : Engine) : ExtendsGuarded e (cleanup e) := by
  refine ⟨_, rfl, ?_⟩
  intro p hp
  obtain ⟨q, _, rfl⟩ := List.mem_map.mp hp
  rfl

theorem step_guarded (room : Room) (e : Engine) (i : Input)
    (h : carriesRollback i.event = false) : ExtendsGuarded e (step room e i) := by
  obtain ⟨ls, ev⟩ := i
  cases ev with
  | roomInfo ps =>
    refine extendsGuarded_of_trace _ _ ?_
    simp only [step, handleRoomInfo]
    split <;> rfl
  | userJoined u o => exact handleUserJoined_guarded room ls e u o
  | offer s d o =>
    refine handleOffer_guarded room ls e s d o ?_
    intro desc hd
    subst hd
    simpa [carriesRollback] using h
  | answer s d o =>
    refine handleAnswer_guarded e s d o ?_
    intro desc hd
    subst hd
    simpa [carriesRollback] using h
  | iceCandidate s d o => exact handleIceCandidate_guarded ls e s d o
  | userLeft u => exact handleUserLeft_guarded e u
  | localIceCandidate u c =>
    cases c with
    | none => exact extendsGuarded_refl e
    | some c => exact extendsGuarded_of_trace _ _ rfl
  | remoteTrack u s => exact extendsGuarded_of_trace _ _ rfl
  | cleanup => exact cleanup_guarded e

/-- Unless an OFFER or ANSWER carries a description of type `rollback`, every
call of `pc.addIceCandidate` a run makes (directly or from the flush) finds the
remote description of that transport present. -/
theorem run_guarded (room : Room) (e : Engine) (is : List Input)
    (h : ∀ i ∈ is, carriesRollback i.event = false) : ExtendsGuarded e (run room e is) := by
  induction is generalizing e with
  | nil => exact extendsGuarded_refl e
  | cons i rest ih =>
    exact extendsGuarded_trans _ _ _
      (step_guarded room e i (h i (List.mem_cons_self _ _)))
      (ih (step room e i) (fun j hj => h j (List.mem_cons_of_mem _ hj)))

/-- A candidate that arrives while the remote description is missing causes no
call on the transport: it goes to the end of the session's queue.  Otherwise it
is handed to the transport at once. -/
theorem handleIceCandidate_queues_or_applies (e : Engine) (ls : Option MediaStream)
    (sender : UserId) (c : IceCandidate) (o : Outcomes) :
    handleIceCandidate ls e sender (some c) o
      = if remoteDescriptionMissing (createPeerConnectionForUser ls e sender).2 then
          (createPeerConnectionForUser ls e sender).1.withSession sender
            { (createPeerConnectionForUser ls e sender).2 with
              remoteCandidateQueue :=
                (createPeerConnectionForUser ls e sender).2.remoteCandidateQueue ++ [c] } []
        else
          (createPeerConnectionForUser ls e sender).1.withSession sender
            (createPeerConnectionForUser ls e sender).2
            [TransportOp.addIceCandidate c (o.candidateOk 0) true
              (createPeerConnectionForUser ls e sender).2.remoteCandidateQueue] := by
  unfold handleIceCandidate addIceCandidate
  cases hm : remoteDescriptionMissing (createPeerConnectionForUser ls e sender).2 with
  | true => simp [hm]
  | false => simp [hm, remoteDescription_isSome_of_present _ hm]

/-- C1 fails when a peer answers with a rollback: the engine, Initiator, has
sent an offer to `B` (the session is in `have-local-offer` and has no remote
description) and a candidate of `B` waits in the queue.  An ANSWER of `B` whose
description is of type `rollback` arrives; the browser accepts it, which drops
the pending offer and sets no remote description.  `setRemoteDescription` goes
on to the flush all the same: the queued candidate is shifted off the queue and
handed to `pc.addIceCandidate` while the remote description is absent. -/
theorem C1_candidate_applied_after_rollback :
    (mapGet (run sampleRoom Engine.init (sampleRollbackRun.take 3)).peerConnections "B").map
        (fun pc => (pc.signalingState, pc.remoteDescription, pc.remoteCandidateQueue))
      = some (SignalingState.haveLocalOffer, none, [sampleCandidate1])
    ∧ appliedCandidates (opsOf (run sampleRoom Engine.init (sampleRollbackRun.take 3)).trace "B")
      = []
    ∧ (run sampleRoom Engine.init sampleRollbackRun).trace
      = (run sampleRoom Engine.init (sampleRollbackRun.take 3)).trace
        ++ [("B", TransportOp.setRemoteDescription sampleRollback true),
            ("B", TransportOp.addIceCandidate sampleCandidate1 false false [])]
    ∧ (mapGet (run sampleRoom Engine.init sampleRollbackRun).peerConnections "B").map
        (fun pc => (pc.signalingState, pc.remoteDescription, pc.remoteCandidateQueue))
      = some (SignalingState.stable, none, [])
    ∧ ¬ ∀ p ∈ (run sampleRoom Engine.init sampleRollbackRun).trace,
        candidateGuarded p.2 = true := by
  decide

/-! ### More facts about the session map -/

theorem mapGet_eq_none_iff {α : Type} (m : List (UserId × α)) (k : UserId) :
    mapGet m k = none ↔ k ∉ mapKeys m := by
  induction m with
  | nil => simp [mapGet, mapKeys]
  | cons p rest ih =>
    obtain ⟨k', w⟩ := p
    by_cases h : k' = k
    · simp [mapGet, mapKeys, h]
    · have h' : ¬ k = k' := fun h'' => h h''.symm
      simp only [mapGet, h, if_false, ih, mapKeys, List.map_cons, List.mem_cons, h', false_or]

theorem mapKeys_mapSet {α : Type} (m : List (UserId × α)) (k : UserId) (v : α) :
    mapKeys (mapSet m k v) = if k ∈ mapKeys m then mapKeys m else mapKeys m ++ [k] := by
  induction m with
  | nil => simp [mapSet, mapKeys]
  | cons p rest ih =>
    obtain ⟨k', w⟩ := p
    by_cases h : k' = k
    · simp [mapSet, mapKeys, h]
    · have h' : ¬ k = k' := fun h'' => h h''.symm
      simp only [mapKeys] at ih
      simp only [mapSet, h, if_false, mapKeys, List.map_cons, ih, List.mem_cons, h', false_or]
      split <;> simp

theorem mapKeys_mapDelete {α : Type} (m : List (UserId × α)) (k : UserId) :
    mapKeys (mapDelete m k) = (mapKeys m).filter (fun x => x ≠ k) := by
  induction m with
  | nil => simp [mapDelete, mapKeys]
  | cons p rest ih =>
    obtain ⟨k', w⟩ := p
    simp only [mapKeys] at ih
    by_cases h : k' = k
    · simp [mapDelete, mapKeys, h, ih]
    · simp [mapDelete, mapKeys, h, ih]

theorem mapGet_mapDelete_same {α : Type} (m : List (UserId × α)) (k : UserId) :
    mapGet (mapDelete m k) k = none := by
  rw [mapGet_eq_none_iff, mapKeys_mapDelete]
  simp

theorem mapGet_mapDelete_other {α : Type} (m : List (UserId × α)) (k k' : UserId)
    (h : k' ≠ k) : mapGet (mapDelete m k) k' = mapGet m k' := by
  induction m with
  | nil => rfl
  | cons p rest ih =>
    obtain ⟨k'', w⟩ := p
    by_cases h1 : k'' = k
    · subst h1
      simp [mapDelete, mapGet, Ne.symm h, ih]
    · by_cases h2 : k'' = k'
      · subst h2
        simp [mapDelete, mapGet, h1]
      · simp [mapDelete, mapGet, h1, h2, ih]

/-! ### Facts about traces -/

theorem opsOf_append (t new : List (UserId × TransportOp)) (u : UserId) :
    opsOf (t ++ new) u = opsOf t u ++ opsOf new u := by
  simp [opsOf, List.filterMap_append]

theorem opsOf_map_same (ops : List TransportOp) (u : UserId) :
    opsOf (ops.map (fun op => (u, op))) u = ops := by
  induction ops with
  | nil => rfl
  | cons op rest ih =>
    simp only [opsOf, List.map_cons, List.filterMap_cons, if_true] at ih ⊢
    rw [ih]

theorem opsOf_map_other (ops : List TransportOp) (u u' : UserId) (h : u ≠ u') :
    opsOf (ops.map (fun op => (u, op))) u' = [] := by
  induction ops with
  | nil => rfl
  | cons op rest ih =>
    simp only [opsOf, List.map_cons, List.filterMap_cons, h, if_false] at ih ⊢
    exact ih

theorem opsOf_closeAll {α : Type} (m : List (UserId × α)) (u : UserId) :
    opsOf (m.map (fun p => (p.1, TransportOp.close))) u
      = List.replicate ((mapKeys m).count u) TransportOp.close := by
  induction m with
  | nil => rfl
  | cons p rest ih =>
    obtain ⟨k, w⟩ := p
    simp only [opsOf, mapKeys] at ih
    by_cases h : k = u
    · simp [opsOf, mapKeys, h, ih, List.replicate_succ]
    · simp [opsOf, mapKeys, h, ih, List.count_cons]
/-! ## One session per participant -/

theorem count_ops_of_sessionOps (ops : List TransportOp)
    (h : ∀ op ∈ ops, sessionOp op = true) :
    ops.count TransportOp.created = 0 ∧ ops.count TransportOp.close = 0 := by
  constructor
  · rw [List.count_eq_zero]
    intro hm
    exact absurd (h _ hm) (by decide)
  · rw [List.count_eq_zero]
    intro hm
    exact absurd (h _ hm) (by decide)

theorem count_created_addTracks (ts : List Track) :
    (List.map TransportOp.addTrack ts).count TransportOp.created = 0
      ∧ (List.map TransportOp.addTrack ts).count TransportOp.close = 0 := by
  constructor <;>
    (rw [List.count_eq_zero]
     intro hm
     obtain ⟨t, _, ht⟩ := List.mem_map.mp hm
     cases ht)

theorem sessionsMatchTrace_evolves {e e' : Engine} (h : Evolves e e')
    (hinv : SessionsMatchTrace e) : SessionsMatchTrace e' := by
  induction h with
  | refl e => exact hinv
  | create ls e u =>
    unfold createPeerConnectionForUser
    cases hg : mapGet e.peerConnections u with
    | some pc => exact hinv
    | none =>
      have hnot : u ∉ mapKeys e.peerConnections := (mapGet_eq_none_iff _ _).mp hg
      obtain ⟨hnd, hcnt⟩ := hinv
      refine ⟨?_, ?_⟩
      · simp only [withSession_peerConnections, mapKeys_mapSet, hnot, if_false]
        exact List.Nodup.append hnd (List.nodup_singleton u) (by simpa using hnot)
      · intro v
        have := hcnt v
        simp only [createdCount, closedCount, withSession_trace, withSession_peerConnections,
          mapKeys_mapSet, hnot, if_false, opsOf_append, List.count_append] at this ⊢
        by_cases hv : u = v
        · subst hv
          simp only [opsOf_map_same, List.count_cons, (count_created_addTracks _).1,
            (count_created_addTracks _).2, List.count_nil]
          simp
          omega
        · simp only [opsOf_map_other _ _ _ hv, List.count_nil, List.count_cons]
          simp [hv]
          omega
  | update e u pc0 pc ops hg hs hops =>
    have hmem : u ∈ mapKeys e.peerConnections := by
      by_contra hn
      rw [(mapGet_eq_none_iff _ _).mpr hn] at hg
      cases hg
    obtain ⟨hnd, hcnt⟩ := hinv
    refine ⟨?_, ?_⟩
    · simpa only [withSession_peerConnections, mapKeys_mapSet, hmem, if_true] using hnd
    · intro v
      have := hcnt v
      simp only [createdCount, closedCount, withSession_trace, withSession_peerConnections,
        mapKeys_mapSet, hmem, if_true, opsOf_append, List.count_append] at this ⊢
      by_cases hv : u = v
      · subst hv
        simp only [opsOf_map_same, (count_ops_of_sessionOps ops hops).1,
          (count_ops_of_sessionOps ops hops).2]
        omega
      · simp only [opsOf_map_other _ _ _ hv, List.count_nil]
        omega
  | left e u =>
    obtain ⟨hnd, hcnt⟩ := hinv
    refine ⟨?_, ?_⟩
    · simp only [handleUserLeft, mapKeys_mapDelete]
      exact hnd.filter _
    · intro v
      have := hcnt v
      simp only [createdCount, closedCount, handleUserLeft, mapKeys_mapDelete] at this ⊢
      by_cases hv : u = v
      · subst hv
        have hz : ((mapKeys e.peerConnections).filter (fun x => x ≠ u)).count u = 0 := by
          rw [List.count_eq_zero]
          simp
        rw [hz]
        cases hg : mapGet e.peerConnections u with
        | none =>
          have hnot : u ∉ mapKeys e.peerConnections := (mapGet_eq_none_iff _ _).mp hg
          rw [List.count_eq_zero.mpr hnot] at this
          simpa using this
        | some pc =>
          have hmem : u ∈ mapKeys e.peerConnections := by
            by_contra hn
            rw [(mapGet_eq_none_iff _ _).mpr hn] at hg
            cases hg
          rw [List.count_eq_one_of_mem hnd hmem] at this
          simp only [opsOf_append, List.count_append]
          simp [opsOf] at this ⊢
          omega
      · have hc : ((mapKeys e.peerConnections).filter (fun x => x ≠ u)).count v
            = (mapKeys e.peerConnections).count v := by
          rw [List.count_filter]
          simp [Ne.symm hv]
        rw [hc]
        cases hg : mapGet e.peerConnections u with
        | none => simpa using this
        | some pc =>
          simp only [opsOf_append, List.count_append]
          simp [opsOf, hv] at this ⊢
          omega
  | cleanup e =>
    obtain ⟨hnd, hcnt⟩ := hinv
    refine ⟨by simp [cleanup, mapKeys], ?_⟩
    intro v
    have := hcnt v
    simp only [createdCount, closedCount, cleanup, opsOf_append, List.count_append,
      opsOf_closeAll, mapKeys, List.map_nil, List.count_nil] at this ⊢
    simp only [List.count_replicate_self, mapKeys]
    have hz : (List.replicate (List.count v (List.map Prod.fst e.peerConnections))
        TransportOp.close).count TransportOp.created = 0 := by
      rw [List.count_eq_zero]
      intro hm
      exact absurd (List.eq_of_mem_replicate hm) (by decide)
    omega
  | other e e' hpc htr =>
    obtain ⟨hnd, hcnt⟩ := hinv
    refine ⟨by rw [hpc]; exact hnd, ?_⟩
    intro v
    have := hcnt v
    simp only [createdCount, closedCount, htr, hpc] at this ⊢
    exact this
  | trans a b c _ _ ih1 ih2 => exact ih2 (ih1 hinv)
theorem sessionsMatchTrace_init : SessionsMatchTrace Engine.init := by
  refine ⟨List.nodup_nil, ?_⟩
  intro u
  rfl

/-- C4: in every state the engine reaches from its initial state by handling
events and cleanup calls one at a time, a user has at most one entry in the
session map, and the transports made for that user are exactly the ones closed
plus the one in the map, so at most one is made and not yet closed.
`createPeerConnectionForUser` returns the session the map holds, touching
nothing, and makes a transport only when the map holds none. -/
theorem C4_one_session_per_participant (room : Room) (is : List Input) (u : UserId)
    (ls : Option MediaStream) :
    (mapKeys (run room Engine.init is).peerConnections).count u ≤ 1
      ∧ createdCount (run room Engine.init is).trace u
        = closedCount (run room Engine.init is).trace u
          + (mapKeys (run room Engine.init is).peerConnections).count u
      ∧ createdCount (run room Engine.init is).trace u
        ≤ closedCount (run room Engine.init is).trace u + 1
      ∧ (match mapGet (run room Engine.init is).peerConnections u with
        | some pc => createPeerConnectionForUser ls (run room Engine.init is) u
            = (run room Engine.init is, pc)
        | none =>
          createdCount (createPeerConnectionForUser ls (run room Engine.init is) u).1.trace u
            = createdCount (run room Engine.init is).trace u + 1) := by
  obtain ⟨hnd, hcnt⟩ :=
    sessionsMatchTrace_evolves (run_evolves room Engine.init is) sessionsMatchTrace_init
  have h1 : (mapKeys (run room Engine.init is).peerConnections).count u ≤ 1 :=
    List.nodup_iff_count_le_one.mp hnd u
  refine ⟨h1, hcnt u, by rw [hcnt u]; omega, ?_⟩
  cases hg : mapGet (run room Engine.init is).peerConnections u with
  | some pc => simp [createPeerConnectionForUser, hg]
  | none =>
    simp only [createPeerConnectionForUser, hg, createdCount, withSession_trace, opsOf_append,
      opsOf_map_same, List.count_append, List.count_cons, (count_created_addTracks _).1]
    simp

/-! ## Local tracks are attached once -/

theorem attachScan_append (l1 l2 : List TransportOp) :
    attachScan (l1 ++ l2) = l2.foldl AttachScan.next (attachScan l1) := by
  simp [attachScan, List.foldl_append]

theorem scan_addTracks (s : AttachScan) (ts : List Track) (hb : s.inBlock = true) :
    (ts.map TransportOp.addTrack).foldl AttachScan.next s
      = { inBlock := true, tracks := s.tracks ++ ts, ok := s.ok } := by
  induction ts generalizing s with
  | nil =>
    cases s
    simp_all
  | cons t rest ih =>
    simp only [List.map_cons, List.foldl_cons]
    rw [ih _ (by simpa [AttachScan.next] using hb)]
    simp [AttachScan.next, hb]

theorem scan_not_attach (s : AttachScan) (ops : List TransportOp)
    (h : ∀ op ∈ ops, op ≠ TransportOp.created ∧ ∀ t, op ≠ TransportOp.addTrack t) :
    (ops.foldl AttachScan.next s).tracks = s.tracks
      ∧ (ops.foldl AttachScan.next s).ok = s.ok := by
  induction ops generalizing s with
  | nil => exact ⟨rfl, rfl⟩
  | cons op rest ih =>
    have hop := h op (List.mem_cons_self _ _)
    have hrest := ih (s.next op) (fun op' h' => h op' (List.mem_cons_of_mem _ h'))
    simp only [List.foldl_cons]
    rw [hrest.1, hrest.2]
    cases op <;> first
      | exact ⟨rfl, rfl⟩
      | exact absurd rfl hop.1
      | exact absurd rfl (hop.2 _)

theorem not_attach_of_sessionOp (op : TransportOp) (h : sessionOp op = true) :
    op ≠ TransportOp.created ∧ ∀ t, op ≠ TransportOp.addTrack t := by
  cases op <;> simp_all [sessionOp]

theorem senders_foldl_addTrack (pc : PeerConnection) (ts : List Track) :
    (ts.foldl pcAddTrack pc).senders = pc.senders ++ ts := by
  induction ts generalizing pc with
  | nil => simp
  | cons t rest ih => simp [ih, pcAddTrack]

theorem attachedAtCreation_evolves {e e' : Engine} (h : Evolves e e')
    (hinv : AttachedAtCreation e) : AttachedAtCreation e' := by
  induction h with
  | refl e => exact hinv
  | create ls e u =>
    unfold createPeerConnectionForUser
    cases hg : mapGet e.peerConnections u with
    | some pc => exact hinv
    | none =>
      intro v
      obtain ⟨hok, hsend⟩ := hinv v
      by_cases hv : u = v
      · subst hv
        simp only [withSession_trace, withSession_peerConnections, opsOf_append, opsOf_map_same,
          attachScan_append, List.foldl_cons, mapGet_mapSet_same]
        rw [scan_addTracks _ _ rfl]
        refine ⟨by simpa [AttachScan.next] using hok, ?_⟩
        intro pc hpc
        cases hpc
        simp only [senders_foldl_addTrack, AttachScan.next]
        cases ls with
        | none => rfl
        | some st => simp [createPeerConnection, pcNew]
      · simp only [withSession_trace, withSession_peerConnections, opsOf_append,
          opsOf_map_other _ _ _ hv, List.append_nil, mapGet_mapSet_other _ _ _ _ (Ne.symm hv)]
        exact ⟨hok, hsend⟩
  | update e u pc0 pc ops hg hs hops =>
    intro v
    obtain ⟨hok, hsend⟩ := hinv v
    by_cases hv : u = v
    · subst hv
      have hp := scan_not_attach (attachScan (opsOf e.trace u)) ops
        (fun op hop => not_attach_of_sessionOp op (hops op hop))
      simp only [withSession_trace, withSession_peerConnections, opsOf_append, opsOf_map_same,
        attachScan_append, mapGet_mapSet_same, hp.1, hp.2]
      refine ⟨hok, ?_⟩
      intro pc' hpc
      cases hpc
      rw [hs]
      exact hsend pc0 hg
    · simp only [withSession_trace, withSession_peerConnections, opsOf_append,
        opsOf_map_other _ _ _ hv, List.append_nil, mapGet_mapSet_other _ _ _ _ (Ne.symm hv)]
      exact ⟨hok, hsend⟩
  | left e u =>
    intro v
    obtain ⟨hok, hsend⟩ := hinv v
    have htr : (attachScan (opsOf (handleUserLeft e u).trace v)).tracks
          = (attachScan (opsOf e.trace v)).tracks
        ∧ (attachScan (opsOf (handleUserLeft e u).trace v)).ok
          = (attachScan (opsOf e.trace v)).ok := by
      simp only [handleUserLeft]
      cases hg : mapGet e.peerConnections u with
      | none => exact ⟨rfl, rfl⟩
      | some pc =>
        simp only [opsOf_append, attachScan_append]
        apply scan_not_attach
        intro op hop
        have : op = TransportOp.close := by
          simp only [opsOf, List.filterMap_cons, List.filterMap_nil] at hop
          split at hop <;> simp_all
        subst this
        exact ⟨by decide, fun t => by simp⟩
    rw [htr.1, htr.2]
    refine ⟨hok, ?_⟩
    by_cases hv : u = v
    · subst hv
      intro pc hpc
      simp only [handleUserLeft, mapGet_mapDelete_same] at hpc
      cases hpc
    · intro pc hpc
      simp only [handleUserLeft, mapGet_mapDelete_other _ _ _ (Ne.symm hv)] at hpc
      exact hsend pc hpc
  | cleanup e =>
    intro v
    obtain ⟨hok, hsend⟩ := hinv v
    have hp := scan_not_attach (attachScan (opsOf e.trace v))
      (List.replicate ((mapKeys e.peerConnections).count v) TransportOp.close)
      (fun op hop => by
        rw [List.eq_of_mem_replicate hop]
        exact ⟨by decide, fun t => by simp⟩)
    simp only [cleanup, opsOf_append, attachScan_append, opsOf_closeAll, hp.1, hp.2]
    refine ⟨hok, ?_⟩
    intro pc hpc
    cases hpc
  | other e e' hpc htr =>
    intro v
    rw [htr, hpc]
    exact hinv v
  | trans a b c _ _ ih1 ih2 => exact ih2 (ih1 hinv)

theorem attachedAtCreation_init : AttachedAtCreation Engine.init := by
  intro u
  refine ⟨rfl, ?_⟩
  intro pc hpc
  cases hpc

/-- C10: in every state the engine reaches from its initial state, each
`addTrack` ever made on a transport of a user stands in the block of calls that
follows the making of that transport, and the senders of the session in the map
are the tracks of that one block.  Asking for the session again
(`createPeerConnectionForUser` on reuse) changes nothing, whatever the local
stream then is; making it attaches each track of the local stream once, to a
transport that had no sender. -/
theorem C10_tracks_attached_once (room : Room) (is : List Input) (u : UserId)
    (ls : Option MediaStream) :
    (attachScan (opsOf (run room Engine.init is).trace u)).ok = true
      ∧ (match mapGet (run room Engine.init is).peerConnections u with
        | some pc =>
          pc.senders = (attachScan (opsOf (run room Engine.init is).trace u)).tracks
            ∧ createPeerConnectionForUser ls (run room Engine.init is) u
              = (run room Engine.init is, pc)
        | none =>
          (createPeerConnectionForUser ls (run room Engine.init is) u).2.senders
              = (match ls with
                | some s => s.tracks
                | none => [])
            ∧ (createPeerConnectionForUser ls (run room Engine.init is) u).1.trace
              = (run room Engine.init is).trace
                ++ (u, TransportOp.created)
                  :: (match ls with
                    | some s => s.tracks
                    | none => []).map (fun t => (u, TransportOp.addTrack t))) := by
  obtain ⟨hok, hsend⟩ :=
    attachedAtCreation_evolves (run_evolves room Engine.init is) attachedAtCreation_init u
  refine ⟨hok, ?_⟩
  cases hg : mapGet (run room Engine.init is).peerConnections u with
  | some pc => exact ⟨hsend pc hg, by simp [createPeerConnectionForUser, hg]⟩
  | none =>
    cases ls with
    | none => simp [createPeerConnectionForUser, hg, createPeerConnection, pcNew]
    | some s =>
      simp [createPeerConnectionForUser, hg, createPeerConnection, pcNew,
        senders_foldl_addTrack]

/-! ## Candidates around an offer -/

theorem mapSet_mapSet {α : Type} (m : List (UserId × α)) (k : UserId) (v v' : α) :
    mapSet (mapSet m k v) k v' = mapSet m k v' := by
  induction m with
  | nil => simp [mapSet]
  | cons p rest ih =>
    obtain ⟨k', w⟩ := p
    by_cases h : k' = k
    · simp [mapSet, h]
    · simp [mapSet, h, ih]

theorem mapSet_of_get {α : Type} (m : List (UserId × α)) (k : UserId) (v : α)
    (h : mapGet m k = some v) : mapSet m k v = m := by
  induction m with
  | nil => cases h
  | cons p rest ih =>
    obtain ⟨k', w⟩ := p
    by_cases hk : k' = k
    · simp only [mapGet, hk, if_true, Option.some.injEq] at h
      simp [mapSet, hk, h]
    · simp only [mapGet, hk, if_false] at h
      simp [mapSet, hk, ih h]

theorem withSession_withSession (e : Engine) (u : UserId) (pc pc' : PeerConnection)
    (ops ops' : List TransportOp) :
    (e.withSession u pc ops).withSession u pc' ops' = e.withSession u pc' (ops ++ ops') := by
  simp [Engine.withSession, mapSet_mapSet, List.append_assoc]

theorem withSession_of_get (e : Engine) (u : UserId) (pc : PeerConnection)
    (h : mapGet e.peerConnections u = some pc) : e.withSession u pc [] = e := by
  cases e
  simp_all [Engine.withSession, mapSet_of_get]

theorem createPeerConnectionForUser_of_get (ls : Option MediaStream) (e : Engine) (u : UserId)
    (pc : PeerConnection) (h : mapGet e.peerConnections u = some pc) :
    createPeerConnectionForUser ls e u = (e, pc) := by
  simp [createPeerConnectionForUser, h]

theorem createPeerConnectionForUser_idem (ls ls' : Option MediaStream) (e : Engine)
    (u : UserId) :
    createPeerConnectionForUser ls' (createPeerConnectionForUser ls e u).1 u
      = createPeerConnectionForUser ls e u :=
  createPeerConnectionForUser_of_get ls' _ u _ (createPeerConnectionForUser_get ls e u)

theorem handleIceCandidate_queued (ls : Option MediaStream) (e : Engine) (u : UserId)
    (pc : PeerConnection) (c : IceCandidate) (o : Outcomes)
    (hg : mapGet e.peerConnections u = some pc) (hm : remoteDescriptionMissing pc = true) :
    handleIceCandidate ls e u (some c) o
      = e.withSession u { pc with remoteCandidateQueue := pc.remoteCandidateQueue ++ [c] } [] := by
  simp [handleIceCandidate, createPeerConnectionForUser_of_get ls e u pc hg, addIceCandidate, hm]

theorem handleIceCandidate_direct (ls : Option MediaStream) (e : Engine) (u : UserId)
    (pc : PeerConnection) (c : IceCandidate) (o : Outcomes)
    (hg : mapGet e.peerConnections u = some pc) (hm : remoteDescriptionMissing pc = false) :
    handleIceCandidate ls e u (some c) o
      = e.withSession u pc
          [TransportOp.addIceCandidate c (o.candidateOk 0) true pc.remoteCandidateQueue] := by
  simp [handleIceCandidate, createPeerConnectionForUser_of_get ls e u pc hg, addIceCandidate, hm,
    remoteDescription_isSome_of_present pc hm]

theorem candidateInputs_cons (u : UserId) (x : Option MediaStream × IceCandidate × Outcomes)
    (xs : List (Option MediaStream × IceCandidate × Outcomes)) :
    candidateInputs u (x :: xs)
      = { localStream := x.1, event := .iceCandidate u (some x.2.1) x.2.2 }
        :: candidateInputs u xs := rfl

theorem run_candidates_queued (room : Room) (u : UserId)
    (cs : List (Option MediaStream × IceCandidate × Outcomes)) (e : Engine)
    (pc : PeerConnection) (hg : mapGet e.peerConnections u = some pc)
    (hm : remoteDescriptionMissing pc = true) :
    run room e (candidateInputs u cs)
      = e.withSession u
          { pc with remoteCandidateQueue := pc.remoteCandidateQueue ++ cs.map (fun x => x.2.1) }
          [] := by
  induction cs generalizing e pc with
  | nil =>
    have : ({ pc with remoteCandidateQueue := pc.remoteCandidateQueue ++ [] } : PeerConnection)
        = pc := by
      cases pc
      simp
    simp only [List.map_nil, this]
    rw [withSession_of_get e u pc hg]
    rfl
  | cons x xs ih =>
    rw [candidateInputs_cons, run_cons]
    simp only [step]
    rw [handleIceCandidate_queued x.1 e u pc x.2.1 x.2.2 hg hm]
    rw [ih _ { pc with remoteCandidateQueue := pc.remoteCandidateQueue ++ [x.2.1] }
      (by simp [mapGet_mapSet_same]) (by simpa [remoteDescriptionMissing,
        PeerConnection.remoteDescription] using hm)]
    rw [withSession_withSession]
    simp

theorem run_candidates_direct (room : Room) (u : UserId)
    (cs : List (Option MediaStream × IceCandidate × Outcomes)) (e : Engine)
    (pc : PeerConnection) (hg : mapGet e.peerConnections u = some pc)
    (hm : remoteDescriptionMissing pc = false) :
    run room e (candidateInputs u cs)
      = e.withSession u pc
          (cs.map (fun x =>
            TransportOp.addIceCandidate x.2.1 (x.2.2.candidateOk 0) true
              pc.remoteCandidateQueue)) := by
  induction cs generalizing e with
  | nil =>
    simp only [List.map_nil]
    rw [withSession_of_get e u pc hg]
    rfl
  | cons x xs ih =>
    rw [candidateInputs_cons, run_cons]
    simp only [step]
    rw [handleIceCandidate_direct x.1 e u pc x.2.1 x.2.2 hg hm]
    rw [ih _ (by simp [mapGet_mapSet_same])]
    rw [withSession_withSession]
    simp

theorem appliedCandidates_append (l1 l2 : List TransportOp) :
    appliedCandidates (l1 ++ l2) = appliedCandidates l1 ++ appliedCandidates l2 := by
  simp [appliedCandidates, List.filterMap_append]

theorem appliedCandidates_flushLoop (ok : Nat → Bool) (pc : PeerConnection)
    (q : List IceCandidate) (k : Nat) : appliedCandidates (flushLoop ok pc q k).2 = q := by
  induction q generalizing pc k with
  | nil => rfl
  | cons c rest ih =>
    simp only [flushLoop, appliedCandidates, List.filterMap_cons]
    simp only [appliedCandidates] at ih
    rw [ih]

theorem appliedCandidates_flush (pc : PeerConnection) (ok : Nat → Bool) :
    appliedCandidates (_flushQueuedCandidates pc ok).2 = pc.remoteCandidateQueue := by
  unfold _flushQueuedCandidates
  split
  · rename_i h
    rw [List.length_eq_zero.mp h]
    rfl
  · exact appliedCandidates_flushLoop ok pc _ 0

theorem guarded_flushLoop (ok : Nat → Bool) (pc : PeerConnection) (q : List IceCandidate)
    (k : Nat) (hr : pc.remoteDescription.isSome = true) :
    ∀ op ∈ (flushLoop ok pc q k).2, candidateGuarded op = true := by
  induction q generalizing pc k with
  | nil => simp [flushLoop]
  | cons c rest ih =>
    intro op hop
    simp only [flushLoop, List.mem_cons] at hop
    rcases hop with rfl | hop
    · simpa [candidateGuarded, remoteDescription_queue] using hr
    · exact ih _ _ (by simpa [remoteDescription_queue] using hr) op hop

theorem pcSetRemoteDescription_stable (pc : PeerConnection) (d : SessionDescription) (ok : Bool)
    (hs : pc.signalingState = .stable)
    (h : (pcSetRemoteDescription createPeerConnection d ok).isSome = true) :
    ∃ pc1, pcSetRemoteDescription pc d ok = some pc1
      ∧ pc1.pendingRemoteDescription = some d
      ∧ pc1.remoteCandidateQueue = pc.remoteCandidateQueue
      ∧ d.sdp ≠ "" := by
  obtain ⟨ty, sdp⟩ := d
  cases ty <;> simp [pcSetRemoteDescription, createPeerConnection, pcNew] at h
  simp [pcSetRemoteDescription, hs, h]

theorem createAnswer_keeps_remote (pc : PeerConnection) (o : Outcomes) (d : SessionDescription)
    (hp : pc.pendingRemoteDescription = some d) :
    (createAnswer pc o).pc.remoteDescription = some d
      ∧ (createAnswer pc o).pc.remoteCandidateQueue = pc.remoteCandidateQueue
      ∧ appliedCandidates (createAnswer pc o).ops = [] := by
  have hr : pc.remoteDescription = some d := by simp [PeerConnection.remoteDescription, hp]
  unfold createAnswer
  cases h1 : pcCreateAnswer pc o.createSdp with
  | none => exact ⟨hr, rfl, rfl⟩
  | some answer =>
    have hty : answer.type = .answer := by
      unfold pcCreateAnswer at h1
      split at h1
      · cases h1
      · split at h1
        all_goals first
          | (cases h1
             rfl)
          | (cases h1)
    cases h2 : pcSetLocalDescription pc answer o.setLocalOk with
    | none => refine ⟨?_, ?_, ?_⟩ <;> simp [h2, hr, appliedCandidates]
    | some pc1 =>
      simp only [h2]
      refine ⟨?_, ?_, by simp [appliedCandidates]⟩
      · unfold pcSetLocalDescription at h2
        cases hst : pc.signalingState <;> simp [hty, hst] at h2 <;>
          (rw [← h2.2]
           simp [PeerConnection.remoteDescription, hp])
      · unfold pcSetLocalDescription at h2
        split at h2
        · cases h2
        · split at h2
          all_goals first
            | (cases h2
               rfl)
            | (cases h2)

theorem createPeerConnectionForUser_of_none (ls : Option MediaStream) (e : Engine) (u : UserId)
    (h : mapGet e.peerConnections u = none) :
    ∃ ts : List Track, createPeerConnectionForUser ls e u
      = (e.withSession u (ts.foldl pcAddTrack createPeerConnection)
          (.created :: ts.map TransportOp.addTrack),
        ts.foldl pcAddTrack createPeerConnection) := by
  simp only [createPeerConnectionForUser, h]
  exact ⟨_, rfl⟩

theorem foldl_addTrack_keeps (ts : List Track) (pc : PeerConnection) :
    (ts.foldl pcAddTrack pc).signalingState = pc.signalingState
      ∧ (ts.foldl pcAddTrack pc).remoteDescription = pc.remoteDescription
      ∧ (ts.foldl pcAddTrack pc).remoteCandidateQueue = pc.remoteCandidateQueue := by
  induction ts generalizing pc with
  | nil => exact ⟨rfl, rfl, rfl⟩
  | cons t rest ih =>
    simp only [List.foldl_cons]
    obtain ⟨h1, h2, h3⟩ := ih (pcAddTrack pc t)
    exact ⟨h1, h2, h3⟩

theorem createPeerConnectionForUser_fresh (ls : Option MediaStream) (e : Engine) (u : UserId)
    (h : mapGet e.peerConnections u = none) :
    (createPeerConnectionForUser ls e u).2.signalingState = .stable
      ∧ remoteDescriptionMissing (createPeerConnectionForUser ls e u).2 = true
      ∧ (createPeerConnectionForUser ls e u).2.remoteCandidateQueue = []
      ∧ ∃ ts : List Track, (createPeerConnectionForUser ls e u).1.trace
          = e.trace ++ (u, TransportOp.created) :: ts.map (fun t => (u, TransportOp.addTrack t)) := by
  obtain ⟨ts, hts⟩ := createPeerConnectionForUser_of_none ls e u h
  rw [hts]
  refine ⟨?_, ?_, ?_, ⟨ts, by simp [List.map_map, Function.comp_def]⟩⟩
  · rw [(foldl_addTrack_keeps _ _).1]
    rfl
  · unfold remoteDescriptionMissing
    rw [(foldl_addTrack_keeps _ _).2.1]
    rfl
  · rw [(foldl_addTrack_keeps _ _).2.2]
    rfl

theorem handleIceCandidate_fresh (ls : Option MediaStream) (e : Engine) (u : UserId)
    (d : Option IceCandidate) (o : Outcomes) :
    handleIceCandidate ls e u d o
      = handleIceCandidate ls (createPeerConnectionForUser ls e u).1 u d o := by
  simp only [handleIceCandidate, createPeerConnectionForUser_idem]

theorem handleOffer_fresh (room : Room) (ls : Option MediaStream) (e : Engine) (u : UserId)
    (d : Option SessionDescription) (o : Outcomes) :
    handleOffer room ls e u d o
      = handleOffer room ls (createPeerConnectionForUser ls e u).1 u d o := by
  simp only [handleOffer, createPeerConnectionForUser_idem]

theorem handleOffer_accepted (room : Room) (ls : Option MediaStream) (e : Engine) (u : UserId)
    (pc pc1 : PeerConnection) (d : SessionDescription) (o : Outcomes)
    (hg : mapGet e.peerConnections u = some pc) (hs : pc.signalingState = .stable)
    (h : pcSetRemoteDescription pc d o.setRemoteOk = some pc1) :
    mapGet (handleOffer room ls e u (some d) o).peerConnections u
        = some (createAnswer { pc1 with remoteCandidateQueue := [] } o).pc
      ∧ (handleOffer room ls e u (some d) o).trace
        = e.trace ++ (u, TransportOp.setRemoteDescription d true)
          :: ((_flushQueuedCandidates pc1 o.candidateOk).2
              ++ (createAnswer { pc1 with remoteCandidateQueue := [] } o).ops).map
            (fun op => (u, op)) := by
  have hb : rollbackIfUnstable pc o = (pc, []) := by simp [rollbackIfUnstable, hs]
  have hsr : setRemoteDescription pc (some d) o
      = { pc := { pc1 with remoteCandidateQueue := [] }
          ops := .setRemoteDescription d true :: (_flushQueuedCandidates pc1 o.candidateOk).2
          result := some () } := by
    simp [setRemoteDescription, h, flush_pc]
  unfold handleOffer
  simp only [createPeerConnectionForUser_of_get ls e u pc hg, hb, hsr]
  cases (createAnswer { pc1 with remoteCandidateQueue := [] } o).result <;>
    simp [mapGet_mapSet_same]

theorem guarded_flush (pc : PeerConnection) (ok : Nat → Bool)
    (hr : pc.remoteDescription.isSome = true) :
    ∀ op ∈ (_flushQueuedCandidates pc ok).2, candidateGuarded op = true := by
  unfold _flushQueuedCandidates
  split
  · simp
  · exact guarded_flushLoop ok pc _ 0 hr

theorem appliedCandidates_creation (ts : List Track) :
    appliedCandidates (TransportOp.created :: ts.map TransportOp.addTrack) = [] := by
  induction ts with
  | nil => rfl
  | cons t rest ih =>
    simp only [appliedCandidates, List.map_cons, List.filterMap_cons] at ih ⊢
    exact ih

theorem appliedCandidates_direct (cs : List (Option MediaStream × IceCandidate × Outcomes))
    (q : List IceCandidate) :
    appliedCandidates (cs.map (fun x =>
        TransportOp.addIceCandidate x.2.1 (x.2.2.candidateOk 0) true q))
      = cs.map (fun x => x.2.1) := by
  induction cs with
  | nil => rfl
  | cons x xs ih =>
    simp only [appliedCandidates, List.map_cons, List.filterMap_cons] at ih ⊢
    rw [ih]

theorem run_first_fresh (room : Room) (e : Engine) (sender : UserId)
    (before after : List (Option MediaStream × IceCandidate × Outcomes))
    (ls : Option MediaStream) (d : SessionDescription) (o : Outcomes) :
    ∃ ls0, run room e (candidateInputs sender before
          ++ { localStream := ls, event := .offer sender (some d) o }
            :: candidateInputs sender after)
      = run room (createPeerConnectionForUser ls0 e sender).1 (candidateInputs sender before
          ++ { localStream := ls, event := .offer sender (some d) o }
            :: candidateInputs sender after) := by
  cases before with
  | nil =>
    refine ⟨ls, ?_⟩
    simp only [candidateInputs, List.map_nil, List.nil_append, run_cons, step]
    rw [← handleOffer_fresh]
  | cons x xs =>
    refine ⟨x.1, ?_⟩
    simp only [candidateInputs_cons, List.cons_append, run_cons, step]
    rw [← handleIceCandidate_fresh]

/-- C3: for a sender that has no session, candidates `before`, then an OFFER
whose description the browser accepts on a transport that had no exchange yet,
then candidates `after`, all handled one at a time: the calls the run adds to
the trace are some calls that hand over no candidate, then the accepted
`setRemoteDescription` of the sender's transport, then calls on that transport
that hand over exactly the candidates of `before` followed by those of `after`,
in that order, each with the remote description present. -/
theorem C3_candidates_around_offer (room : Room) (e : Engine) (sender : UserId)
    (before after : List (Option MediaStream × IceCandidate × Outcomes))
    (ls : Option MediaStream) (d : SessionDescription) (o : Outcomes)
    (hnew : mapGet e.peerConnections sender = none)
    (happly : (pcSetRemoteDescription createPeerConnection d o.setRemoteOk).isSome = true) :
    ∃ pre post,
      (run room e (candidateInputs sender before
          ++ { localStream := ls, event := .offer sender (some d) o }
            :: candidateInputs sender after)).trace
        = e.trace ++ pre ++ (sender, TransportOp.setRemoteDescription d true) :: post
      ∧ appliedCandidates (pre.map Prod.snd) = []
      ∧ appliedCandidates (post.map Prod.snd)
        = before.map (fun x => x.2.1) ++ after.map (fun x => x.2.1)
      ∧ ∀ p ∈ post, p.1 = sender ∧ candidateGuarded p.2 = true := by
  obtain ⟨ls0, hfirst⟩ := run_first_fresh room e sender before after ls d o
  obtain ⟨hst0, hm0, hq0, ts, htr0⟩ := createPeerConnectionForUser_fresh ls0 e sender hnew
  have hg0 := createPeerConnectionForUser_get ls0 e sender
  generalize (createPeerConnectionForUser ls0 e sender).1 = e0 at hfirst htr0 hg0
  generalize (createPeerConnectionForUser ls0 e sender).2 = pc0 at hst0 hm0 hq0 hg0
  have h1 := run_candidates_queued room sender before e0 pc0 hg0 hm0
  rw [hq0, List.nil_append] at h1
  obtain ⟨pcq, hpcq⟩ : ∃ pcq : PeerConnection,
      pcq = { pc0 with remoteCandidateQueue := before.map (fun x => x.2.1) } := ⟨_, rfl⟩
  rw [← hpcq] at h1
  have hstq : pcq.signalingState = .stable := by rw [hpcq]; exact hst0
  have hqq : pcq.remoteCandidateQueue = before.map (fun x => x.2.1) := by rw [hpcq]
  obtain ⟨pc1, hset, hpend, hq1, hsdp⟩ :=
    pcSetRemoteDescription_stable pcq d o.setRemoteOk hstq happly
  have hoff := handleOffer_accepted room ls (e0.withSession sender pcq []) sender pcq pc1 d o
    (by simp [mapGet_mapSet_same]) hstq hset
  have hans := createAnswer_keeps_remote { pc1 with remoteCandidateQueue := [] } o d hpend
  have hm2 : remoteDescriptionMissing
      (createAnswer { pc1 with remoteCandidateQueue := [] } o).pc = false := by
    unfold remoteDescriptionMissing
    rw [hans.1]
    simpa using hsdp
  have h3 := run_candidates_direct room sender after _ _ hoff.1 hm2
  have hr1 : pc1.remoteDescription.isSome = true := by
    simp [PeerConnection.remoteDescription, hpend]
  refine ⟨(sender, TransportOp.created) :: ts.map (fun t => (sender, TransportOp.addTrack t)),
    ((_flushQueuedCandidates pc1 o.candidateOk).2
      ++ (createAnswer { pc1 with remoteCandidateQueue := [] } o).ops
      ++ after.map (fun x => TransportOp.addIceCandidate x.2.1 (x.2.2.candidateOk 0) true
          (createAnswer { pc1 with remoteCandidateQueue := [] } o).pc.remoteCandidateQueue)).map
      (fun op => (sender, op)), ?_, ?_, ?_, ?_⟩
  · rw [hfirst, run_append, h1, run_cons]
    simp only [step]
    rw [h3, withSession_trace, hoff.2, withSession_trace, htr0]
    simp [List.append_assoc]
  · have := appliedCandidates_creation ts
    simpa [List.map_map, Function.comp_def] using this
  · have hmap : ∀ l : List TransportOp,
        (l.map (fun op => (sender, op))).map Prod.snd = l := by
      intro l
      simp [List.map_map, Function.comp_def]
    rw [hmap, appliedCandidates_append, appliedCandidates_append, appliedCandidates_flush,
      hans.2.2, appliedCandidates_direct, hq1, hqq]
    simp
  · intro p hp
    obtain ⟨op, hop, rfl⟩ := List.mem_map.mp hp
    refine ⟨rfl, ?_⟩
    rcases List.mem_append.mp hop with h | h
    · rcases List.mem_append.mp h with h | h
      · exact guarded_flush pc1 _ hr1 op h
      · exact createAnswer_guarded _ o op h
    · obtain ⟨x, _, rfl⟩ := List.mem_map.mp h
      rfl

theorem C3_candidates_around_offer_witness :
    mapGet Engine.init.peerConnections "C" = none
      ∧ (pcSetRemoteDescription createPeerConnection sampleOffer
          candidatesRejected.setRemoteOk).isSome = true
      ∧ ∃ pre post,
        (run sampleRoom Engine.init
          (candidateInputs "C" sampleBefore
            ++ { localStream := some sampleStream
                 event := .offer "C" (some sampleOffer) candidatesRejected }
              :: candidateInputs "C" sampleAfter)).trace
          = Engine.init.trace ++ pre
            ++ ("C", TransportOp.setRemoteDescription sampleOffer true) :: post
        ∧ appliedCandidates (pre.map Prod.snd) = []
        ∧ appliedCandidates (post.map Prod.snd)
          = sampleBefore.map (fun x => x.2.1) ++ sampleAfter.map (fun x => x.2.1)
        ∧ ∀ p ∈ post, p.1 = "C" ∧ candidateGuarded p.2 = true :=
  ⟨by decide, by decide,
    C3_candidates_around_offer sampleRoom Engine.init "C" sampleBefore sampleAfter
      (some sampleStream) sampleOffer candidatesRejected (by decide) (by decide)⟩

/-! ## Tracks on a reused session -/

/-- C11 fails on a reused session: a candidate from `B` arrives while the hook
has no local stream, so the session of `B` is made without tracks; the engine
becomes Initiator; USER_JOINED for `B` then arrives with the local stream
present.  The session is reused as it is: the offer is produced and sent, and
no `addTrack` is ever made on the transport, whose sender list is still empty. -/
theorem C11_offer_without_tracks_on_reuse :
    (run sampleRoom Engine.init
        [{ localStream := none, event := .iceCandidate "B" (some sampleCandidate1) allAccepted },
         { localStream := none, event := .roomInfo (some []) },
         { localStream := some sampleStream, event := .userJoined (some "B") allAccepted }]).sent
      = [{ type := MessageType.OFFER, fromId := "me", toId := some "B", roomId := "room"
           data := MessageData.description "v=0" SdpType.offer }]
    ∧ (mapGet (run sampleRoom Engine.init
        [{ localStream := none, event := .iceCandidate "B" (some sampleCandidate1) allAccepted },
         { localStream := none, event := .roomInfo (some []) },
         { localStream := some sampleStream, event := .userJoined (some "B") allAccepted }]).peerConnections
        "B").map (fun pc => (pc.senders, pc.signalingState))
      = some ([], SignalingState.haveLocalOffer)
    ∧ opsOf (run sampleRoom Engine.init
        [{ localStream := none, event := .iceCandidate "B" (some sampleCandidate1) allAccepted },
         { localStream := none, event := .roomInfo (some []) },
         { localStream := some sampleStream, event := .userJoined (some "B") allAccepted }]).trace
        "B"
      = [TransportOp.created, TransportOp.createOffer true,
         TransportOp.setLocalDescription { type := .offer, sdp := "v=0" } true] := by
  decide
/-! ## Departure and shutdown -/

theorem mapDelete_of_get_none {α : Type} (m : List (UserId × α)) (k : UserId)
    (h : mapGet m k = none) : mapDelete m k = m := by
  induction m with
  | nil => rfl
  | cons p rest ih =>
    obtain ⟨k', w⟩ := p
    by_cases hk : k' = k
    · simp [mapGet, hk] at h
    · simp only [mapGet, hk, if_false] at h
      simp [mapDelete, hk, ih h]

theorem mapDelete_mapDelete {α : Type} (m : List (UserId × α)) (k : UserId) :
    mapDelete (mapDelete m k) k = mapDelete m k :=
  mapDelete_of_get_none _ _ (mapGet_mapDelete_same m k)

/-- C14: `handleUserLeft` first closes the transport the map holds for the user
(one `close`, made while the entry is still in the map; none when there is no
entry) and then deletes the user's entry from the session map and from the
remote streams, so that afterwards neither map has an entry for the user, and
the other fields are untouched.  Handling the same USER_LEFT again closes
nothing and gives the same state. -/
theorem C14_userLeft_closes_then_drops (e : Engine) (userId : UserId) :
    handleUserLeft e userId = dropSessionOf (closeSessionOf e userId) userId
      ∧ (closeSessionOf e userId).peerConnections = e.peerConnections
      ∧ (closeSessionOf e userId).trace
        = e.trace ++ (if mapHas e.peerConnections userId then [(userId, TransportOp.close)] else [])
      ∧ (handleUserLeft e userId).trace = (closeSessionOf e userId).trace
      ∧ mapGet (handleUserLeft e userId).peerConnections userId = none
      ∧ mapGet (handleUserLeft e userId).remoteStreams userId = none
      ∧ (handleUserLeft e userId).sent = e.sent
      ∧ (handleUserLeft e userId).isInitiator = e.isInitiator
      ∧ (handleUserLeft (handleUserLeft e userId) userId).trace = (handleUserLeft e userId).trace
      ∧ handleUserLeft (handleUserLeft e userId) userId = handleUserLeft e userId := by
  have hidem : handleUserLeft (handleUserLeft e userId) userId = handleUserLeft e userId := by
    simp only [handleUserLeft, mapGet_mapDelete_same, mapDelete_mapDelete]
  refine ⟨rfl, rfl, ?_, rfl, mapGet_mapDelete_same _ _, mapGet_mapDelete_same _ _, rfl, rfl,
    by rw [hidem], hidem⟩
  unfold closeSessionOf mapHas
  cases mapGet e.peerConnections userId <;> simp

/-- C15: `cleanup` first closes the transport of every entry of the session map,
one `close` per entry and in map order, while the map still holds them all, and
then empties the session map and the remote streams.  So every user's transports
closed grow by the number of entries the map held for that user; and in every
state reached from the initial one, after `cleanup` a user has as many
transports closed as were ever made. -/
theorem C15_cleanup_closes_all (e : Engine) (userId : UserId) (room : Room)
    (is : List Input) :
    cleanup e = clearSessions (closeAllSessions e)
      ∧ (closeAllSessions e).peerConnections = e.peerConnections
      ∧ (closeAllSessions e).trace
        = e.trace ++ e.peerConnections.map (fun p => (p.1, TransportOp.close))
      ∧ (cleanup e).trace = (closeAllSessions e).trace
      ∧ (cleanup e).peerConnections = []
      ∧ (cleanup e).remoteStreams = []
      ∧ closedCount (cleanup e).trace userId
        = closedCount e.trace userId + (mapKeys e.peerConnections).count userId
      ∧ createdCount (cleanup e).trace userId = createdCount e.trace userId
      ∧ closedCount (cleanup (run room Engine.init is)).trace userId
        = createdCount (cleanup (run room Engine.init is)).trace userId := by
  have hclosed : closedCount (cleanup e).trace userId
      = closedCount e.trace userId + (mapKeys e.peerConnections).count userId := by
    simp [closedCount, cleanup, opsOf_append, opsOf_closeAll]
  have hcreated : ∀ e' : Engine, createdCount (cleanup e').trace userId
      = createdCount e'.trace userId := by
    intro e'
    simp only [createdCount, cleanup, opsOf_append, opsOf_closeAll, List.count_append]
    have hz : (List.replicate ((mapKeys e'.peerConnections).count userId)
        TransportOp.close).count TransportOp.created = 0 := by
      rw [List.count_eq_zero]
      intro hm
      exact absurd (List.eq_of_mem_replicate hm) (by decide)
    omega
  refine ⟨rfl, rfl, rfl, rfl, rfl, rfl, hclosed, hcreated e, ?_⟩
  have hinv := sessionsMatchTrace_evolves (run_evolves room Engine.init is)
    sessionsMatchTrace_init
  rw [hcreated, hinv.2 userId]
  simp [closedCount, cleanup, opsOf_append, opsOf_closeAll]

theorem createOffer_of_stable (pc : PeerConnection) (o : Outcomes) (sdp : String)
    (hst : pc.signalingState = .stable) (hc : o.createSdp = some sdp)
    (hl : o.setLocalOk = true) :
    (createOffer pc o).result = some { type := .offer, sdp := sdp } := by
  simp [createOffer, pcCreateOffer, pcSetLocalDescription, hst, hc, hl,
    PeerConnection.localDescription]

/-- C16 (as the code has it): `cleanup` leaves the role flag as it finds it,
whatever the state of the engine.  So after `cleanup` the role is the one the
engine had before: a USER_JOINED handled next is skipped without any effect when
that role was Responder, and is answered with an OFFER to the joining user when
that role was Initiator (given a local stream, a usable id and a browser that
produces the offer). -/
theorem C16_cleanup_keeps_role (room : Room) (localStream : Option MediaStream) (e : Engine)
    (userId : Option UserId) (o : Outcomes) :
    (cleanup e).role = e.role
      ∧ (cleanup e).isInitiator = e.isInitiator
      ∧ (e.role = Role.Responder →
          handleUserJoined room localStream (cleanup e) userId o = cleanup e)
      ∧ (e.role = Role.Initiator →
          ∀ (stream : MediaStream) (r : UserId) (sdp : String),
            r ≠ "" → r ≠ room.userId → o.createSdp = some sdp → o.setLocalOk = true →
            (handleUserJoined room (some stream) (cleanup e) (some r) o).sent
              = e.sent ++ [sendOffer room.roomId room.userId r
                  { type := SdpType.offer, sdp := sdp }]) := by
  refine ⟨rfl, rfl, ?_, ?_⟩
  · intro h
    have hr : (cleanup e).role = Role.Responder := h
    unfold handleUserJoined
    cases userId with
    | none => rfl
    | some r =>
      simp only
      split
      · rfl
      · split
        · rfl
        · rename_i hi
          unfold Engine.role at hr
          cases hb : (cleanup e).isInitiator with
          | false => exact absurd hb hi
          | true => simp [hb] at hr
  · intro h stream r sdp hid hself hc hl
    have hinit : (cleanup e).isInitiator = true := by
      unfold Engine.role at h
      cases hb : e.isInitiator with
      | false => simp [hb] at h
      | true => exact hb
    have hst := (createPeerConnectionForUser_fresh (some stream) (cleanup e) r rfl).1
    have hres := createOffer_of_stable _ o sdp hst hc hl
    unfold handleUserJoined
    simp [hid, hself, hinit, hst, hres]
    rfl

theorem C16_cleanup_keeps_role_witness :
    (cleanup sampleOffered).role = sampleOffered.role
      ∧ handleUserJoined sampleRoom (some sampleStream) (cleanup Engine.init) (some "B")
          allAccepted = cleanup Engine.init
      ∧ (handleUserJoined sampleRoom (some sampleStream) (cleanup sampleOffered) (some "C")
          allAccepted).sent
        = sampleOffered.sent ++ [sendOffer "room" "me" "C" { type := SdpType.offer, sdp := "v=0" }] :=
  ⟨(C16_cleanup_keeps_role sampleRoom (some sampleStream) sampleOffered (some "C")
      allAccepted).1,
    (C16_cleanup_keeps_role sampleRoom (some sampleStream) Engine.init (some "B")
      allAccepted).2.2.1 (by decide),
    (C16_cleanup_keeps_role sampleRoom (some sampleStream) sampleOffered (some "C")
      allAccepted).2.2.2 (by decide) sampleStream "C" "v=0" (by decide) (by decide)
      (by decide) (by decide)⟩

/-- C16, as stated, fails: an engine that an empty snapshot made Initiator is
still Initiator after `cleanup`, and a USER_JOINED handled next, before any new
snapshot, sends an offer. -/
theorem C16_role_survives_cleanup :
    (run sampleRoom Engine.init
        [{ localStream := some sampleStream, event := .roomInfo (some []) },
         { localStream := some sampleStream, event := .cleanup }]).role = Role.Initiator
      ∧ (run sampleRoom Engine.init
        [{ localStream := some sampleStream, event := .roomInfo (some []) },
         { localStream := some sampleStream, event := .cleanup },
         { localStream := some sampleStream, event := .userJoined (some "B") allAccepted }]).sent
        = [{ type := MessageType.OFFER, fromId := "me", toId := some "B", roomId := "room"
             data := MessageData.description "v=0" SdpType.offer }] := by
  decide

/-! ## Other participants' sessions -/

theorem createPeerConnectionForUser_get_other (ls : Option MediaStream) (e : Engine)
    (u u' : UserId) (h : u' ≠ u) :
    mapGet (createPeerConnectionForUser ls e u).1.peerConnections u'
      = mapGet e.peerConnections u' := by
  unfold createPeerConnectionForUser
  cases hg : mapGet e.peerConnections u with
  | some pc => rfl
  | none => simp [mapGet_mapSet_other _ _ _ _ h]

theorem handleUserJoined_get_other (room : Room) (ls : Option MediaStream) (e : Engine)
    (u u' : UserId) (o : Outcomes) (h : u' ≠ u) :
    mapGet (handleUserJoined room ls e (some u) o).peerConnections u'
      = mapGet e.peerConnections u' := by
  simp only [handleUserJoined]
  repeat' first
    | rfl
    | (simp [mapGet_mapSet_other _ _ _ _ h, createPeerConnectionForUser_get_other _ _ _ _ h]
       done)
    | split

theorem handleOffer_get_other (room : Room) (ls : Option MediaStream) (e : Engine)
    (u u' : UserId) (d : Option SessionDescription) (o : Outcomes) (h : u' ≠ u) :
    mapGet (handleOffer room ls e u d o).peerConnections u' = mapGet e.peerConnections u' := by
  unfold handleOffer
  repeat' first
    | rfl
    | (simp [mapGet_mapSet_other _ _ _ _ h, createPeerConnectionForUser_get_other _ _ _ _ h]
       done)
    | split
    | (dsimp only)

theorem handleAnswer_get_other (e : Engine) (u u' : UserId) (d : Option SessionDescription)
    (o : Outcomes) (h : u' ≠ u) :
    mapGet (handleAnswer e u d o).peerConnections u' = mapGet e.peerConnections u' := by
  unfold handleAnswer
  repeat' first
    | rfl
    | (simp [mapGet_mapSet_other _ _ _ _ h]
       done)
    | split

theorem handleIceCandidate_get_other (ls : Option MediaStream) (e : Engine) (u u' : UserId)
    (d : Option IceCandidate) (o : Outcomes) (h : u' ≠ u) :
    mapGet (handleIceCandidate ls e u d o).peerConnections u' = mapGet e.peerConnections u' := by
  unfold handleIceCandidate
  simp [mapGet_mapSet_other _ _ _ _ h, createPeerConnectionForUser_get_other _ _ _ _ h]

/-- C17: an OFFER, ANSWER, ICE_CANDIDATE, USER_JOINED or USER_LEFT that concerns
one user leaves the map entry of every other user as it was: the same transport
in the same state (signaling state, descriptions, candidate queue, senders), or
no entry if there was none.  This holds for every payload, missing ones
included, and for every answer of the browser, rejections included; the other
user's remote stream stays as well. -/
theorem C17_other_sessions_untouched (room : Room) (localStream : Option MediaStream)
    (e : Engine) (userId other : UserId) (description : Option SessionDescription)
    (candidate : Option IceCandidate) (o : Outcomes) (h : other ≠ userId) :
    mapGet (step room e { localStream := localStream
                          event := .offer userId description o }).peerConnections other
        = mapGet e.peerConnections other
      ∧ mapGet (step room e { localStream := localStream
                              event := .answer userId description o }).peerConnections other
        = mapGet e.peerConnections other
      ∧ mapGet (step room e { localStream := localStream
                              event := .iceCandidate userId candidate o }).peerConnections other
        = mapGet e.peerConnections other
      ∧ mapGet (step room e { localStream := localStream
                              event := .userJoined (some userId) o }).peerConnections other
        = mapGet e.peerConnections other
      ∧ mapGet (step room e { localStream := localStream
                              event := .userLeft userId }).peerConnections other
        = mapGet e.peerConnections other
      ∧ mapGet (step room e { localStream := localStream
                              event := .userLeft userId }).remoteStreams other
        = mapGet e.remoteStreams other :=
  ⟨handleOffer_get_other room localStream e userId other description o h,
    handleAnswer_get_other e userId other description o h,
    handleIceCandidate_get_other localStream e userId other candidate o h,
    handleUserJoined_get_other room localStream e userId other o h,
    mapGet_mapDelete_other _ _ _ h,
    mapGet_mapDelete_other _ _ _ h⟩

theorem C17_other_sessions_untouched_witness :
    ("A" : UserId) ≠ "B"
      ∧ mapGet (step sampleRoom sampleWithA
          { localStream := some sampleStream
            event := .offer "B" (some sampleOffer) candidatesRejected }).peerConnections "A"
        = mapGet sampleWithA.peerConnections "A" :=
  ⟨by decide,
    (C17_other_sessions_untouched sampleRoom (some sampleStream) sampleWithA "B" "A"
      (some sampleOffer) none candidatesRejected (by decide)).1⟩

/-! ## OFFER and ANSWER applied -/

/-- A signaling state in which the browser takes a remote offer. -/
theorem pcSetRemoteDescription_to_haveRemoteOffer (x x1 : PeerConnection)
    (d : SessionDescription) (ok : Bool) (h : pcSetRemoteDescription x d ok = some x1)
    (hst : x1.signalingState = .haveRemoteOffer ∨ x1.signalingState = .haveLocalPranswer) :
    d.type = .offer ∧ d.sdp ≠ "" ∧ ok = true
      ∧ x1.signalingState = .haveRemoteOffer
      ∧ x1.pendingRemoteDescription = some d
      ∧ x1.senders = x.senders
      ∧ x1.remoteCandidateQueue = x.remoteCandidateQueue
      ∧ (x.signalingState = .stable ∨ x.signalingState = .haveLocalOffer
        ∨ x.signalingState = .haveRemoteOffer) := by
  obtain ⟨ty, sdp⟩ := d
  cases ty <;> cases hx : x.signalingState <;> simp [pcSetRemoteDescription, hx] at h <;>
    (obtain ⟨h0, h⟩ := h
     subst h
     simp_all)

theorem pcSetRemoteDescription_offer (x : PeerConnection) (d : SessionDescription) (ok : Bool)
    (hty : d.type = .offer) (hsdp : d.sdp ≠ "") (hok : ok = true)
    (hst : x.signalingState = .stable ∨ x.signalingState = .haveLocalOffer
      ∨ x.signalingState = .haveRemoteOffer) :
    ∃ x1, pcSetRemoteDescription x d ok = some x1
      ∧ x1.signalingState = .haveRemoteOffer := by
  unfold pcSetRemoteDescription
  rcases hst with h | h | h <;> simp [hty, hsdp, hok, h]

theorem createAnswer_success (x : PeerConnection) (o : Outcomes) (answer : SessionDescription)
    (h : (createAnswer x o).result = some answer) :
    (x.signalingState = .haveRemoteOffer ∨ x.signalingState = .haveLocalPranswer)
      ∧ o.createSdp = some answer.sdp ∧ answer.type = .answer ∧ o.setLocalOk = true
      ∧ (createAnswer x o).pc
        = { x with
            currentLocalDescription := some answer
            currentRemoteDescription := x.pendingRemoteDescription
            pendingLocalDescription := none
            pendingRemoteDescription := none
            signalingState := .stable }
      ∧ (createAnswer x o).ops
        = [TransportOp.createAnswer true, TransportOp.setLocalDescription answer true] := by
  obtain ⟨rb, sr, ck, cs, sl⟩ := o
  obtain ⟨aty, asdp⟩ := answer
  cases cs with
  | none => simp [createAnswer, pcCreateAnswer] at h
  | some sdp =>
    cases sl with
    | false =>
      cases hst : x.signalingState <;>
        simp [createAnswer, pcCreateAnswer, pcSetLocalDescription, hst] at h
    | true =>
      cases hst : x.signalingState <;>
        simp [createAnswer, pcCreateAnswer, pcSetLocalDescription, hst,
          PeerConnection.localDescription] at h ⊢ <;>
        (obtain ⟨h1, h2⟩ := h
         subst h1 h2
         simp)

theorem createAnswer_of_state (x : PeerConnection) (o : Outcomes) (sdp : String)
    (hst : x.signalingState = .haveRemoteOffer) (hc : o.createSdp = some sdp)
    (hl : o.setLocalOk = true) :
    (createAnswer x o).result = some { type := .answer, sdp := sdp } := by
  simp [createAnswer, pcCreateAnswer, pcSetLocalDescription, hst, hc, hl,
    PeerConnection.localDescription]

theorem rollbackIfUnstable_keeps (pc : PeerConnection) (o : Outcomes) :
    (rollbackIfUnstable pc o).1.remoteCandidateQueue = pc.remoteCandidateQueue
      ∧ ((rollbackIfUnstable pc o).1.signalingState = .stable
          ∨ (rollbackIfUnstable pc o).1.signalingState = .haveLocalOffer
          ∨ (rollbackIfUnstable pc o).1.signalingState = .haveRemoteOffer
        ↔ pc.signalingState = .stable ∨ pc.signalingState = .haveLocalOffer
          ∨ pc.signalingState = .haveRemoteOffer) := by
  unfold rollbackIfUnstable pcRollback
  cases hst : pc.signalingState <;> cases o.rollbackOk <;> simp [hst]

theorem setRemoteDescription_result (pc : PeerConnection) (d : SessionDescription)
    (o : Outcomes) (h : (setRemoteDescription pc (some d) o).result = some ()) :
    ∃ pc1, pcSetRemoteDescription pc d o.setRemoteOk = some pc1 := by
  unfold setRemoteDescription at h
  cases hp : pcSetRemoteDescription pc d o.setRemoteOk with
  | none => simp [hp] at h
  | some pc1 => exact ⟨pc1, rfl⟩

theorem setRemoteDescription_accepted (pc pc1 : PeerConnection) (d : SessionDescription)
    (o : Outcomes) (h : pcSetRemoteDescription pc d o.setRemoteOk = some pc1) :
    setRemoteDescription pc (some d) o
      = { pc := { pc1 with remoteCandidateQueue := [] }
          ops := TransportOp.setRemoteDescription d true
            :: (_flushQueuedCandidates pc1 o.candidateOk).2
          result := some () } := by
  simp [setRemoteDescription, h, flush_pc]

/-- What an accepted and answered offer needs, whatever the rollback does. -/
theorem offer_answered (pc : PeerConnection) (d answer : SessionDescription) (o : Outcomes)
    (hs : (setRemoteDescription (rollbackIfUnstable pc o).1 (some d) o).result = some ())
    (ha : (createAnswer (setRemoteDescription (rollbackIfUnstable pc o).1 (some d) o).pc
      o).result = some answer) :
    (createAnswer (setRemoteDescription (rollbackIfUnstable pc o).1 (some d) o).pc o).pc
        = answeredSession pc d answer
      ∧ d.type = .offer ∧ d.sdp ≠ "" ∧ o.setRemoteOk = true
      ∧ o.createSdp = some answer.sdp ∧ answer.type = .answer ∧ o.setLocalOk = true
      ∧ (pc.signalingState = .stable ∨ pc.signalingState = .haveLocalOffer
        ∨ pc.signalingState = .haveRemoteOffer) := by
  obtain ⟨pc1, h1⟩ := setRemoteDescription_result _ d o hs
  have hacc := setRemoteDescription_accepted _ pc1 d o h1
  rw [hacc] at ha ⊢
  obtain ⟨hst, hc, hty, hl, hpc, _⟩ := createAnswer_success _ o answer ha
  obtain ⟨hdty, hsdp, hok, _, hpend, hsend, _, hbst⟩ :=
    pcSetRemoteDescription_to_haveRemoteOffer _ pc1 d _ h1 hst
  refine ⟨?_, hdty, hsdp, hok, hc, hty, hl,
    (rollbackIfUnstable_keeps pc o).2.mp hbst⟩
  rw [hpc]
  simp [answeredSession, hpend, hsend, (rollbackIfUnstable_tame pc o).1]

theorem offer_answered_of (pc : PeerConnection) (d answer : SessionDescription) (o : Outcomes)
    (hdty : d.type = .offer) (hsdp : d.sdp ≠ "") (hok : o.setRemoteOk = true)
    (hc : o.createSdp = some answer.sdp) (hty : answer.type = .answer)
    (hl : o.setLocalOk = true)
    (hst : pc.signalingState = .stable ∨ pc.signalingState = .haveLocalOffer
      ∨ pc.signalingState = .haveRemoteOffer) :
    (setRemoteDescription (rollbackIfUnstable pc o).1 (some d) o).result = some ()
      ∧ (createAnswer (setRemoteDescription (rollbackIfUnstable pc o).1 (some d) o).pc
        o).result = some answer := by
  obtain ⟨x1, h1, hx1⟩ := pcSetRemoteDescription_offer (rollbackIfUnstable pc o).1 d
    o.setRemoteOk hdty hsdp hok ((rollbackIfUnstable_keeps pc o).2.mpr hst)
  rw [setRemoteDescription_accepted _ x1 d o h1]
  refine ⟨rfl, ?_⟩
  have := createAnswer_of_state { x1 with remoteCandidateQueue := [] } o answer.sdp hx1 hc hl
  rw [this]
  obtain ⟨aty, asdp⟩ := answer
  simp only at hty
  rw [hty]

theorem handleOffer_answered (room : Room) (ls : Option MediaStream) (e : Engine)
    (sender : UserId) (d answer : SessionDescription) (o : Outcomes)
    (hs : (setRemoteDescription
      (rollbackIfUnstable (createPeerConnectionForUser ls e sender).2 o).1 (some d) o).result
        = some ())
    (ha : (createAnswer (setRemoteDescription
      (rollbackIfUnstable (createPeerConnectionForUser ls e sender).2 o).1 (some d) o).pc
        o).result = some answer) :
    handleOffer room ls e sender (some d) o
      = { (createPeerConnectionForUser ls e sender).1.withSession sender
            (answeredSession (createPeerConnectionForUser ls e sender).2 d answer)
            ((rollbackIfUnstable (createPeerConnectionForUser ls e sender).2 o).2
              ++ (setRemoteDescription
                  (rollbackIfUnstable (createPeerConnectionForUser ls e sender).2 o).1
                  (some d) o).ops
              ++ [TransportOp.createAnswer true, TransportOp.setLocalDescription answer true])
          with sent := e.sent ++ [sendAnswer room.roomId room.userId sender answer] } := by
  have hfin := (offer_answered _ d answer o hs ha).1
  have hops := (createAnswer_success _ o answer ha).2.2.2.2.2
  unfold handleOffer
  simp only [hs, ha, hfin, hops, withSession_sent, createPeerConnectionForUser_sent]

/-- C12: when the browser accepts the description of an OFFER and produces and
accepts an answer, `handleOffer` leaves the sender's session (made if the map
had none, else the one it had) `stable` with the incoming description as remote
and the answer as local description, and hands exactly one message to `send`: an
ANSWER from the local id to the sender, in this room, carrying the answer.  The
calls on the transport are, in this order: the rollback (only when the session
was not `stable`), the accepted `setRemoteDescription`, the flush of the queued
candidates, and only then `createAnswer` and `setLocalDescription`.  Session and
message are the same for a browser that answers the rollback the other way. -/
theorem C12_offer_answered (room : Room) (ls : Option MediaStream) (e : Engine)
    (sender : UserId) (d answer : SessionDescription) (o : Outcomes)
    (hs : (setRemoteDescription
      (rollbackIfUnstable (createPeerConnectionForUser ls e sender).2 o).1 (some d) o).result
        = some ())
    (ha : (createAnswer (setRemoteDescription
      (rollbackIfUnstable (createPeerConnectionForUser ls e sender).2 o).1 (some d) o).pc
        o).result = some answer) :
    mapGet (handleOffer room ls e sender (some d) o).peerConnections sender
        = some (answeredSession (createPeerConnectionForUser ls e sender).2 d answer)
      ∧ (answeredSession (createPeerConnectionForUser ls e sender).2 d answer).remoteDescription
        = some d
      ∧ (handleOffer room ls e sender (some d) o).sent
        = e.sent ++ [{ type := MessageType.ANSWER, fromId := room.userId, toId := some sender
                       roomId := room.roomId
                       data := MessageData.description answer.sdp answer.type }]
      ∧ answer.type = SdpType.answer
      ∧ (∃ flushed,
          (handleOffer room ls e sender (some d) o).trace
            = (createPeerConnectionForUser ls e sender).1.trace
              ++ ((rollbackIfUnstable (createPeerConnectionForUser ls e sender).2 o).2
                  ++ TransportOp.setRemoteDescription d true :: flushed
                  ++ [TransportOp.createAnswer true,
                      TransportOp.setLocalDescription answer true]).map
                (fun op => (sender, op))
          ∧ appliedCandidates flushed
            = (createPeerConnectionForUser ls e sender).2.remoteCandidateQueue)
      ∧ (rollbackIfUnstable (createPeerConnectionForUser ls e sender).2 o).2
        = (if (createPeerConnectionForUser ls e sender).2.signalingState = .stable then []
          else [TransportOp.rollback
            (pcRollback (createPeerConnectionForUser ls e sender).2 o.rollbackOk).isSome])
      ∧ (handleOffer room ls e sender (some d)
          { o with rollbackOk := !o.rollbackOk }).peerConnections
        = (handleOffer room ls e sender (some d) o).peerConnections
      ∧ (handleOffer room ls e sender (some d) { o with rollbackOk := !o.rollbackOk }).sent
        = (handleOffer room ls e sender (some d) o).sent := by
  have hval := handleOffer_answered room ls e sender d answer o hs ha
  obtain ⟨_, hdty, hsdp, hok, hc, hty, hl, hst⟩ := offer_answered _ d answer o hs ha
  obtain ⟨hs', ha'⟩ := offer_answered_of (createPeerConnectionForUser ls e sender).2 d answer
    { o with rollbackOk := !o.rollbackOk } hdty hsdp hok hc hty hl hst
  have hval' := handleOffer_answered room ls e sender d answer
    { o with rollbackOk := !o.rollbackOk } hs' ha'
  obtain ⟨pc1, h1⟩ := setRemoteDescription_result _ d o hs
  have hacc := setRemoteDescription_accepted _ pc1 d o h1
  refine ⟨?_, ?_, ?_, hty, ⟨(_flushQueuedCandidates pc1 o.candidateOk).2, ?_, ?_⟩, ?_, ?_, ?_⟩
  · rw [hval]
    exact mapGet_mapSet_same _ _ _
  · simp [answeredSession, PeerConnection.remoteDescription]
  · rw [hval]
    rfl
  · rw [hval, hacc]
    simp [List.append_assoc]
  · rw [appliedCandidates_flush, (pcSetRemoteDescription_accepted _ pc1 d _ h1).1,
      (rollbackIfUnstable_keeps _ o).1]
  · unfold rollbackIfUnstable
    by_cases hstable : (createPeerConnectionForUser ls e sender).2.signalingState = .stable
    · simp [hstable]
    · cases hr : pcRollback (createPeerConnectionForUser ls e sender).2 o.rollbackOk <;>
        simp [hstable, hr]
  · rw [hval, hval']
    rfl
  · rw [hval, hval']

theorem C12_offer_answered_witness :
    (setRemoteDescription
        (rollbackIfUnstable (createPeerConnectionForUser none Engine.init "A").2
          allAccepted).1 (some sampleOffer) allAccepted).result = some ()
      ∧ (handleOffer sampleRoom none Engine.init "A" (some sampleOffer) allAccepted).sent
        = Engine.init.sent
          ++ [{ type := MessageType.ANSWER, fromId := sampleRoom.userId, toId := some "A"
                roomId := sampleRoom.roomId
                data := MessageData.description "v=0" SdpType.answer }] :=
  ⟨by decide,
    (C12_offer_answered sampleRoom none Engine.init "A" sampleOffer
      { type := .answer, sdp := "v=0" } allAccepted (by decide) (by decide)).2.2.1⟩

theorem pcSetRemoteDescription_answer (pc pc1 : PeerConnection) (d : SessionDescription)
    (ok : Bool) (hty : d.type = .answer)
    (h : pcSetRemoteDescription pc d ok = some pc1) :
    pc1.signalingState = .stable
      ∧ pc1.currentRemoteDescription = some d
      ∧ pc1.pendingRemoteDescription = none
      ∧ pc1.pendingLocalDescription = none
      ∧ pc1.currentLocalDescription = pc.pendingLocalDescription := by
  unfold pcSetRemoteDescription at h
  split at h
  · cases h
  · rw [hty] at h
    split at h
    all_goals first
      | (cases h
         exact ⟨rfl, rfl, rfl, rfl, rfl⟩)
      | (cases h
         done)
      | simp_all

/-- C13 (as the code has it): for a session in `have-local-offer` and an ANSWER
whose description is of type `answer` and is accepted by the browser:
`handleAnswer` leaves the session `stable` with
the incoming description as its remote description and the offer it had sent as
its local one; the candidates that were queued are handed to the transport, in
arrival order and after the description, and the queue is empty; nothing is
sent; and the entry of any other user is as it was. -/
theorem C13_answer_applied (e : Engine) (sender other : UserId) (pc pc1 : PeerConnection)
    (d : SessionDescription) (o : Outcomes)
    (hg : mapGet e.peerConnections sender = some pc)
    (hs : pc.signalingState = SignalingState.haveLocalOffer)
    (hty : d.type = SdpType.answer)
    (happly : pcSetRemoteDescription pc d o.setRemoteOk = some pc1)
    (hother : other ≠ sender) :
    mapGet (handleAnswer e sender (some d) o).peerConnections sender
        = some { pc1 with remoteCandidateQueue := [] }
      ∧ pc1.remoteDescription = some d
      ∧ pc1.signalingState = SignalingState.stable
      ∧ pc1.currentLocalDescription = pc.pendingLocalDescription
      ∧ pc1.senders = pc.senders
      ∧ (∃ flushed,
          (handleAnswer e sender (some d) o).trace
            = e.trace ++ (sender, TransportOp.setRemoteDescription d true)
              :: flushed.map (fun op => (sender, op))
          ∧ appliedCandidates flushed = pc.remoteCandidateQueue
          ∧ ∀ op ∈ flushed, candidateGuarded op = true)
      ∧ (handleAnswer e sender (some d) o).sent = e.sent
      ∧ mapGet (handleAnswer e sender (some d) o).peerConnections other
        = mapGet e.peerConnections other
      ∧ mapKeys (handleAnswer e sender (some d) o).peerConnections
        = mapKeys e.peerConnections := by
  have hsucc := pcSetRemoteDescription_success pc pc1 d _ (by rw [hty]; decide) happly
  have hans := pcSetRemoteDescription_answer pc pc1 d _ hty happly
  have hval : handleAnswer e sender (some d) o
      = e.withSession sender { pc1 with remoteCandidateQueue := [] }
          (TransportOp.setRemoteDescription d true
            :: (_flushQueuedCandidates pc1 o.candidateOk).2) := by
    simp [handleAnswer, hg, hs, setRemoteDescription_accepted pc pc1 d o happly]
  have hmem : sender ∈ mapKeys e.peerConnections := by
    by_contra hn
    rw [(mapGet_eq_none_iff _ _).mpr hn] at hg
    cases hg
  refine ⟨?_, hsucc.1, hans.1, hans.2.2.2.2, hsucc.2.2.1,
    ⟨(_flushQueuedCandidates pc1 o.candidateOk).2, ?_, ?_, ?_⟩, ?_, ?_, ?_⟩
  · rw [hval]
    exact mapGet_mapSet_same _ _ _
  · rw [hval]
    simp
  · rw [appliedCandidates_flush, hsucc.2.1]
  · exact guarded_flush pc1 _ (by simp [hsucc.1])
  · rw [hval]
    rfl
  · exact handleAnswer_get_other e sender other (some d) o hother
  · rw [hval]
    simp [mapKeys_mapSet, hmem]

theorem C13_answer_applied_witness :
    mapGet sampleOffered.peerConnections "B" = some sampleOfferedSession
      ∧ mapGet (handleAnswer sampleOffered "B" (some sampleAnswer) candidatesRejected).peerConnections
          "B"
        = some { sampleAnsweredSession with remoteCandidateQueue := [] }
      ∧ sampleAnsweredSession.signalingState = SignalingState.stable :=
  ⟨by decide,
    (C13_answer_applied sampleOffered "B" "A" sampleOfferedSession sampleAnsweredSession
      sampleAnswer candidatesRejected (by decide) (by decide) (by decide) (by decide)
      (by decide)).1,
    (C13_answer_applied sampleOffered "B" "A" sampleOfferedSession sampleAnsweredSession
      sampleAnswer candidatesRejected (by decide) (by decide) (by decide) (by decide)
      (by decide)).2.2.1⟩

/-- C13, as stated, fails: `handleAnswer` does not look at the type of the
description.  The engine has an offer to `B` in flight; an ANSWER of `B` arrives
whose description is of type `pranswer`.  The browser accepts it and it is now
the remote description, yet the session is in `have-remote-pranswer`, not
`stable`. -/
theorem C13_pranswer_leaves_session_unstable :
    mapGet sampleOffered.peerConnections "B" = some sampleOfferedSession
      ∧ sampleOfferedSession.signalingState = SignalingState.haveLocalOffer
      ∧ (setRemoteDescription sampleOfferedSession (some samplePranswer) allAccepted).result
        = some ()
      ∧ (mapGet (handleAnswer sampleOffered "B" (some samplePranswer)
          allAccepted).peerConnections "B").map
            (fun pc => (pc.signalingState, pc.remoteDescription))
        = some (SignalingState.haveRemotePranswer, some samplePranswer) := by
  decide

/-! ## A rejected offer -/

/-- C18 (as the code has it): when the browser rejects the description of an
OFFER, nothing is sent and the sender's session is left as the rollback attempt
left it: as it was when it was `stable` or the rollback was rejected, and back in
`stable` with both pending descriptions dropped when the rollback was accepted.
Current descriptions, candidate queue and senders are as before in every case. -/
theorem C18_offer_rejected (room : Room) (ls : Option MediaStream) (e : Engine)
    (sender : UserId) (d : Option SessionDescription) (o : Outcomes)
    (hfail : (setRemoteDescription
      (rollbackIfUnstable (createPeerConnectionForUser ls e sender).2 o).1 d o).result = none) :
    mapGet (handleOffer room ls e sender d o).peerConnections sender
        = some (match (if (createPeerConnectionForUser ls e sender).2.signalingState = .stable
                  then none
                  else pcRollback (createPeerConnectionForUser ls e sender).2 o.rollbackOk) with
          | none => (createPeerConnectionForUser ls e sender).2
          | some _ =>
            { (createPeerConnectionForUser ls e sender).2 with
              pendingLocalDescription := none
              pendingRemoteDescription := none
              signalingState := .stable })
      ∧ (handleOffer room ls e sender d o).sent = e.sent := by
  have hb : (rollbackIfUnstable (createPeerConnectionForUser ls e sender).2 o).1
      = (match (if (createPeerConnectionForUser ls e sender).2.signalingState = .stable
                  then none
                  else pcRollback (createPeerConnectionForUser ls e sender).2 o.rollbackOk) with
          | none => (createPeerConnectionForUser ls e sender).2
          | some _ =>
            { (createPeerConnectionForUser ls e sender).2 with
              pendingLocalDescription := none
              pendingRemoteDescription := none
              signalingState := .stable }) := by
    generalize (createPeerConnectionForUser ls e sender).2 = pc
    unfold rollbackIfUnstable pcRollback
    cases hst : pc.signalingState <;> cases o.rollbackOk <;> simp [hst]
  have hpc : (setRemoteDescription
      (rollbackIfUnstable (createPeerConnectionForUser ls e sender).2 o).1 d o).pc
      = (rollbackIfUnstable (createPeerConnectionForUser ls e sender).2 o).1 := by
    generalize (rollbackIfUnstable (createPeerConnectionForUser ls e sender).2 o).1 = b
      at hfail ⊢
    unfold setRemoteDescription at hfail ⊢
    cases d with
    | none => simp at hfail
    | some desc =>
      cases hp : pcSetRemoteDescription b desc o.setRemoteOk with
      | none => simp [hp]
      | some pc1 => simp [hp] at hfail
  have hval : handleOffer room ls e sender d o
      = (createPeerConnectionForUser ls e sender).1.withSession sender
          (setRemoteDescription
            (rollbackIfUnstable (createPeerConnectionForUser ls e sender).2 o).1 d o).pc
          ((rollbackIfUnstable (createPeerConnectionForUser ls e sender).2 o).2
            ++ (setRemoteDescription
              (rollbackIfUnstable (createPeerConnectionForUser ls e sender).2 o).1 d o).ops) := by
    unfold handleOffer
    simp only [hfail]
  rw [hval]
  refine ⟨?_, by simp⟩
  rw [withSession_peerConnections, mapGet_mapSet_same, hpc, hb]

theorem C18_offer_rejected_witness :
    (setRemoteDescription
        (rollbackIfUnstable (createPeerConnectionForUser none sampleOffered "B").2
          descriptionsRejected).1 (some sampleOffer) descriptionsRejected).result = none
      ∧ (handleOffer sampleRoom none sampleOffered "B" (some sampleOffer)
          descriptionsRejected).sent = sampleOffered.sent :=
  ⟨by decide,
    (C18_offer_rejected sampleRoom none sampleOffered "B" (some sampleOffer)
      descriptionsRejected (by decide)).2⟩

/-- C18, as stated, fails: the engine has an offer to `B` in flight (the session
is in `have-local-offer` with that offer pending); an OFFER from `B` arrives, the
browser accepts the rollback and rejects the description.  No answer is sent,
but the session is now `stable` and the offer that was in flight is gone. -/
theorem C18_local_offer_lost :
    (mapGet sampleOffered.peerConnections "B").map
        (fun pc => (pc.signalingState, pc.pendingLocalDescription))
      = some (SignalingState.haveLocalOffer, some { type := .offer, sdp := "v=0" })
    ∧ (mapGet (handleOffer sampleRoom (some sampleStream) sampleOffered "B" (some sampleOffer)
        descriptionsRejected).peerConnections "B").map
        (fun pc => (pc.signalingState, pc.pendingLocalDescription))
      = some (SignalingState.stable, none)
    ∧ (handleOffer sampleRoom (some sampleStream) sampleOffered "B" (some sampleOffer)
        descriptionsRejected).sent = sampleOffered.sent := by
  decide

/-! ## The transport client: `connect()` -/

/-- C19 fails when an old socket reports its close late: `connect()` makes
socket 0 and promise 0; socket 0 fails, its `error` event rejects promise 0 and
clears `ws` and `readyPromise`; `connect()` makes socket 1 and promise 1; the
`close` event of socket 0 is delivered and clears `ws` and `readyPromise` again.
Promise 1 is still pending and socket 1 still connecting, yet the next
`connect()` returns a new promise and opens a third socket. -/
theorem C19_connect_opens_second_socket :
    (SignalingService.run [.connect false, .socketError 0, .connect false]).readyPromise
        = some 1
      ∧ (SignalingService.run
          [.connect false, .socketError 0, .connect false, .socketClose 0 1006]).promises[1]?
        = some PromiseState.pending
      ∧ ((SignalingService.run
          [.connect false, .socketError 0, .connect false, .socketClose 0 1006]).sockets[1]?).map
          (fun sock => sock.readyState) = some ReadyState.CONNECTING
      ∧ (SignalingService.run
          [.connect false, .socketError 0, .connect false, .socketClose 0 1006]).sockets.length = 2
      ∧ ((SignalingService.run
          [.connect false, .socketError 0, .connect false, .socketClose 0 1006]).connect false).2
        = 2
      ∧ ((SignalingService.run
          [.connect false, .socketError 0, .connect false,
           .socketClose 0 1006]).connect false).1.sockets.length = 3 := by
  decide

/-- C20 fails between `disconnect()` and the close event: `connect()` makes
socket 0 and promise 0, the socket opens and the promise is resolved,
`disconnect()` starts closing the socket.  `readyPromise` is still promise 0, so
`connect()` returns that resolved promise while the socket is `CLOSING`, and
opens nothing. -/
theorem C20_connect_returns_resolved_while_closing :
    ((SignalingService.run [.connect false, .socketOpen 0, .disconnect]).connect false).2 = 0
      ∧ (SignalingService.run [.connect false, .socketOpen 0, .disconnect]).promises[0]?
        = some PromiseState.resolved
      ∧ (SignalingService.run [.connect false, .socketOpen 0, .disconnect]).current.map
          (fun sock => sock.readyState) = some ReadyState.CLOSING
      ∧ (SignalingService.run [.connect false, .socketOpen 0, .disconnect]).isConnected = false
      ∧ ((SignalingService.run [.connect false, .socketOpen 0, .disconnect]).connect false).1
        = SignalingService.run [.connect false, .socketOpen 0, .disconnect] := by
  decide

/-! ## The transport client: `send` and rejected connects -/

/-- C21: `send(message)` on a client whose socket is missing or not open
returns the client as it was: nothing is handed to a socket, nothing is thrown.
On a client whose socket is open it hands one payload to that socket, the
message with the value of the clock as its timestamp, and changes nothing
else. -/
theorem C21_send_only_when_open (s : SignalingService) (message : SignalMessage) (now : Nat) :
    s.send message now
      = (if s.isConnected then
          { s with
            transmitted := s.transmitted
              ++ [(s.ws.getD 0, { message := message, timestamp := now })] }
        else s) := by
  unfold SignalingService.send SignalingService.isConnected SignalingService.current
  cases hws : s.ws with
  | none => simp
  | some i =>
    cases hs : s.sockets[i]? with
    | none => simp [hs]
    | some sock =>
      by_cases hopen : sock.readyState = ReadyState.OPEN
      · simp [hs, hopen]
      · simp [hs, hopen]

theorem settle_pending (s : SignalingService) (p : Nat) (st : PromiseState)
    (h : s.promises[p]? = some PromiseState.pending) :
    (s.settle p st).promises[p]? = some st := by
  have hlt : p < s.promises.length := by
    rcases Nat.lt_or_ge p s.promises.length with hlt | hge
    · exact hlt
    · rw [List.getElem?_eq_none hge] at h
      cases h
  unfold SignalingService.settle
  simp [h, hlt]

/-- C23 (as the code has it): when a socket that never opened and never
reported an error is closed, the pending promise of its `connect()` is rejected
with 'WebSocket closed before open' if the close code is 1000 and with
'WebSocket closed during connect' for every other code.  Had the error event of
that socket been delivered instead, `onerror` would have rejected the same
promise with 'WebSocket error during connect', which is neither of the two. -/
theorem C23_close_before_open_reason (s : SignalingService) (i : Nat) (sock : Socket)
    (code : Nat) (hs : s.sockets[i]? = some sock) (hsettled : sock.settled = false)
    (hclose : sock.closeFired = false)
    (hp : s.promises[sock.promise]? = some PromiseState.pending) :
    (s.onclose i code).promises[sock.promise]?
        = some (PromiseState.rejected
            (if code = 1000 then RejectReason.closedBeforeOpen
              else RejectReason.closedDuringConnect))
      ∧ ((s.onclose i code).promises[sock.promise]?).bind PromiseState.rejectionMessage
        = some (if code = 1000 then "WebSocket closed before open"
            else "WebSocket closed during connect")
      ∧ (sock.errorFired = false →
          (s.onerror i).promises[sock.promise]?
              = some (PromiseState.rejected RejectReason.errorDuringConnect)
            ∧ ((s.onerror i).promises[sock.promise]?).bind PromiseState.rejectionMessage
              = some "WebSocket error during connect"
            ∧ ((s.onerror i).promises[sock.promise]?).bind PromiseState.rejectionMessage
              ≠ ((s.onclose i code).promises[sock.promise]?).bind
                  PromiseState.rejectionMessage)
      ∧ (s.onclose i code).ws = none
      ∧ (s.onclose i code).readyPromise = none := by
  have hc : (s.onclose i code).promises[sock.promise]?
      = some (PromiseState.rejected
          (if code = 1000 then RejectReason.closedBeforeOpen
            else RejectReason.closedDuringConnect)) := by
    unfold SignalingService.onclose
    simp only [hs, hclose, hsettled, if_true]
    exact settle_pending _ _ _ hp
  have hcm : ((s.onclose i code).promises[sock.promise]?).bind PromiseState.rejectionMessage
      = some (if code = 1000 then "WebSocket closed before open"
          else "WebSocket closed during connect") := by
    rw [hc]
    by_cases h1000 : code = 1000 <;>
      simp [h1000, PromiseState.rejectionMessage, RejectReason.message]
  refine ⟨hc, hcm, ?_, ?_, ?_⟩
  · intro herr
    have he : (s.onerror i).promises[sock.promise]?
        = some (PromiseState.rejected RejectReason.errorDuringConnect) := by
      unfold SignalingService.onerror
      simp only [hs, herr, hclose, hsettled, and_self, if_true]
      exact settle_pending _ _ _ hp
    refine ⟨he, by rw [he]; rfl, ?_⟩
    rw [hcm, he]
    by_cases h1000 : code = 1000 <;>
      simp [h1000, PromiseState.rejectionMessage, RejectReason.message]
  · unfold SignalingService.onclose
    simp [hs, hclose]
  · unfold SignalingService.onclose
    simp [hs, hclose]

theorem C23_close_before_open_reason_witness :
    (SignalingService.run [.connect false]).sockets[0]?
        = some { readyState := .CONNECTING, settled := false, promise := 0
                 errorFired := false, closeFired := false }
      ∧ (((SignalingService.run [.connect false]).onclose 0 1000).promises[0]?).bind
          PromiseState.rejectionMessage
        = some (if 1000 = 1000 then "WebSocket closed before open"
            else "WebSocket closed during connect")
      ∧ (((SignalingService.run [.connect false]).onerror 0).promises[0]?).bind
          PromiseState.rejectionMessage
        = some "WebSocket error during connect" :=
  ⟨by decide,
    (C23_close_before_open_reason (SignalingService.run [.connect false]) 0
      { readyState := .CONNECTING, settled := false, promise := 0
        errorFired := false, closeFired := false } 1000 (by decide) (by decide) (by decide)
      (by decide)).2.1,
    ((C23_close_before_open_reason (SignalingService.run [.connect false]) 0
      { readyState := .CONNECTING, settled := false, promise := 0
        errorFired := false, closeFired := false } 1000 (by decide) (by decide) (by decide)
      (by decide)).2.2.1 (by decide)).2.1⟩

/-- C23, as stated, fails: a socket that never opened and reported no error is
closed with code 1006; the promise of its `connect()` is rejected with
'WebSocket closed during connect', not with 'WebSocket closed before open'. -/
theorem C23_close_code_changes_reason :
    (SignalingService.run [.connect false, .socketClose 0 1006]).promises[0]?
        = some (PromiseState.rejected RejectReason.closedDuringConnect)
      ∧ ((SignalingService.run [.connect false, .socketClose 0 1006]).promises[0]?).bind
          PromiseState.rejectionMessage
        = some "WebSocket closed during connect"
      ∧ ((SignalingService.run [.connect false, .socketClose 0 1006]).promises[0]?).bind
          PromiseState.rejectionMessage
        ≠ some "WebSocket closed before open" := by
  decide

/-! ## MEDIA_STATE -/

/-- C24 fails for every participant list: the message `sendMediaState` builds
carries the user only in `from`, its data has no `userId`; `handleMediaState`
looks for the user in `data.userId`, finds no participant with that id, and
returns the list as it was. -/
theorem C24_media_state_never_applied (prev : List Participant) (roomId : RoomId)
    (userId : UserId) (audioEnabled videoEnabled : Bool) :
    handleMediaState prev
        (deliveredMediaState (sendMediaState roomId userId audioEnabled videoEnabled))
      = prev
    ∧ handleMediaState
        [{ userId := "U", name := "u", audioEnabled := true, videoEnabled := true }]
        (deliveredMediaState (sendMediaState "room" "U" false false))
      = [{ userId := "U", name := "u", audioEnabled := true, videoEnabled := true }] := by
  constructor
  · simp [handleMediaState, deliveredMediaState, sendMediaState]
  · decide

/-! ## An offer in flight -/

/-- C25: with the engine Initiator, a local stream present and the session of
the user not `stable`, `handleUserJoined` returns the engine state it was given:
no offer is produced, nothing is sent, the session is as it was.  In particular,
when a first USER_JOINED has sent an offer, a second one for the same user,
whatever the browser would answer and whatever the local stream, changes
nothing, so that the two together have sent exactly that one OFFER. -/
theorem C25_userJoined_skipped_while_offer_in_flight (room : Room) (stream stream2 : MediaStream)
    (e : Engine) (remoteUserId : UserId) (o o2 : Outcomes) (offer : SessionDescription)
    (hid : remoteUserId ≠ "") (hself : remoteUserId ≠ room.userId)
    (hrole : e.role = Role.Initiator)
    (hstable : (createPeerConnectionForUser (some stream) e remoteUserId).2.signalingState
      = SignalingState.stable)
    (hoffer : (createOffer (createPeerConnectionForUser (some stream) e remoteUserId).2 o).result
      = some offer) :
    (∀ (e' : Engine) (pc : PeerConnection), e'.role = Role.Initiator →
        mapGet e'.peerConnections remoteUserId = some pc →
        pc.signalingState ≠ SignalingState.stable →
        handleUserJoined room (some stream2) e' (some remoteUserId) o2 = e')
      ∧ handleUserJoined room (some stream2)
          (handleUserJoined room (some stream) e (some remoteUserId) o) (some remoteUserId) o2
        = handleUserJoined room (some stream) e (some remoteUserId) o
      ∧ (handleUserJoined room (some stream2)
          (handleUserJoined room (some stream) e (some remoteUserId) o) (some remoteUserId)
          o2).sent
        = e.sent ++ [{ type := MessageType.OFFER, fromId := room.userId
                       toId := some remoteUserId, roomId := room.roomId
                       data := MessageData.description offer.sdp offer.type }] := by
  have hskip : ∀ (e' : Engine) (pc : PeerConnection), e'.role = Role.Initiator →
      mapGet e'.peerConnections remoteUserId = some pc →
      pc.signalingState ≠ SignalingState.stable →
      handleUserJoined room (some stream2) e' (some remoteUserId) o2 = e' := by
    intro e' pc hr hg hs
    have hinit : e'.isInitiator = true := by
      unfold Engine.role at hr
      cases hb : e'.isInitiator with
      | false => simp [hb] at hr
      | true => rfl
    unfold handleUserJoined
    simp [hid, hself, hinit, createPeerConnectionForUser_of_get _ e' remoteUserId pc hg, hs]
  have hinit : e.isInitiator = true := by
    unfold Engine.role at hrole
    cases hb : e.isInitiator with
    | false => simp [hb] at hrole
    | true => rfl
  have hs := createOffer_success _ o offer hstable hoffer
  have hval : handleUserJoined room (some stream) e (some remoteUserId) o
      = { (createPeerConnectionForUser (some stream) e remoteUserId).1.withSession remoteUserId
            (createOffer (createPeerConnectionForUser (some stream) e remoteUserId).2 o).pc
            (createOffer (createPeerConnectionForUser (some stream) e remoteUserId).2 o).ops with
          sent := e.sent ++ [sendOffer room.roomId room.userId remoteUserId offer] } := by
    unfold handleUserJoined
    simp [hid, hself, hinit, hstable, hoffer]
  have hsecond := hskip (handleUserJoined room (some stream) e (some remoteUserId) o)
    (createOffer (createPeerConnectionForUser (some stream) e remoteUserId).2 o).pc
    (by
      unfold Engine.role
      rw [handleUserJoined_isInitiator, hinit]
      rfl)
    (by
      rw [hval]
      exact mapGet_mapSet_same _ _ _)
    (by
      rw [hs.1]
      decide)
  refine ⟨hskip, hsecond, ?_⟩
  rw [hsecond, hval]
  rfl

theorem C25_userJoined_skipped_while_offer_in_flight_witness :
    handleUserJoined sampleRoom (some sampleStream)
        (handleUserJoined sampleRoom (some sampleStream) sampleInitiator (some "B") allAccepted)
        (some "B") allAccepted
      = handleUserJoined sampleRoom (some sampleStream) sampleInitiator (some "B") allAccepted :=
  (C25_userJoined_skipped_while_offer_in_flight sampleRoom sampleStream sampleStream
    sampleInitiator "B" allAccepted allAccepted { type := .offer, sdp := "v=0" } (by decide)
    (by decide) (by decide) (by decide) (by decide)).2.1
/-! ## The event bus -/

theorem notifyLoop_steady (reaction : Nat → Reaction) (event : String)
    (data : Option SignalMessage) (arr : List Nat)
    (hr : ∀ fn ∈ arr, reaction fn ≠ Reaction.unsubscribes) (n k : Nat) (bus : EventBus)
    (hg : mapGet bus.listeners event = some arr) (hk : k + n = arr.length) :
    (EventBus.notifyLoop reaction event data n k bus).calls
        = bus.calls ++ (arr.drop k).map (fun fn => (fn, data))
      ∧ (EventBus.notifyLoop reaction event data n k bus).listeners = bus.listeners
      ∧ (EventBus.notifyLoop reaction event data n k bus).errors
        = bus.errors + ((arr.drop k).filter (fun fn => reaction fn = Reaction.throws)).length := by
  induction n generalizing k bus with
  | zero =>
    have hk' : arr.length ≤ k := by omega
    simp [EventBus.notifyLoop, List.drop_eq_nil_of_le hk']
  | succ n ih =>
    have hlt : k < arr.length := by omega
    have hget : ((mapGet bus.listeners event).getD [])[k]? = some arr[k] := by
      simp [hg, List.getElem?_eq_getElem hlt]
    have hdrop : arr.drop k = arr[k] :: arr.drop (k + 1) := List.drop_eq_getElem_cons hlt
    have hmem : arr[k] ∈ arr := List.getElem_mem hlt
    have hnot := hr arr[k] hmem
    simp only [EventBus.notifyLoop, hget]
    cases hreact : reaction arr[k] with
    | unsubscribes => exact absurd hreact hnot
    | returns =>
      obtain ⟨h1, h2, h3⟩ := ih (k + 1) { bus with calls := bus.calls ++ [(arr[k], data)] }
        hg (by omega)
      simp only [hreact] at h1 h2 h3 ⊢
      refine ⟨?_, h2, ?_⟩
      · rw [h1, hdrop, List.map_cons, List.append_assoc, List.singleton_append]
      · rw [h3, hdrop, List.filter_cons]
        simp [hreact]
    | throws =>
      obtain ⟨h1, h2, h3⟩ := ih (k + 1)
        { bus with calls := bus.calls ++ [(arr[k], data)], errors := bus.errors + 1 }
        hg (by omega)
      simp only [hreact] at h1 h2 h3 ⊢
      refine ⟨?_, h2, ?_⟩
      · rw [h1, hdrop, List.map_cons, List.append_assoc, List.singleton_append]
      · rw [h3, hdrop, List.filter_cons]
        simp [hreact]
        omega

/-- C22: when no listener of the event changes the subscriptions, `_notify`
calls every listener of the event once, in registration order and with the
data, whichever of them throw; each throw is caught and logged, the
subscriptions are as before, and `_notify` itself returns normally. -/
theorem C22_notify_calls_every_listener (bus : EventBus) (reaction : Nat → Reaction)
    (event : String) (data : Option SignalMessage) (arr : List Nat)
    (hg : mapGet bus.listeners event = some arr)
    (hr : ∀ fn ∈ arr, reaction fn ≠ Reaction.unsubscribes) :
    (bus._notify reaction event data).calls = bus.calls ++ arr.map (fun fn => (fn, data))
      ∧ (bus._notify reaction event data).listeners = bus.listeners
      ∧ (bus._notify reaction event data).errors
        = bus.errors + (arr.filter (fun fn => reaction fn = Reaction.throws)).length := by
  have h := notifyLoop_steady reaction event data arr hr arr.length 0 bus hg (by omega)
  unfold EventBus._notify
  simpa [hg] using h

theorem C22_notify_calls_every_listener_witness :
    mapGet sampleBus.listeners "ROOM_JOINED" = some [1, 2, 3]
      ∧ (sampleBus._notify (fun fn => if fn = 2 then .throws else .returns) "ROOM_JOINED"
          none).calls
        = sampleBus.calls ++ [1, 2, 3].map (fun fn => (fn, none)) :=
  ⟨by decide,
    (C22_notify_calls_every_listener sampleBus (fun fn => if fn = 2 then .throws else .returns)
      "ROOM_JOINED" none [1, 2, 3] (by decide) (by decide)).1⟩

/-- C27 fails whenever the listener that removes itself is not the last:
listeners 1, 2 and 3 are registered for ROOM_JOINED and listener 1 calls `off`
for itself when called.  `_notify` calls listener 1, then listener 3; listener 2,
which moved into the place of listener 1, is never called. -/
theorem C27_self_removal_skips_next_listener :
    sampleBus.listeners = [("ROOM_JOINED", [1, 2, 3])]
      ∧ (sampleBus._notify (fun fn => if fn = 1 then .unsubscribes else .returns)
          "ROOM_JOINED" none).calls = [(1, none), (3, none)]
      ∧ (sampleBus._notify (fun fn => if fn = 1 then .unsubscribes else .returns)
          "ROOM_JOINED" none).listeners = [("ROOM_JOINED", [2, 3])] := by
  decide

/-! ## A candidate that arrives during the flush -/

/-- C26 fails when a candidate arrives while the flush is suspended: the session
has just had its remote description accepted and holds candidates 1 and 2 in its
queue.  The flush takes candidate 1 and waits for the browser; an ICE_CANDIDATE
with candidate 3 is handled meanwhile and, the remote description being present,
is handed to the transport at once; the flush resumes with candidate 2.  The
transport gets 1, 3, 2: candidate 3 is applied ahead of candidate 2, which
arrived before it and was still queued. -/
theorem C26_candidate_overtakes_queue :
    pcSetRemoteDescription sampleQueued sampleOffer true = some sampleFlushing
      ∧ appliedCandidates (interleave sampleFlushing
          [.resume true, .candidate sampleCandidate3 true, .resume true]).2
        = [sampleCandidate1, sampleCandidate3, sampleCandidate2]
      ∧ (interleave sampleFlushing
          [.resume true, .candidate sampleCandidate3 true, .resume true]).1.remoteCandidateQueue
        = []
      ∧ appliedCandidates (interleave sampleFlushing
          [.resume true, .resume true, .candidate sampleCandidate3 true]).2
        = [sampleCandidate1, sampleCandidate2, sampleCandidate3] := by
  decide

/-! ## A present remote description means an empty queue -/

theorem allSessions_withSession (P : PeerConnection → Prop) (e : Engine) (u : UserId)
    (pc : PeerConnection) (ops : List TransportOp) (h : AllSessions P e) (hpc : P pc) :
    AllSessions P (e.withSession u pc ops) := by
  intro u' pc' hg
  by_cases hu : u' = u
  · subst hu
    rw [withSession_peerConnections, mapGet_mapSet_same] at hg
    cases hg
    exact hpc
  · rw [withSession_peerConnections, mapGet_mapSet_other _ _ _ _ hu] at hg
    exact h u' pc' hg

theorem allSessions_of_peerConnections (P : PeerConnection → Prop) (e e' : Engine)
    (heq : e'.peerConnections = e.peerConnections) (h : AllSessions P e) : AllSessions P e' := by
  intro u pc hg
  rw [heq] at hg
  exact h u pc hg

theorem allSessions_create (P : PeerConnection → Prop)
    (hnew : ∀ ts : List Track, P (ts.foldl pcAddTrack createPeerConnection))
    (ls : Option MediaStream) (e : Engine) (u : UserId) (h : AllSessions P e) :
    AllSessions P (createPeerConnectionForUser ls e u).1
      ∧ P (createPeerConnectionForUser ls e u).2 := by
  cases hg : mapGet e.peerConnections u with
  | some pc =>
    rw [createPeerConnectionForUser_of_get ls e u pc hg]
    exact ⟨h, h u pc hg⟩
  | none =>
    obtain ⟨ts, hts⟩ := createPeerConnectionForUser_of_none ls e u hg
    rw [hts]
    exact ⟨allSessions_withSession P e u _ _ h (hnew ts), hnew ts⟩

theorem step_allSessions (P : PeerConnection → Prop)
    (hnew : ∀ ts : List Track, P (ts.foldl pcAddTrack createPeerConnection))
    (hoffer : ∀ pc o, P pc → P (createOffer pc o).pc)
    (hanswer : ∀ pc o, P pc → P (createAnswer pc o).pc)
    (hroll : ∀ pc o, P pc → P (rollbackIfUnstable pc o).1)
    (hremote : ∀ pc d o, P pc → P (setRemoteDescription pc d o).pc)
    (hcand : ∀ pc c o, P pc → P (addIceCandidate pc c o).pc)
    (room : Room) (e : Engine) (i : Input) (h : AllSessions P e) :
    AllSessions P (step room e i) := by
  obtain ⟨ls, ev⟩ := i
  cases ev with
  | roomInfo ps =>
    refine allSessions_of_peerConnections P e _ ?_ h
    simp only [step, handleRoomInfo]
    split <;> rfl
  | userJoined u o =>
    simp only [step]
    unfold handleUserJoined
    cases u with
    | none => exact h
    | some r =>
      simp only
      split
      · exact h
      · split
        · exact h
        · cases ls with
          | none => exact h
          | some stream =>
            simp only
            obtain ⟨hc, hp⟩ := allSessions_create P hnew (some stream) e r h
            split
            · exact hc
            · have h1 := allSessions_withSession P _ r _
                (createOffer (createPeerConnectionForUser (some stream) e r).2 o).ops hc
                (hoffer _ o hp)
              split
              · exact h1
              · exact allSessions_of_peerConnections P _ _ rfl h1
  | offer s d o =>
    simp only [step]
    unfold handleOffer
    simp only
    obtain ⟨hc, hp⟩ := allSessions_create P hnew ls e s h
    have hs := hremote _ d o (hroll _ o hp)
    split
    · exact allSessions_withSession P _ s _ _ hc hs
    · have h1 := allSessions_withSession P _ s _
        ((rollbackIfUnstable (createPeerConnectionForUser ls e s).2 o).2
          ++ (setRemoteDescription
              (rollbackIfUnstable (createPeerConnectionForUser ls e s).2 o).1 d o).ops
          ++ (createAnswer (setRemoteDescription
              (rollbackIfUnstable (createPeerConnectionForUser ls e s).2 o).1 d o).pc o).ops)
        hc (hanswer _ o hs)
      split
      · exact h1
      · exact allSessions_of_peerConnections P _ _ rfl h1
  | answer s d o =>
    simp only [step]
    unfold handleAnswer
    cases hg : mapGet e.peerConnections s with
    | none => exact h
    | some pc =>
      simp only
      split
      · exact h
      · exact allSessions_withSession P e s _ _ h (hremote pc d o (h s pc hg))
  | iceCandidate s d o =>
    simp only [step]
    unfold handleIceCandidate
    obtain ⟨hc, hp⟩ := allSessions_create P hnew ls e s h
    exact allSessions_withSession P _ s _ _ hc (hcand _ d o hp)
  | userLeft u =>
    intro u' pc hg
    simp only [step, handleUserLeft] at hg
    by_cases hu : u' = u
    · subst hu
      rw [mapGet_mapDelete_same] at hg
      cases hg
    · rw [mapGet_mapDelete_other _ _ _ hu] at hg
      exact h u' pc hg
  | localIceCandidate u c =>
    cases c with
    | none => exact h
    | some c => exact allSessions_of_peerConnections P e _ rfl h
  | remoteTrack u s => exact allSessions_of_peerConnections P e _ rfl h
  | cleanup =>
    intro u' pc hg
    simp [step, VideoConference.cleanup, mapGet] at hg

theorem run_allSessions (P : PeerConnection → Prop)
    (hnew : ∀ ts : List Track, P (ts.foldl pcAddTrack createPeerConnection))
    (hoffer : ∀ pc o, P pc → P (createOffer pc o).pc)
    (hanswer : ∀ pc o, P pc → P (createAnswer pc o).pc)
    (hroll : ∀ pc o, P pc → P (rollbackIfUnstable pc o).1)
    (hremote : ∀ pc d o, P pc → P (setRemoteDescription pc d o).pc)
    (hcand : ∀ pc c o, P pc → P (addIceCandidate pc c o).pc)
    (room : Room) (is : List Input) (e : Engine) (h : AllSessions P e) :
    AllSessions P (run room e is) := by
  induction is generalizing e with
  | nil => exact h
  | cons i rest ih =>
    rw [run_cons]
    exact ih _ (step_allSessions P hnew hoffer hanswer hroll hremote hcand room e i h)

theorem queueSettled_new (ts : List Track) :
    QueueSettled (ts.foldl pcAddTrack createPeerConnection) := by
  have hk : ∀ (ts : List Track) (pc : PeerConnection),
      (ts.foldl pcAddTrack pc).pendingRemoteDescription = pc.pendingRemoteDescription
        ∧ (ts.foldl pcAddTrack pc).currentRemoteDescription = pc.currentRemoteDescription := by
    intro ts
    induction ts with
    | nil => intro pc; exact ⟨rfl, rfl⟩
    | cons t rest ih =>
      intro pc
      simp only [List.foldl_cons]
      obtain ⟨h1, h2⟩ := ih (pcAddTrack pc t)
      exact ⟨h1, h2⟩
  refine ⟨?_, ?_, ?_⟩
  · intro d hd
    rw [(hk ts _).1] at hd
    cases hd
  · intro d hd
    rw [(hk ts _).2] at hd
    cases hd
  · intro _
    rw [(foldl_addTrack_keeps ts _).2.2]
    rfl

theorem remoteDescription_ne_none (pc : PeerConnection) :
    pc.remoteDescription ≠ none
      ↔ pc.pendingRemoteDescription ≠ none ∨ pc.currentRemoteDescription ≠ none := by
  unfold PeerConnection.remoteDescription
  cases hp : pc.pendingRemoteDescription <;> simp

theorem queueSettled_of (pc pc1 : PeerConnection) (hq : QueueSettled pc)
    (hp1 : ∀ d, pc1.pendingRemoteDescription = some d → d.sdp ≠ "")
    (hc1 : ∀ d, pc1.currentRemoteDescription = some d → d.sdp ≠ "")
    (hr : pc1.remoteDescription ≠ none → pc.remoteDescription ≠ none)
    (hqueue : pc1.remoteCandidateQueue = pc.remoteCandidateQueue) : QueueSettled pc1 :=
  ⟨hp1, hc1, fun hne => by rw [hqueue]; exact hq.2.2 (hr hne)⟩

/-- The session after an accepted local answer: the pending remote description
becomes the current one. -/
theorem queueSettled_answered (pc : PeerConnection) (d : SessionDescription)
    (hq : QueueSettled pc) :
    QueueSettled { pc with
      currentLocalDescription := some d
      currentRemoteDescription := pc.pendingRemoteDescription
      pendingLocalDescription := none
      pendingRemoteDescription := none
      signalingState := .stable } := by
  refine queueSettled_of pc _ hq (fun x hx => by cases hx) (fun x hx => hq.1 x hx) ?_ rfl
  intro hne
  rw [remoteDescription_ne_none] at hne ⊢
  rcases hne with h | h
  · exact absurd rfl h
  · exact Or.inl h

/-- The session after an accepted rollback: nothing is pending. -/
theorem queueSettled_rolledBack (pc : PeerConnection) (hq : QueueSettled pc) :
    QueueSettled { pc with
      pendingLocalDescription := none
      pendingRemoteDescription := none
      signalingState := .stable } := by
  refine queueSettled_of pc _ hq (fun x hx => by cases hx) (fun x hx => hq.2.1 x hx) ?_ rfl
  intro hne
  rw [remoteDescription_ne_none] at hne ⊢
  rcases hne with h | h
  · exact absurd rfl h
  · exact Or.inr h

theorem queueSettled_setLocal (pc pc1 : PeerConnection) (d : SessionDescription) (ok : Bool)
    (h : pcSetLocalDescription pc d ok = some pc1) (hq : QueueSettled pc) :
    QueueSettled pc1 := by
  unfold pcSetLocalDescription at h
  split at h
  · cases h
  · split at h
    all_goals first
      | (cases h
         exact queueSettled_rolledBack pc hq)
      | (cases h
         exact queueSettled_of pc _ hq hq.1 hq.2.1 id rfl)
      | (cases h
         exact queueSettled_answered pc d hq)
      | (cases h)

theorem queueSettled_createOffer (pc : PeerConnection) (o : Outcomes) (hq : QueueSettled pc) :
    QueueSettled (createOffer pc o).pc := by
  unfold createOffer
  cases h1 : pcCreateOffer pc o.createSdp with
  | none => exact hq
  | some offer =>
    cases h2 : pcSetLocalDescription pc offer o.setLocalOk with
    | none => simpa [h2] using hq
    | some pc1 => simpa [h2] using queueSettled_setLocal pc pc1 offer _ h2 hq

theorem queueSettled_createAnswer (pc : PeerConnection) (o : Outcomes) (hq : QueueSettled pc) :
    QueueSettled (createAnswer pc o).pc := by
  unfold createAnswer
  cases h1 : pcCreateAnswer pc o.createSdp with
  | none => exact hq
  | some answer =>
    cases h2 : pcSetLocalDescription pc answer o.setLocalOk with
    | none => simpa [h2] using hq
    | some pc1 => simpa [h2] using queueSettled_setLocal pc pc1 answer _ h2 hq

theorem queueSettled_rollback (pc : PeerConnection) (o : Outcomes) (hq : QueueSettled pc) :
    QueueSettled (rollbackIfUnstable pc o).1 := by
  unfold rollbackIfUnstable
  split
  · cases h : pcRollback pc o.rollbackOk with
    | none => exact hq
    | some pc1 =>
      simp only
      unfold pcRollback at h
      split at h
      · cases h
      · split at h
        all_goals first
          | (cases h
             exact queueSettled_rolledBack pc hq)
          | (cases h)
  · exact hq

theorem pcSetRemoteDescription_remotes (pc pc1 : PeerConnection) (d : SessionDescription)
    (ok : Bool) (h : pcSetRemoteDescription pc d ok = some pc1) (hq : QueueSettled pc) :
    (∀ x, pc1.pendingRemoteDescription = some x → x.sdp ≠ "")
      ∧ (∀ x, pc1.currentRemoteDescription = some x → x.sdp ≠ "") := by
  obtain ⟨ty, sdp⟩ := d
  obtain ⟨hp, hc, _⟩ := hq
  cases ty <;> cases hx : pc.signalingState <;> simp [pcSetRemoteDescription, hx] at h <;>
    (obtain ⟨h0, h⟩ := h
     subst h
     simp_all)

theorem queueSettled_setRemote (pc : PeerConnection) (d : Option SessionDescription)
    (o : Outcomes) (hq : QueueSettled pc) : QueueSettled (setRemoteDescription pc d o).pc := by
  unfold setRemoteDescription
  cases d with
  | none => exact hq
  | some desc =>
    cases h : pcSetRemoteDescription pc desc o.setRemoteOk with
    | none => simpa [h] using hq
    | some pc1 =>
      obtain ⟨h1, h2⟩ := pcSetRemoteDescription_remotes pc pc1 desc _ h hq
      simp only [h, flush_pc]
      exact ⟨h1, h2, fun _ => rfl⟩

theorem missing_iff_none (pc : PeerConnection) (hq : QueueSettled pc) :
    remoteDescriptionMissing pc = true ↔ pc.remoteDescription = none := by
  obtain ⟨hp, hc, _⟩ := hq
  unfold remoteDescriptionMissing
  cases hr : pc.remoteDescription with
  | none => simp
  | some d =>
    have hsdp : d.sdp ≠ "" := by
      unfold PeerConnection.remoteDescription at hr
      cases hpr : pc.pendingRemoteDescription with
      | none =>
        rw [hpr] at hr
        exact hc d hr
      | some x =>
        rw [hpr] at hr
        cases hr
        exact hp _ hpr
    simp [hsdp]

theorem queueSettled_addIceCandidate (pc : PeerConnection) (c : Option IceCandidate)
    (o : Outcomes) (hq : QueueSettled pc) : QueueSettled (addIceCandidate pc c o).pc := by
  unfold addIceCandidate
  cases c with
  | none => exact hq
  | some c =>
    cases hm : remoteDescriptionMissing pc with
    | false => simpa [hm] using hq
    | true =>
      have hnone := (missing_iff_none pc hq).mp hm
      obtain ⟨hp, hc, _⟩ := hq
      simp only [hm, if_true]
      exact ⟨hp, hc, fun hne => absurd hnone hne⟩

theorem queueSettled_reachable (room : Room) (is : List Input) :
    AllSessions QueueSettled (run room Engine.init is) := by
  apply run_allSessions QueueSettled queueSettled_new queueSettled_createOffer
    queueSettled_createAnswer queueSettled_rollback queueSettled_setRemote
    queueSettled_addIceCandidate
  intro u pc hg
  cases hg

/-- C28: in every state the engine reaches from its initial state by handling
events one at a time, a session whose remote description is present has an empty
candidate queue (and a present remote description always carries an sdp).  So
for a newly received candidate `addIceCandidate` does what the specified rule
does, enqueue and then flush if the remote description is present: the same
calls on the transport, hence the same candidates applied in the same order, and
the same session afterwards. -/
theorem C28_direct_application_is_enqueue_then_flush (room : Room) (is : List Input)
    (u : UserId) (pc : PeerConnection) (c : IceCandidate) (o : Outcomes)
    (hg : mapGet (run room Engine.init is).peerConnections u = some pc) :
    (remoteDescriptionMissing pc = true ∨ pc.remoteCandidateQueue = [])
      ∧ (pc.remoteDescription = none ∨ pc.remoteCandidateQueue = [])
      ∧ (addIceCandidate pc (some c) o).ops = (enqueueThenFlush pc c o).ops
      ∧ appliedCandidates (addIceCandidate pc (some c) o).ops
        = appliedCandidates (enqueueThenFlush pc c o).ops
      ∧ (addIceCandidate pc (some c) o).pc = (enqueueThenFlush pc c o).pc := by
  have hq := queueSettled_reachable room is u pc hg
  have hiff := missing_iff_none pc hq
  have hmiss : ∀ q : List IceCandidate,
      remoteDescriptionMissing { pc with remoteCandidateQueue := q }
        = remoteDescriptionMissing pc := fun _ => rfl
  cases hm : remoteDescriptionMissing pc with
  | true =>
    have hops : (addIceCandidate pc (some c) o).ops = (enqueueThenFlush pc c o).ops := by
      simp [addIceCandidate, enqueueThenFlush, hm, hmiss]
    refine ⟨Or.inl rfl, Or.inl (hiff.mp hm), hops, by rw [hops], ?_⟩
    simp [addIceCandidate, enqueueThenFlush, hm, hmiss]
  | false =>
    have hne : pc.remoteDescription ≠ none := fun hn => by
      rw [hiff.mpr hn] at hm
      cases hm
    have hempty : pc.remoteCandidateQueue = [] := hq.2.2 hne
    have hsome := remoteDescription_isSome_of_present pc hm
    have hpc : ({ pc with remoteCandidateQueue := [] } : PeerConnection) = pc := by
      obtain ⟨st, cl, pl, cr, pr, sn, q⟩ := pc
      simp only at hempty
      subst hempty
      rfl
    have hval : enqueueThenFlush pc c o
        = { pc := pc
            ops := [TransportOp.addIceCandidate c (o.candidateOk 0) true []]
            result := some () } := by
      unfold enqueueThenFlush
      simp only [hmiss, hm, hempty, List.nil_append, _flushQueuedCandidates, flushLoop,
        remoteDescription_queue, hsome, hpc]
      simp
    have hdirect : addIceCandidate pc (some c) o
        = { pc := pc
            ops := [TransportOp.addIceCandidate c (o.candidateOk 0) true []]
            result := if o.candidateOk 0 then some () else none } := by
      simp [addIceCandidate, hm, hsome, hempty]
    refine ⟨Or.inr hempty, Or.inr hempty, ?_, ?_, ?_⟩ <;> rw [hval, hdirect]

theorem C28_direct_application_is_enqueue_then_flush_witness :
    mapGet (run sampleRoom Engine.init
        [{ localStream := none
           event := .offer "A" (some sampleOffer) allAccepted }]).peerConnections "A"
        = some (answeredSession pcNew sampleOffer { type := .answer, sdp := "v=0" })
      ∧ (addIceCandidate (answeredSession pcNew sampleOffer { type := .answer, sdp := "v=0" })
          (some sampleCandidate1) candidatesRejected).ops
        = (enqueueThenFlush (answeredSession pcNew sampleOffer { type := .answer, sdp := "v=0" })
            sampleCandidate1 candidatesRejected).ops :=
  ⟨by decide,
    (C28_direct_application_is_enqueue_then_flush sampleRoom
      [{ localStream := none, event := .offer "A" (some sampleOffer) allAccepted }] "A"
      (answeredSession pcNew sampleOffer { type := .answer, sdp := "v=0" }) sampleCandidate1
      candidatesRejected (by decide)).2.2.1⟩

/-! ## The flush under interleaving -/

theorem flushRound_present (pc : PeerConnection) (ok : Bool)
    (h : remoteDescriptionMissing pc = false) :
    remoteDescriptionMissing (flushRound pc ok).1 = false := by
  unfold flushRound
  cases hq : pc.remoteCandidateQueue with
  | nil => simpa [hq] using h
  | cons c rest => simpa [hq] using h

theorem interleave_present (pc : PeerConnection) (ticks : List FlushTick)
    (h : remoteDescriptionMissing pc = false) :
    (∀ op ∈ (interleave pc ticks).2, candidateGuarded op = true)
      ∧ (pc.remoteCandidateQueue.take (resumes ticks)).Sublist
          (appliedCandidates (interleave pc ticks).2)
      ∧ (arrivals ticks).Sublist (appliedCandidates (interleave pc ticks).2)
      ∧ (interleave pc ticks).1.remoteCandidateQueue
        = pc.remoteCandidateQueue.drop (resumes ticks)
      ∧ (appliedCandidates (interleave pc ticks).2).length
        = (pc.remoteCandidateQueue.take (resumes ticks)).length + (arrivals ticks).length := by
  have hsome := remoteDescription_isSome_of_present pc h
  induction ticks generalizing pc with
  | nil => simp [interleave, resumes, arrivals, appliedCandidates]
  | cons t rest ih =>
    cases t with
    | resume ok =>
      cases hq : pc.remoteCandidateQueue with
      | nil =>
        have hr : flushRound pc ok = (pc, []) := by simp [flushRound, hq]
        obtain ⟨h1, h2, h3, h4, h5⟩ := ih pc h hsome
        simp only [interleave, flushTick, hr, List.nil_append, resumes, arrivals]
        rw [hq] at h2 h4 h5
        refine ⟨h1, by simp, h3, by simpa using h4, by simpa using h5⟩
      | cons c q =>
        have hr : flushRound pc ok
            = ({ pc with remoteCandidateQueue := q },
                [TransportOp.addIceCandidate c ok pc.remoteDescription.isSome q]) := by
          simp [flushRound, hq]
        obtain ⟨h1, h2, h3, h4, h5⟩ := ih { pc with remoteCandidateQueue := q } h hsome
        simp only [interleave, flushTick, hr, resumes, arrivals, List.take_succ_cons,
          List.drop_succ_cons, List.singleton_append]
        refine ⟨?_, ?_, ?_, h4, ?_⟩
        · intro op hop
          rcases List.mem_cons.mp hop with rfl | hop
          · simpa [candidateGuarded] using hsome
          · exact h1 op hop
        · simpa [appliedCandidates] using List.Sublist.cons₂ c h2
        · simpa [appliedCandidates] using List.Sublist.cons c h3
        · simp only [appliedCandidates, List.filterMap_cons, List.length_cons] at h5 ⊢
          omega
    | candidate c ok =>
      have hr : flushTick pc (.candidate c ok)
          = (pc, [TransportOp.addIceCandidate c ok true pc.remoteCandidateQueue]) := by
        simp [flushTick, addIceCandidate, h, hsome]
      obtain ⟨h1, h2, h3, h4, h5⟩ := ih pc h hsome
      simp only [interleave, hr, resumes, arrivals, List.singleton_append]
      refine ⟨?_, ?_, ?_, h4, ?_⟩
      · intro op hop
        rcases List.mem_cons.mp hop with rfl | hop
        · rfl
        · exact h1 op hop
      · simpa [appliedCandidates] using List.Sublist.cons c h2
      · simpa [appliedCandidates] using List.Sublist.cons₂ c h3
      · simp only [appliedCandidates, List.filterMap_cons, List.length_cons] at h5 ⊢
        omega

/-- C26 (as the code has it): on a session whose remote description is present,
whatever way the rounds of the flush and the handling of arriving candidates are
interleaved, every candidate is handed to the transport with the remote
description present; the queued candidates are applied in their arrival order,
one per round, and so are the arriving candidates among themselves, each at
once when it arrives; nothing else is applied, and the queue loses one candidate
per round.  A candidate that arrives while the description is still being
applied, the remote description being missing, is only queued. -/
theorem C26_interleaved_flush (pc early : PeerConnection) (ticks : List FlushTick)
    (c : IceCandidate) (ok : Bool) (h : remoteDescriptionMissing pc = false)
    (hearly : remoteDescriptionMissing early = true) :
    (∀ op ∈ (interleave pc ticks).2, candidateGuarded op = true)
      ∧ (pc.remoteCandidateQueue.take (resumes ticks)).Sublist
          (appliedCandidates (interleave pc ticks).2)
      ∧ (arrivals ticks).Sublist (appliedCandidates (interleave pc ticks).2)
      ∧ (interleave pc ticks).1.remoteCandidateQueue
        = pc.remoteCandidateQueue.drop (resumes ticks)
      ∧ (appliedCandidates (interleave pc ticks).2).length
        = (pc.remoteCandidateQueue.take (resumes ticks)).length + (arrivals ticks).length
      ∧ flushTick early (.candidate c ok)
        = ({ early with remoteCandidateQueue := early.remoteCandidateQueue ++ [c] }, []) := by
  obtain ⟨h1, h2, h3, h4, h5⟩ := interleave_present pc ticks h
  refine ⟨h1, h2, h3, h4, h5, ?_⟩
  simp [flushTick, addIceCandidate, hearly]

theorem C26_interleaved_flush_witness :
    remoteDescriptionMissing sampleFlushing = false
      ∧ remoteDescriptionMissing sampleQueued = true
      ∧ (interleave sampleFlushing
          [.resume true, .candidate sampleCandidate3 true, .resume true]).1.remoteCandidateQueue
        = sampleFlushing.remoteCandidateQueue.drop
            (resumes [.resume true, .candidate sampleCandidate3 true, .resume true]) :=
  ⟨by decide, by decide,
    (C26_interleaved_flush sampleFlushing sampleQueued
      [.resume true, .candidate sampleCandidate3 true, .resume true] sampleCandidate3 true
      (by decide) (by decide)).2.2.2.1⟩

end VideoConference
